import Mathlib

/-!
Response parser, prompt builder, provider adapters and configuration of `how`
(`internal/ai`, `internal/config`).

A shallow embedding of `ParseResponse` and `extractCodeBlocks`, together with the
string primitives of Go's `strings` package that they call, of `BuildUserPrompt`, of the five
provider adapters and their factory `NewProvider`, and of `Config.IsConfigured` and
`MaskAPIKey`, and theorems about them.

A Go string is modelled as the list of its characters (`Str`).  The reply text handed to the
parser is UTF-8 text; the separator `"\n"`, the four markers and the fence are ASCII, so
splitting, prefix tests and joins act on characters exactly as they act on bytes.
-/

namespace How

/-- A Go `string`, as the list of its characters. -/
abbrev Str := List Char

/-! ## The `strings` primitives used by the parser -/

/-- Go `unicode.IsSpace`: the Latin-1 spaces `\t \n \v \f \r`, space, U+0085, U+00A0, and
the characters with the Unicode property White_Space beyond Latin-1 (U+1680, U+2000 to U+200A,
U+2028, U+2029, U+202F, U+205F, U+3000). -/
def isSpace (c : Char) : Bool :=
  (9 ≤ c.toNat && c.toNat ≤ 13) || c.toNat == 0x20 || c.toNat == 0x85 || c.toNat == 0xA0 ||
  c.toNat == 0x1680 || (0x2000 ≤ c.toNat && c.toNat ≤ 0x200A) || c.toNat == 0x2028 ||
  c.toNat == 0x2029 || c.toNat == 0x202F || c.toNat == 0x205F || c.toNat == 0x3000

/-- Go `strings.TrimSpace`: drop leading and trailing white space. -/
def TrimSpace (s : Str) : Str :=
  ((s.dropWhile isSpace).reverse.dropWhile isSpace).reverse

/-- Go `strings.HasPrefix`. -/
def HasPrefix (s pre : Str) : Bool :=
  pre.isPrefixOf s

/-- Go `strings.TrimPrefix`: `s` without the leading `pre`, or `s` itself. -/
def TrimPrefix (s pre : Str) : Str :=
  if HasPrefix s pre then s.drop pre.length else s

/-- Go `strings.Split(s, sep)` for a one-character separator (the parser only splits on
`"\n"`): the pieces of `s` between the separators; `Split "" sep = [""]`. -/
def Split : Str → Char → List Str
  | [], _ => [[]]
  | c :: cs, sep =>
    if c = sep then [] :: Split cs sep
    else
      match Split cs sep with
      | [] => [[c]]
      | l :: ls => (c :: l) :: ls

/-- Go `strings.Join`. -/
def Join : List Str → Str → Str
  | [], _ => []
  | [a], _ => a
  | a :: b :: rest, sep => a ++ sep ++ Join (b :: rest) sep

/-! ## Constants of the parser -/

/-- The line separator `"\n"`. -/
def nl : Str := ['\n']

/-- The marker `"TITLE:"`. -/
def markerTitle : Str := ['T', 'I', 'T', 'L', 'E', ':']

/-- The marker `"DESCRIPTION:"`. -/
def markerDescription : Str := ['D', 'E', 'S', 'C', 'R', 'I', 'P', 'T', 'I', 'O', 'N', ':']

/-- The marker `"COMMAND:"`. -/
def markerCommand : Str := ['C', 'O', 'M', 'M', 'A', 'N', 'D', ':']

/-- The marker `"SCRIPT:"`. -/
def markerScript : Str := ['S', 'C', 'R', 'I', 'P', 'T', ':']

/-- The markdown fence, three backticks. -/
def fence : Str := [Char.ofNat 96, Char.ofNat 96, Char.ofNat 96]

/-! ## `Response` and `ParseResponse` -/

/-- The struct `Response`. -/
structure Response where
  Title : Str
  Description : Str
  Commands : List Str
  RawResponse : Str
deriving DecidableEq, Repr

/-- The variables of the marker loop of `ParseResponse`: the three fields of `response` the
loop assigns, and the five locals declared before the loop. -/
structure ScanState where
  Title : Str
  Description : Str
  Commands : List Str
  passedScriptMarker : Bool
  scriptLines : List Str
  awaitingTitle : Bool
  awaitingDescription : Bool
  awaitingCommand : Bool
deriving DecidableEq, Repr

/-- The state on entry to the marker loop. -/
def scanInit : ScanState :=
  { Title := [], Description := [], Commands := [], passedScriptMarker := false,
    scriptLines := [], awaitingTitle := false, awaitingDescription := false,
    awaitingCommand := false }

/-- One iteration of the marker loop (`provider.go`, lines 40-114). -/
def scanLine (st : ScanState) (line : Str) : ScanState :=
  let trimmedLine := TrimSpace line
  if HasPrefix trimmedLine markerTitle then
    let title := TrimSpace (TrimPrefix trimmedLine markerTitle)
    if !title.isEmpty then
      { st with Title := title, awaitingTitle := false, awaitingDescription := false,
                awaitingCommand := false }
    else
      { st with Title := title, awaitingTitle := true }
  else if HasPrefix trimmedLine markerDescription then
    let description := TrimSpace (TrimPrefix trimmedLine markerDescription)
    if description.isEmpty then
      { st with Description := description, awaitingTitle := false,
                awaitingDescription := false, awaitingCommand := false }
    else
      { st with Description := description, awaitingDescription := true }
  else if HasPrefix trimmedLine markerCommand then
    let cmd := TrimSpace (TrimPrefix trimmedLine markerCommand)
    if !cmd.isEmpty then
      { st with Commands := st.Commands ++ [cmd], awaitingTitle := false,
                awaitingDescription := false, awaitingCommand := false }
    else
      { st with awaitingCommand := true }
  else if !trimmedLine.isEmpty && st.awaitingTitle then
    { st with Title := trimmedLine, awaitingTitle := false }
  else if !trimmedLine.isEmpty && st.awaitingDescription then
    { st with Description := trimmedLine, awaitingDescription := false }
  else if !trimmedLine.isEmpty && st.awaitingCommand then
    { st with Commands := st.Commands ++ [trimmedLine], awaitingCommand := false }
  else if HasPrefix trimmedLine markerScript then
    { st with passedScriptMarker := true }
  else if st.passedScriptMarker && !trimmedLine.isEmpty then
    { st with scriptLines := st.scriptLines ++ [line] }
  else
    st

/-- The marker loop run over a list of lines from a given state. -/
def scanLines (st : ScanState) (lines : List Str) : ScanState :=
  lines.foldl scanLine st

/-- The marker loop of `ParseResponse` on a reply: the state after the last line. -/
def markerScan (rawResponse : Str) : ScanState :=
  scanLines scanInit (Split rawResponse '\n')

/-- The commands after "Add script lines to commands" (`provider.go`, lines 116-119): the
output of the first pass. -/
def markerCommands (rawResponse : Str) : List Str :=
  let st := markerScan rawResponse
  if st.scriptLines.length > 0 then st.Commands ++ [Join st.scriptLines nl] else st.Commands

/-- The variables of the loop of `extractCodeBlocks`. -/
structure BlockState where
  commands : List Str
  inCodeBlock : Bool
  codeLines : List Str
deriving DecidableEq, Repr

/-- The state on entry to the loop of `extractCodeBlocks`. -/
def blockInit : BlockState :=
  { commands := [], inCodeBlock := false, codeLines := [] }

/-- One iteration of the loop of `extractCodeBlocks` (`provider.go`, lines 142-162). -/
def blockLine (st : BlockState) (line : Str) : BlockState :=
  if HasPrefix (TrimSpace line) fence then
    if st.inCodeBlock then
      if st.codeLines.length > 0 then
        { commands := st.commands ++ [Join st.codeLines nl], inCodeBlock := false,
          codeLines := [] }
      else
        { st with inCodeBlock := false }
    else
      { st with inCodeBlock := true }
  else if st.inCodeBlock then
    { st with codeLines := st.codeLines ++ [line] }
  else
    st

/-- The loop of `extractCodeBlocks` run over a list of lines from a given state. -/
def blockLines (st : BlockState) (lines : List Str) : BlockState :=
  lines.foldl blockLine st

/-- The function `extractCodeBlocks`. -/
def extractCodeBlocks (text : Str) : List Str :=
  (blockLines blockInit (Split text '\n')).commands

/-- The function `ParseResponse`. -/
def ParseResponse (rawResponse : Str) : Response :=
  let st := markerScan rawResponse
  let commands := markerCommands rawResponse
  let commands := if commands.length == 0 then extractCodeBlocks rawResponse else commands
  let commands :=
    if commands.length == 0 && !rawResponse.isEmpty then [rawResponse] else commands
  { Title := st.Title, Description := st.Description, Commands := commands,
    RawResponse := rawResponse }

/-! ## Vocabulary for describing replies -/

/-- The trimmed line starts with one of the three value markers `TITLE:`, `DESCRIPTION:`,
`COMMAND:`. -/
def isValueMarkerLine (line : Str) : Bool :=
  HasPrefix (TrimSpace line) markerTitle || HasPrefix (TrimSpace line) markerDescription ||
  HasPrefix (TrimSpace line) markerCommand

/-- The trimmed line starts with one of the four markers. -/
def isMarkerLine (line : Str) : Bool :=
  isValueMarkerLine line || HasPrefix (TrimSpace line) markerScript

/-- The trimmed line starts with three backticks. -/
def isFenceLine (line : Str) : Bool :=
  HasPrefix (TrimSpace line) fence

/-- The line is empty after trimming. -/
def isBlank (line : Str) : Bool :=
  (TrimSpace line).isEmpty

/-- A fenced block of a reply: the opening fence line, the body lines and the closing fence
line. -/
structure FencedBlock where
  opening : Str
  body : List Str
  closing : Str
deriving DecidableEq, Repr

/-- The lines of a sequence of fenced blocks, each followed by prose lines. -/
def segmentLines : List (FencedBlock × List Str) → List Str
  | [] => []
  | s :: rest => (s.1.opening :: s.1.body ++ s.1.closing :: s.2) ++ segmentLines rest

/-- The lines of a reply made of prose lines followed by fenced blocks, each followed by prose
lines. -/
def fencedReplyLines (prose : List Str) (segs : List (FencedBlock × List Str)) : List Str :=
  prose ++ segmentLines segs

/-- A complete fenced block followed by prose: the opening and the closing line are fence
lines, the body has at least one line, and neither a body line nor a prose line is a fence
line. -/
def WellFenced (s : FencedBlock × List Str) : Prop :=
  isFenceLine s.1.opening = true ∧ isFenceLine s.1.closing = true ∧ s.1.body ≠ [] ∧
  (∀ l ∈ s.1.body, isFenceLine l = false) ∧ (∀ l ∈ s.2, isFenceLine l = false)

instance (s : FencedBlock × List Str) : Decidable (WellFenced s) := by
  unfold WellFenced
  exact inferInstance

/-- The reply used to exercise the fenced-block pass: a prose line, a fenced block, a prose
line and a second fenced block of two lines. -/
def fencedExample : List (FencedBlock × List Str) :=
  [({ opening := "```bash".toList, body := ["ls -la".toList], closing := "```".toList },
      ["then".toList]),
    ({ opening := "```".toList, body := ["cd /tmp".toList, "pwd".toList],
       closing := "```".toList }, [])]

/-- The trimmed line starts with `SCRIPT:`. -/
def isScriptMarkerLine (line : Str) : Bool :=
  HasPrefix (TrimSpace line) markerScript

/-- A `TITLE:` line that carries text after the marker. -/
def isInlineTitleLine (line : Str) : Bool :=
  HasPrefix (TrimSpace line) markerTitle &&
  !(TrimSpace (TrimPrefix (TrimSpace line) markerTitle)).isEmpty

/-- A `COMMAND:` line that carries text after the marker. -/
def isInlineCommandLine (line : Str) : Bool :=
  HasPrefix (TrimSpace line) markerCommand &&
  !(TrimSpace (TrimPrefix (TrimSpace line) markerCommand)).isEmpty

/-- A line after which no field is awaited: a line without marker, a `TITLE:` or `COMMAND:`
line with text, or a `SCRIPT:` line. -/
def isSettledLine (line : Str) : Bool :=
  !isMarkerLine line || isInlineTitleLine line || isInlineCommandLine line ||
  isScriptMarkerLine line

/-- Following the words of the claim on script collection: all non-blank lines after the
first `SCRIPT:` line, in order, joined with newlines. -/
def claimedScriptElement (raw : Str) : Str :=
  Join ((((Split raw '\n').dropWhile (fun l => !isScriptMarkerLine l)).drop 1).filter
    (fun l => !isBlank l)) nl

/-- The text after the marker of a `COMMAND:` line, trimmed. -/
def commandValue (line : Str) : Str :=
  TrimSpace (TrimPrefix (TrimSpace line) markerCommand)

/-- A `COMMAND:` line without text after the marker. -/
def isBareCommandLine (line : Str) : Bool :=
  HasPrefix (TrimSpace line) markerCommand && (commandValue line).isEmpty

/-- Following the words of the claim on the order of commands: the values of the `COMMAND:`
lines that carry text, in the order of the lines. -/
def inlineCommandValues (lines : List Str) : List Str :=
  (lines.filter isInlineCommandLine).map commandValue

/-- No field is awaited. -/
def noFieldAwaited (st : ScanState) : Bool :=
  !(st.awaitingTitle || st.awaitingDescription || st.awaitingCommand)

/-- The lines of `lines`, read from the state `st`, that are not blank, start with no marker
and are read while no field is awaited. -/
def appendedAfter : ScanState → List Str → List Str
  | _, [] => []
  | st, l :: rest =>
    (if !isBlank l && !isMarkerLine l && noFieldAwaited st then [l] else []) ++
      appendedAfter (scanLine st l) rest

/-- The lines after the first `SCRIPT:` line that are not blank and start with no marker. -/
def scriptPart (lines : List Str) : List Str :=
  ((lines.dropWhile (fun l => !isScriptMarkerLine l)).drop 1).filter
    (fun l => !isBlank l && !isMarkerLine l)

/-- No field awaited and script collection on. -/
def Collecting (st : ScanState) : Prop :=
  st.awaitingTitle = false ∧ st.awaitingDescription = false ∧ st.awaitingCommand = false ∧
  st.passedScriptMarker = true

/-- The discrete commands and the script lines collected so far are non-empty strings. -/
def NonEmptyBuffers (st : ScanState) : Prop :=
  (∀ c ∈ st.Commands, c ≠ []) ∧ (∀ l ∈ st.scriptLines, l ≠ [])

/-! ## Prompt builder (`internal/ai/prompt.go`, `internal/system/detect.go`) -/

/-- The struct `SystemInfo`. -/
structure SystemInfo where
  OS : Str
  OSName : Str
  Shell : Str
  ShellPath : Str
deriving DecidableEq, Repr

/-- The method `SystemInfo.GetPackageManager`; `commandExists` stands for the look-up of a
command in `PATH`. -/
def SystemInfo.GetPackageManager (commandExists : Str → Bool) (s : SystemInfo) : Str :=
  if s.OS = "darwin".toList then "brew".toList
  else if s.OS = "windows".toList then
    if commandExists "choco".toList then "choco".toList
    else if commandExists "scoop".toList then "scoop".toList
    else "winget".toList
  else if s.OS = "freebsd".toList then "pkg".toList
  else if s.OS = "linux".toList then
    if commandExists "apt".toList then "apt".toList
    else if commandExists "pacman".toList then "pacman".toList
    else if commandExists "yum".toList then "yum".toList
    else if commandExists "dnf".toList then "dnf".toList
    else if commandExists "zypper".toList then "zypper".toList
    else "unknown".toList
  else "unknown".toList

/-- The text of the system prompt up to the operating system name. -/
def promptHead : Str :=
  "You are a helpful terminal command assistant. The user is running:\n".toList ++
  "OS: ".toList

/-- The text of the system prompt between the operating system name and the shell. -/
def promptShell : Str :=
  "\n".toList ++
  "Shell: ".toList

/-- The text of the system prompt between the shell and the package manager. -/
def promptPackageManager : Str :=
  "\n".toList ++
  "Package Manager: ".toList

/-- The text of the system prompt after the package manager. -/
def promptTail : Str :=
  "\n".toList ++
  "\n".toList ++
  "When asked a question about how to do something in a terminal, respond with commands\n".toList ++
  "and solutions SPECIFICALLY for this operating system and shell.\n".toList ++
  "\n".toList ++
  "Important OS-specific considerations:\n".toList ++
  "- macOS: Use homebrew, launchctl, system commands specific to Darwin\n".toList ++
  "- Linux: Vary by distro (apt/yum/pacman), use systemctl, GNU coreutils\n".toList ++
  "- Arch Linux: Use pacman, prefer Arch-specific approaches\n".toList ++
  "- Ubuntu/Debian: Use apt, systemd\n".toList ++
  "- Windows: Use PowerShell or cmd syntax, Windows-specific commands\n".toList ++
  "- FreeBSD: Use pkg, rc.d, BSD-specific commands\n".toList ++
  "\n".toList ++
  "Format your response as:\n".toList ++
  "TITLE: [optional one-line title]\n".toList ++
  "DESCRIPTION: [optional additional information]\n".toList ++
  "COMMAND: [one-line command]\n".toList ++
  "\n".toList ++
  "For multi-line scripts, use:\n".toList ++
  "TITLE: [optional one-line title]\n".toList ++
  "DESCRIPTION: [optional additional information]\n".toList ++
  "SCRIPT:\n".toList ++
  "[line 1]\n".toList ++
  "[line 2]\n".toList ++
  "[line 3]\n".toList ++
  "\n".toList ++
  "Be concise and practical. Only include commands that directly answer the question\n".toList ++
  "for the user's specific OS and shell. Only include a description for complex commands or scripts.\n".toList ++
  "Do NOT include explanations outside the structured format. Keep it clean and executable.".toList

/-- The function `BuildSystemPrompt`: the template with the three `%s` filled in. -/
def BuildSystemPrompt (commandExists : Str → Bool) (sysInfo : SystemInfo) : Str :=
  promptHead ++ sysInfo.OSName ++ promptShell ++ sysInfo.Shell ++ promptPackageManager ++
    sysInfo.GetPackageManager commandExists ++ promptTail

/-- The literal `"how "`. -/
def howPrefix : Str := ['h', 'o', 'w', ' ']

/-- The function `BuildUserPrompt`. -/
def BuildUserPrompt (question : Str) : Str :=
  if HasPrefix question howPrefix then question else howPrefix ++ question

/-! ## Provider adapters (`internal/ai/*.go`)

The vendor SDKs are outside the repository.  A vendor call is a function of the client and
the request, given in `Env`; an error is its message; `Ask` returns the pair `(*Response,
error)` as an `Except`, together with the list of the vendor calls it issued. -/

/-- A request option of the OpenAI SDK, as far as the adapters use them. -/
inductive RequestOption where
  | WithAPIKey (key : Str)
  | WithBaseURL (url : Str)
deriving DecidableEq, Repr

/-- An `openai.Client`: the options it was created with. -/
structure OpenAIClient where
  opts : List RequestOption
deriving DecidableEq, Repr

/-- An `anthropic.Client`: the options it was created with. -/
structure AnthropicClient where
  opts : List RequestOption
deriving DecidableEq, Repr

/-- A `genai.Client`: the `ClientConfig` it was created with. -/
structure GoogleClient where
  APIKey : Str
deriving DecidableEq, Repr

/-- The parameters of `Chat.Completions.New`: the system message, the user message, the
model. -/
structure ChatCompletionNewParams where
  systemMessage : Str
  userMessage : Str
  Model : Str
deriving DecidableEq, Repr

/-- A chat completion, as far as the adapters read it: `Choices[i].Message.Content`. -/
structure ChatCompletion where
  Choices : List Str
deriving DecidableEq, Repr

/-- The parameters of `Messages.New` of the Anthropic SDK. -/
structure MessageNewParams where
  Model : Str
  MaxTokens : Nat
  System : Str
  userMessage : Str
deriving DecidableEq, Repr

/-- What `block.AsText()` returns for a content block. -/
structure TextBlock where
  type : Str
  Text : Str
deriving DecidableEq, Repr

/-- An Anthropic message, as far as the adapter reads it: the content blocks seen through
`AsText()`. -/
structure AnthropicMessage where
  Content : List TextBlock
deriving DecidableEq, Repr

/-- A candidate of a Google reply: `Content` is `nil` or holds the texts of its parts. -/
structure Candidate where
  Content : Option (List Str)
deriving DecidableEq, Repr

/-- A `GenerateContentResponse`, as far as the adapter reads it. -/
structure GenerateContentResponse where
  Candidates : List Candidate
deriving DecidableEq, Repr

/-- A vendor call issued by an adapter. -/
inductive VendorCall where
  | chat (client : OpenAIClient) (params : ChatCompletionNewParams)
  | messages (client : AnthropicClient) (params : MessageNewParams)
  | generateContent (client : GoogleClient) (model : Str) (contents : Str)
deriving DecidableEq, Repr

/-- The world outside the adapters: the look-up of commands in `PATH`, the construction of a
Google client, and the three vendor calls. -/
structure Env where
  commandExists : Str → Bool
  newGoogleClient : Str → Except Str GoogleClient
  chat : OpenAIClient → ChatCompletionNewParams → Except Str ChatCompletion
  messages : AnthropicClient → MessageNewParams → Except Str AnthropicMessage
  generateContent : GoogleClient → Str → Str → Except Str GenerateContentResponse

/-- The struct `OpenAIProvider`. -/
structure OpenAIProvider where
  client : OpenAIClient
  model : Str
deriving DecidableEq, Repr

/-- The struct `AnthropicProvider`. -/
structure AnthropicProvider where
  client : AnthropicClient
  model : Str
deriving DecidableEq, Repr

/-- The struct `GoogleProvider`; `client` may be `nil`. -/
structure GoogleProvider where
  client : Option GoogleClient
  model : Str
deriving DecidableEq, Repr

/-- The struct `XAIProvider`. -/
structure XAIProvider where
  client : OpenAIClient
  model : Str
deriving DecidableEq, Repr

/-- The struct `OpenAICompatibleProvider`. -/
structure OpenAICompatibleProvider where
  client : OpenAIClient
  model : Str
  baseURL : Str
deriving DecidableEq, Repr

/-- The function `NewOpenAIProvider`. -/
def NewOpenAIProvider (apiKey model : Str) : OpenAIProvider :=
  { client := { opts := [RequestOption.WithAPIKey apiKey] }, model := model }

/-- The function `NewAnthropicProvider`. -/
def NewAnthropicProvider (apiKey model : Str) : AnthropicProvider :=
  { client := { opts := [RequestOption.WithAPIKey apiKey] }, model := model }

/-- The function `NewGoogleProvider`: when the client cannot be created, the provider holds
no client. -/
def NewGoogleProvider (env : Env) (apiKey model : Str) : GoogleProvider :=
  match env.newGoogleClient apiKey with
  | Except.error _ => { client := none, model := model }
  | Except.ok client => { client := some client, model := model }

/-- The function `NewXAIProvider`. -/
def NewXAIProvider (apiKey model : Str) : XAIProvider :=
  { client := { opts := [RequestOption.WithAPIKey apiKey,
                         RequestOption.WithBaseURL "https://api.x.ai/v1".toList] },
    model := model }

/-- The function `NewOpenAICompatibleProvider`: the API key is added only when provided. -/
def NewOpenAICompatibleProvider (apiKey model baseURL : Str) : OpenAICompatibleProvider :=
  let opts := [RequestOption.WithBaseURL baseURL]
  let opts := if !apiKey.isEmpty then opts ++ [RequestOption.WithAPIKey apiKey] else opts
  { client := { opts := opts }, model := model, baseURL := baseURL }

/-- The parameters that the OpenAI, xAI and OpenAI-compatible adapters pass to
`Chat.Completions.New`: the system prompt as system message, the user prompt as user message,
and the model of the provider. -/
def chatParams (env : Env) (model question : Str) (sysInfo : SystemInfo) :
    ChatCompletionNewParams :=
  let systemPrompt := BuildSystemPrompt env.commandExists sysInfo
  let userPrompt := BuildUserPrompt question
  { systemMessage := systemPrompt, userMessage := userPrompt, Model := model }

/-- The parameters that the Anthropic adapter passes to `Messages.New`. -/
def messageParams (env : Env) (model question : Str) (sysInfo : SystemInfo) :
    MessageNewParams :=
  let systemPrompt := BuildSystemPrompt env.commandExists sysInfo
  let userPrompt := BuildUserPrompt question
  { Model := model, MaxTokens := 1024, System := systemPrompt, userMessage := userPrompt }

/-- The prompt that the Google adapter sends: system and user prompt combined. -/
def googlePrompt (env : Env) (question : Str) (sysInfo : SystemInfo) : Str :=
  let systemPrompt := BuildSystemPrompt env.commandExists sysInfo
  let userPrompt := BuildUserPrompt question
  systemPrompt ++ "\n\nUser question: ".toList ++ userPrompt

/-- The method `OpenAIProvider.Ask`. -/
def OpenAIProvider.Ask (env : Env) (p : OpenAIProvider) (question : Str)
    (sysInfo : SystemInfo) : Except Str Response × List VendorCall :=
  let params := chatParams env p.model question sysInfo
  let calls := [VendorCall.chat p.client params]
  match env.chat p.client params with
  | Except.error err => (Except.error ("OpenAI API error: ".toList ++ err), calls)
  | Except.ok chatCompletion =>
    match chatCompletion.Choices with
    | [] => (Except.error "no response from OpenAI".toList, calls)
    | responseText :: _ => (Except.ok (ParseResponse responseText), calls)

/-- The method `XAIProvider.Ask`. -/
def XAIProvider.Ask (env : Env) (p : XAIProvider) (question : Str)
    (sysInfo : SystemInfo) : Except Str Response × List VendorCall :=
  let params := chatParams env p.model question sysInfo
  let calls := [VendorCall.chat p.client params]
  match env.chat p.client params with
  | Except.error err => (Except.error ("xAI API error: ".toList ++ err), calls)
  | Except.ok chatCompletion =>
    match chatCompletion.Choices with
    | [] => (Except.error "no response from xAI".toList, calls)
    | responseText :: _ => (Except.ok (ParseResponse responseText), calls)

/-- The method `OpenAICompatibleProvider.Ask`. -/
def OpenAICompatibleProvider.Ask (env : Env) (p : OpenAICompatibleProvider) (question : Str)
    (sysInfo : SystemInfo) : Except Str Response × List VendorCall :=
  let params := chatParams env p.model question sysInfo
  let calls := [VendorCall.chat p.client params]
  match env.chat p.client params with
  | Except.error err => (Except.error ("OpenAI-compatible API error: ".toList ++ err), calls)
  | Except.ok chatCompletion =>
    match chatCompletion.Choices with
    | [] => (Except.error "no response from OpenAI-compatible API".toList, calls)
    | responseText :: _ => (Except.ok (ParseResponse responseText), calls)

/-- The loop of `AnthropicProvider.Ask` over the content blocks: the text of the first block
whose type is `"text"`, or the empty string. -/
def firstText : List TextBlock → Str
  | [] => []
  | textBlock :: rest =>
    if textBlock.type = "text".toList then textBlock.Text else firstText rest

/-- The method `AnthropicProvider.Ask`. -/
def AnthropicProvider.Ask (env : Env) (p : AnthropicProvider) (question : Str)
    (sysInfo : SystemInfo) : Except Str Response × List VendorCall :=
  let params := messageParams env p.model question sysInfo
  let calls := [VendorCall.messages p.client params]
  match env.messages p.client params with
  | Except.error err => (Except.error ("anthropic API error: ".toList ++ err), calls)
  | Except.ok message =>
    if message.Content.length == 0 then
      (Except.error "no response from Anthropic".toList, calls)
    else
      let responseText := firstText message.Content
      if responseText.isEmpty then
        (Except.error "no text content in Anthropic response".toList, calls)
      else
        (Except.ok (ParseResponse responseText), calls)

/-- The loop of `GoogleProvider.Ask` over the parts: the non-empty texts concatenated. -/
def joinParts (parts : List Str) : Str :=
  parts.foldl (fun responseText text => if !text.isEmpty then responseText ++ text
    else responseText) []

/-- The method `GoogleProvider.Ask`. -/
def GoogleProvider.Ask (env : Env) (p : GoogleProvider) (question : Str)
    (sysInfo : SystemInfo) : Except Str Response × List VendorCall :=
  match p.client with
  | none => (Except.error "google client not initialized".toList, [])
  | some client =>
    let fullPrompt := googlePrompt env question sysInfo
    let calls := [VendorCall.generateContent client p.model fullPrompt]
    match env.generateContent client p.model fullPrompt with
    | Except.error err => (Except.error ("google API error: ".toList ++ err), calls)
    | Except.ok resp =>
      match resp.Candidates with
      | [] => (Except.error "no response from Google".toList, calls)
      | candidate :: _ =>
        match candidate.Content with
        | none => (Except.error "no content in Google response".toList, calls)
        | some parts =>
          if parts.length == 0 then
            (Except.error "no content in Google response".toList, calls)
          else
            let responseText := joinParts parts
            if responseText.isEmpty then
              (Except.error "no text content in Google response".toList, calls)
            else
              (Except.ok (ParseResponse responseText), calls)

/-- The interface `Provider`, implemented by the five adapters. -/
inductive Provider where
  | OpenAI (p : OpenAIProvider)
  | Anthropic (p : AnthropicProvider)
  | Google (p : GoogleProvider)
  | XAI (p : XAIProvider)
  | OpenAICompatible (p : OpenAICompatibleProvider)
deriving DecidableEq, Repr

/-- The method `GetName` of the five adapters. -/
def Provider.GetName : Provider → Str
  | Provider.OpenAI _ => "OpenAI".toList
  | Provider.Anthropic _ => "Anthropic".toList
  | Provider.Google _ => "Google".toList
  | Provider.XAI _ => "xAI".toList
  | Provider.OpenAICompatible _ => "OpenAI-Compatible".toList

/-- The method `Ask` of the five adapters. -/
def Provider.Ask (env : Env) (provider : Provider) (question : Str) (sysInfo : SystemInfo) :
    Except Str Response × List VendorCall :=
  match provider with
  | Provider.OpenAI p => p.Ask env question sysInfo
  | Provider.Anthropic p => p.Ask env question sysInfo
  | Provider.Google p => p.Ask env question sysInfo
  | Provider.XAI p => p.Ask env question sysInfo
  | Provider.OpenAICompatible p => p.Ask env question sysInfo

/-- The function `NewProvider`. -/
def NewProvider (env : Env) (providerName apiKey model baseURL : Str) : Except Str Provider :=
  if providerName = "OpenAI".toList then
    Except.ok (Provider.OpenAI (NewOpenAIProvider apiKey model))
  else if providerName = "Anthropic".toList then
    Except.ok (Provider.Anthropic (NewAnthropicProvider apiKey model))
  else if providerName = "Google".toList then
    Except.ok (Provider.Google (NewGoogleProvider env apiKey model))
  else if providerName = "xAI".toList then
    Except.ok (Provider.XAI (NewXAIProvider apiKey model))
  else if providerName = "OpenAI-Compatible".toList then
    Except.ok (Provider.OpenAICompatible (NewOpenAICompatibleProvider apiKey model baseURL))
  else
    Except.error ("unknown provider: ".toList ++ providerName)

/-! ## Configuration (`internal/config/config.go`, `internal/config/keyring.go`) -/

/-- The constant `ProviderOpenAI`. -/
def ProviderOpenAI : Str := "OpenAI".toList

/-- The constant `ProviderAnthropic`. -/
def ProviderAnthropic : Str := "Anthropic".toList

/-- The constant `ProviderGoogle`. -/
def ProviderGoogle : Str := "Google".toList

/-- The constant `ProviderXAI`. -/
def ProviderXAI : Str := "xAI".toList

/-- The constant `ProviderOpenAICompatible`. -/
def ProviderOpenAICompatible : Str := "OpenAI-Compatible".toList

/-- The function `GetProviders`. -/
def GetProviders : List Str :=
  [ProviderOpenAI, ProviderAnthropic, ProviderGoogle, ProviderXAI, ProviderOpenAICompatible]

/-- The struct `Config`. -/
structure Config where
  CurrentProvider : Str
  CurrentModel : Str
  BaseURL : Str
deriving DecidableEq, Repr

/-- An error of the keyring library: `keyring.ErrNotFound`, or another one with its message. -/
inductive KeyringError where
  | ErrNotFound
  | other (msg : Str)
deriving DecidableEq, Repr

/-- The function `HasAPIKeyInKeyring`; `keyringGet` stands for `keyring.Get`, called with the
service name and the provider. -/
def HasAPIKeyInKeyring (keyringGet : Str → Str → Str × Option KeyringError) (provider : Str) :
    Bool × Option KeyringError :=
  match (keyringGet "how".toList provider).2 with
  | some KeyringError.ErrNotFound => (false, none)
  | some err => (false, some err)
  | none => (true, none)

/-- The method `Config.IsConfigured`; `hasKey` stands for `HasAPIKeyInKeyring`. -/
def Config.IsConfigured (hasKey : Str → Bool × Option KeyringError) (c : Config) :
    Bool × List Str :=
  let missing : List Str := []
  let ready := true
  let (ready, missing) :=
    if c.CurrentProvider.isEmpty then (false, missing ++ ["provider".toList])
    else (ready, missing)
  let (ready, missing) :=
    if c.CurrentModel.isEmpty then (false, missing ++ ["model".toList])
    else (ready, missing)
  if c.CurrentProvider ≠ ProviderOpenAICompatible then
    let (hasKeyValue, err) := hasKey c.CurrentProvider
    if err.isSome || !hasKeyValue then (false, missing ++ ["API key".toList])
    else (ready, missing)
  else
    if c.BaseURL.isEmpty then (false, missing ++ ["base URL".toList])
    else (ready, missing)

/-- A Go string as the list of its bytes, for the functions that count and slice bytes. -/
abbrev ByteStr := List UInt8

/-- The byte `*`. -/
def asterisk : UInt8 := 42

/-- The function `MaskAPIKey`. -/
def MaskAPIKey (key : ByteStr) : ByteStr :=
  if key.length ≤ 8 then
    let half := key.length / 2
    List.replicate (8 - half) asterisk ++ key.drop half
  else
    List.replicate 4 asterisk ++ key.drop (key.length - 8)

/-! ## Base URL validation (`internal/ui/configure/model.go`) -/

/-- The result of `url.Parse`, as far as `validateBaseURL` reads it. -/
structure URL where
  Scheme : Str
  Host : Str
deriving DecidableEq, Repr

/-- The warning of `validateBaseURL`. -/
def httpWarning : Str :=
  "⚠ Using HTTP (not HTTPS) for remote endpoint. API keys will be sent unencrypted.".toList

/-- The function `validateBaseURL`, returning `(error, warning)`; `urlParse` stands for
`url.Parse`. -/
def validateBaseURL (urlParse : Str → Except Str URL) (rawURL : Str) : Option Str × Str :=
  match urlParse rawURL with
  | Except.error err => (some ("invalid URL format: ".toList ++ err), [])
  | Except.ok u =>
    if u.Scheme ≠ "http".toList ∧ u.Scheme ≠ "https".toList then
      (some "URL must use http or https".toList, [])
    else if u.Scheme = "http".toList ∧ !HasPrefix u.Host "localhost".toList ∧
        !HasPrefix u.Host "127.0.0.1".toList then
      (none, httpWarning)
    else
      (none, [])

/-! ## Clear-keys UI model (`internal/ui/clear/model.go`, `internal/config/keyring.go`) -/

/-- The function `GetAPIKeyFromKeyring`; `keyringGet` stands for `keyring.Get`. -/
def GetAPIKeyFromKeyring (keyringGet : Str → Str → Str × Option KeyringError)
    (provider : Str) : Str × Option KeyringError :=
  match keyringGet "how".toList provider with
  | (_, some KeyringError.ErrNotFound) => ([], none)
  | (key, err) => (key, err)

/-- The function `DeleteAPIKeyFromKeyring`; `keyringDelete` stands for `keyring.Delete`. -/
def DeleteAPIKeyFromKeyring (keyringDelete : Str → Str → Option KeyringError)
    (provider : Str) : Option KeyringError :=
  match keyringDelete "how".toList provider with
  | some KeyringError.ErrNotFound => none
  | err => err

namespace Clear

/-- The type `state` of package `clear`. -/
inductive State where
  | stateSelecting
  | stateDone
deriving DecidableEq, Repr

/-- The struct `providerItem`. -/
structure providerItem where
  name : Str
  hasKey : Bool
  selected : Bool
deriving DecidableEq, Repr

/-- The struct `Model` of package `clear`, without the pointer to the configuration, which
`Update` does not read. -/
structure Model where
  state : State
  providers : List providerItem
  cursor : Int
  cleared : Int
  err : Option KeyringError
deriving DecidableEq, Repr

/-- A message to `Update`: a key message with its `String()`, or any other message. -/
inductive Msg where
  | KeyMsg (key : Str)
  | other
deriving DecidableEq, Repr

/-- The command returned by `Update`: `nil` or `tea.Quit`. -/
inductive Cmd where
  | nil
  | Quit
deriving DecidableEq, Repr

/-- The function `NewModel`. -/
def NewModel (keyringGet : Str → Str → Str × Option KeyringError) : Model :=
  let allProviders := GetProviders
  let items := allProviders.map (fun provider =>
    let apiKey := (GetAPIKeyFromKeyring keyringGet provider).1
    ({ name := provider, hasKey := !apiKey.isEmpty, selected := false } : providerItem))
  { state := State.stateSelecting, providers := items, cursor := 0, cleared := 0, err := none }

/-- The assignment `providers[i].selected = !providers[i].selected` on a list, for an index
within range. -/
def toggleSelected : List providerItem → Nat → List providerItem
  | [], _ => []
  | p :: rest, 0 => { p with selected := !p.selected } :: rest
  | p :: rest, i + 1 => p :: toggleSelected rest i

/-- The loop of the `enter` case: the keys of the selected providers that have one are
deleted in order and counted; the first error ends the loop, with the error kept and the
state done. The result says whether the loop returned early. -/
def clearSelected (keyringDelete : Str → Str → Option KeyringError) :
    List providerItem → Model → Model × Bool
  | [], m => (m, false)
  | provider :: rest, m =>
    if provider.selected && provider.hasKey then
      match DeleteAPIKeyFromKeyring keyringDelete provider.name with
      | some err => ({ m with err := some err, state := State.stateDone }, true)
      | none => clearSelected keyringDelete rest { m with cleared := m.cleared + 1 }
    else
      clearSelected keyringDelete rest m

/-- The method `Model.Update`; the result is `none` when an index is out of range, which
stops a Go program. -/
def Model.Update (keyringDelete : Str → Str → Option KeyringError) (m : Model) (msg : Msg) :
    Option (Model × Cmd) :=
  match msg with
  | Msg.KeyMsg key =>
    if m.state = State.stateSelecting then
      if key = "ctrl+c".toList ∨ key = "q".toList ∨ key = "esc".toList then
        some ({ m with state := State.stateDone }, Cmd.Quit)
      else if key = "up".toList ∨ key = "k".toList then
        if m.cursor > 0 then some ({ m with cursor := m.cursor - 1 }, Cmd.nil)
        else some (m, Cmd.nil)
      else if key = "down".toList ∨ key = "j".toList then
        if m.cursor < (m.providers.length : Int) - 1 then
          some ({ m with cursor := m.cursor + 1 }, Cmd.nil)
        else some (m, Cmd.nil)
      else if key = " ".toList then
        if 0 ≤ m.cursor ∧ m.cursor < (m.providers.length : Int) then
          some ({ m with providers := toggleSelected m.providers m.cursor.toNat }, Cmd.nil)
        else none
      else if key = "enter".toList then
        let (m, returned) := clearSelected keyringDelete m.providers m
        if returned then some (m, Cmd.Quit)
        else some ({ m with state := State.stateDone }, Cmd.Quit)
      else some (m, Cmd.nil)
    else some (m, Cmd.nil)
  | Msg.other => some (m, Cmd.nil)

/-- The model after a sequence of messages, each applied through `Update`; `none` when one of
them stops the program. -/
def runUpdates (keyringDelete : Str → Str → Option KeyringError) :
    Model → List Msg → Option Model
  | m, [] => some m
  | m, msg :: rest =>
    match m.Update keyringDelete msg with
    | none => none
    | some (m2, _) => runUpdates keyringDelete m2 rest

/-- A keyring that holds a key for OpenAI only. -/
def sampleKeyringGet : Str → Str → Str × Option KeyringError :=
  fun _ provider =>
    if provider = "OpenAI".toList then ("sk-1".toList, none)
    else ([], some KeyringError.ErrNotFound)

end Clear

/-! ## Sample worlds and inputs -/

/-- A world in which every vendor call succeeds with a reply that has no content item. -/
def envNoContent : Env :=
  { commandExists := fun _ => false,
    newGoogleClient := fun key => Except.ok { APIKey := key },
    chat := fun _ _ => Except.ok { Choices := [] },
    messages := fun _ _ => Except.ok { Content := [] },
    generateContent := fun _ _ _ => Except.ok { Candidates := [] } }

/-- A world in which every vendor call succeeds with a reply whose only text is the empty
string. -/
def envEmptyText : Env :=
  { commandExists := fun _ => false,
    newGoogleClient := fun key => Except.ok { APIKey := key },
    chat := fun _ _ => Except.ok { Choices := [[]] },
    messages := fun _ _ => Except.ok { Content := [{ type := "text".toList, Text := [] }] },
    generateContent := fun _ _ _ => Except.ok { Candidates := [{ Content := some [[]] }] } }

/-- A world in which Google replies with a first candidate without content. -/
def envNilContent : Env :=
  { envNoContent with
    generateContent := fun _ _ _ => Except.ok { Candidates := [{ Content := none }] } }

/-- A world in which Google replies with a first candidate whose content has no part. -/
def envNoParts : Env :=
  { envNoContent with
    generateContent := fun _ _ _ => Except.ok { Candidates := [{ Content := some [] }] } }

/-- A world in which no Google client can be created. -/
def envNoGoogleClient : Env :=
  { envNoContent with newGoogleClient := fun _ => Except.error "no credentials".toList }

/-- A Linux system with bash. -/
def sampleSystem : SystemInfo :=
  { OS := "linux".toList, OSName := "Ubuntu".toList, Shell := "bash".toList,
    ShellPath := "/bin/bash".toList }

/-- The bytes of a string of ASCII characters. -/
def asciiBytes (s : String) : ByteStr :=
  s.toList.map (fun c => c.toNat.toUInt8)

/-! ## Lemmas on the string primitives -/

/-- A string that neither starts nor ends with white space. -/
def Trimmed (m : Str) : Prop :=
  (∀ a r, m = a :: r → isSpace a = false) ∧ (∀ r b, m = r ++ [b] → isSpace b = false)

theorem exists_snoc (l : Str) (h : l ≠ []) : ∃ r b, l = r ++ [b] :=
  ⟨l.dropLast, l.getLast h, (List.dropLast_append_getLast h).symm⟩

theorem dropWhile_space_append (w s : Str) (hw : ∀ c ∈ w, isSpace c = true) :
    (w ++ s).dropWhile isSpace = s.dropWhile isSpace := by
  induction w with
  | nil => rfl
  | cons a w ih =>
    have ha : isSpace a = true := hw a (List.mem_cons_self _ _)
    have hw2 : ∀ c ∈ w, isSpace c = true := fun c hc => hw c (List.mem_cons_of_mem _ hc)
    simp [List.dropWhile, ha, ih hw2]

theorem dropWhile_space_all (w : Str) (hw : ∀ c ∈ w, isSpace c = true) :
    w.dropWhile isSpace = [] := by
  have h := dropWhile_space_append w [] hw
  simpa using h

theorem dropWhile_head_not (s : Str) (a : Char) (r : Str)
    (h : s.dropWhile isSpace = a :: r) : isSpace a = false := by
  induction s with
  | nil => simp at h
  | cons b s ih =>
    by_cases hb : isSpace b = true
    · simp [List.dropWhile, hb] at h
      exact ih h
    · simp [List.dropWhile, hb] at h
      rcases h with ⟨h1, _⟩
      subst h1
      simpa using hb

theorem TrimSpace_sandwich (w1 m w2 : Str) (hw1 : ∀ c ∈ w1, isSpace c = true)
    (hw2 : ∀ c ∈ w2, isSpace c = true) (hm : Trimmed m) :
    TrimSpace (w1 ++ m ++ w2) = m := by
  unfold TrimSpace
  rw [List.append_assoc, dropWhile_space_append w1 _ hw1]
  cases m with
  | nil =>
    simp [dropWhile_space_all w2 hw2]
  | cons a r =>
    have ha : isSpace a = false := hm.1 a r rfl
    have h1 : ((a :: r) ++ w2).dropWhile isSpace = (a :: r) ++ w2 := by
      simp [List.dropWhile, ha]
    rw [h1, List.reverse_append]
    have hw2r : ∀ c ∈ w2.reverse, isSpace c = true := fun c hc => hw2 c (List.mem_reverse.1 hc)
    rw [dropWhile_space_append _ _ hw2r]
    obtain ⟨r2, b, h⟩ := exists_snoc (a :: r) (by simp)
    have hb : isSpace b = false := hm.2 r2 b h
    rw [h]
    simp [List.dropWhile, hb]

theorem TrimSpace_decomp (s : Str) :
    ∃ w1 w2 : Str, (∀ c ∈ w1, isSpace c = true) ∧ (∀ c ∈ w2, isSpace c = true) ∧
      s = w1 ++ TrimSpace s ++ w2 := by
  refine ⟨s.takeWhile isSpace, ((s.dropWhile isSpace).reverse.takeWhile isSpace).reverse,
    fun c hc => List.mem_takeWhile_imp hc,
    fun c hc => List.mem_takeWhile_imp (List.mem_reverse.1 hc), ?_⟩
  unfold TrimSpace
  rw [List.append_assoc, ← List.reverse_append, List.takeWhile_append_dropWhile,
    List.reverse_reverse, List.takeWhile_append_dropWhile]

theorem TrimSpace_trimmed (s : Str) : Trimmed (TrimSpace s) := by
  constructor
  · intro a r h
    obtain ⟨w1, w2, _, _, hs⟩ := TrimSpace_decomp s
    have hd : s.dropWhile isSpace = a :: (r ++ ((s.dropWhile isSpace).reverse.takeWhile isSpace).reverse) := by
      have h2 : s.dropWhile isSpace =
          ((s.dropWhile isSpace).reverse.dropWhile isSpace).reverse ++
            ((s.dropWhile isSpace).reverse.takeWhile isSpace).reverse := by
        rw [← List.reverse_append, List.takeWhile_append_dropWhile, List.reverse_reverse]
      unfold TrimSpace at h
      rw [h] at h2
      simpa using h2
    exact dropWhile_head_not s a _ hd
  · intro r b h
    unfold TrimSpace at h
    have h2 : (s.dropWhile isSpace).reverse.dropWhile isSpace = b :: r.reverse := by
      have := congrArg List.reverse h
      simpa using this
    exact dropWhile_head_not _ b _ h2

theorem TrimSpace_eq_nil_iff (s : Str) : TrimSpace s = [] ↔ ∀ c ∈ s, isSpace c = true := by
  constructor
  · intro h c hc
    obtain ⟨w1, w2, h1, h2, hs⟩ := TrimSpace_decomp s
    rw [h] at hs
    rw [hs] at hc
    simp at hc
    rcases hc with hc | hc
    · exact h1 c hc
    · exact h2 c hc
  · intro h
    have := TrimSpace_sandwich s [] [] h (by simp) ⟨by simp, by simp⟩
    simpa using this

theorem TrimSpace_idem (s : Str) : TrimSpace (TrimSpace s) = TrimSpace s := by
  have := TrimSpace_sandwich [] (TrimSpace s) [] (by simp) (by simp) (TrimSpace_trimmed s)
  simpa using this

/-- Trimming a text placed after a prefix `p` that starts with a non-space character keeps the
prefix, the leading white space of the text and its trimmed form, when that form is not empty. -/
theorem TrimSpace_prefixed (a : Char) (p t : Str) (ha : isSpace a = false)
    (ht : TrimSpace t ≠ []) :
    ∃ w1 : Str, (∀ c ∈ w1, isSpace c = true) ∧
      TrimSpace (a :: p ++ t) = a :: p ++ w1 ++ TrimSpace t := by
  obtain ⟨w1, w2, h1, h2, hs⟩ := TrimSpace_decomp t
  refine ⟨w1, h1, ?_⟩
  have htr := TrimSpace_trimmed t
  have hm : Trimmed (a :: p ++ w1 ++ TrimSpace t) := by
    constructor
    · intro a2 r h
      simp at h
      rw [← h.1]; exact ha
    · intro r b h
      obtain ⟨r2, b2, h0⟩ := exists_snoc (TrimSpace t) ht
      have hb2 := htr.2 r2 b2 h0
      rw [h0, ← List.append_assoc] at h
      have := List.append_inj_right' h rfl
      simp at this
      rw [← this]; exact hb2
  have key := TrimSpace_sandwich [] (a :: p ++ w1 ++ TrimSpace t) w2 (by simp) h2 hm
  have e : a :: p ++ t = [] ++ (a :: p ++ w1 ++ TrimSpace t) ++ w2 := by
    conv_lhs => rw [hs]
    simp
  rw [e]
  exact key

theorem TrimSpace_space_append (w s : Str) (hw : ∀ c ∈ w, isSpace c = true) :
    TrimSpace (w ++ s) = TrimSpace s := by
  unfold TrimSpace
  rw [dropWhile_space_append w s hw]

/-- The trimmed form of a marker followed by a text `v` that is not blank: the marker, the
leading white space of `v`, and the trimmed `v`. -/
theorem TrimSpace_marker_value (a : Char) (p w0 v : Str) (ha : isSpace a = false)
    (hw0 : ∀ c ∈ w0, isSpace c = true) (hv : TrimSpace v ≠ []) :
    ∃ w1 : Str, (∀ c ∈ w1, isSpace c = true) ∧
      TrimSpace (w0 ++ (a :: p) ++ v) = (a :: p) ++ w1 ++ TrimSpace v := by
  obtain ⟨w1, h1, e⟩ := TrimSpace_prefixed a p v ha hv
  refine ⟨w1, h1, ?_⟩
  rw [List.append_assoc, TrimSpace_space_append w0 _ hw0]
  exact e

theorem HasPrefix_append (mk r : Str) : HasPrefix (mk ++ r) mk = true := by
  simp [HasPrefix]

theorem TrimPrefix_append (mk r : Str) : TrimPrefix (mk ++ r) mk = r := by
  simp [TrimPrefix, HasPrefix_append]

theorem TrimSpace_space_trimmed (w1 s : Str) (hw1 : ∀ c ∈ w1, isSpace c = true) :
    TrimSpace (w1 ++ TrimSpace s) = TrimSpace s := by
  rw [TrimSpace_space_append w1 _ hw1, TrimSpace_idem]

/-! ### `Split` and `Join` -/

theorem Split_ne_nil (s : Str) (sep : Char) : Split s sep ≠ [] := by
  cases s with
  | nil => simp [Split]
  | cons c cs =>
    unfold Split
    split
    · simp
    · split <;> simp

theorem Split_no_sep (a : Str) (sep : Char) (h : sep ∉ a) : Split a sep = [a] := by
  induction a with
  | nil => rfl
  | cons c cs ih =>
    have hc : c ≠ sep := fun e => h (e ▸ List.mem_cons_self _ _)
    have hcs : sep ∉ cs := fun e => h (List.mem_cons_of_mem _ e)
    simp [Split, hc, ih hcs]

theorem Split_append_sep (a b : Str) (sep : Char) (h : sep ∉ a) :
    Split (a ++ sep :: b) sep = a :: Split b sep := by
  induction a with
  | nil => simp [Split]
  | cons c cs ih =>
    have hc : c ≠ sep := fun e => h (e ▸ List.mem_cons_self _ _)
    have hcs : sep ∉ cs := fun e => h (List.mem_cons_of_mem _ e)
    simp [Split, hc, ih hcs]

theorem Split_Join (L : List Str) (hL : L ≠ []) (h : ∀ l ∈ L, '\n' ∉ l) :
    Split (Join L nl) '\n' = L := by
  induction L with
  | nil => exact absurd rfl hL
  | cons a L ih =>
    have ha : '\n' ∉ a := h a (List.mem_cons_self _ _)
    cases L with
    | nil => simpa [Join] using Split_no_sep a '\n' ha
    | cons b L =>
      have hL2 : ∀ l ∈ b :: L, '\n' ∉ l := fun l hl => h l (List.mem_cons_of_mem _ hl)
      have := ih (by simp) hL2
      simp only [Join, nl, List.append_assoc, List.singleton_append]
      rw [Split_append_sep a _ '\n' ha]
      simp only [nl] at this
      rw [this]

/-! ## Lemmas on the two loops -/

theorem isMarkerLine_false (line : Str) (h : isMarkerLine line = false) :
    HasPrefix (TrimSpace line) markerTitle = false ∧
    HasPrefix (TrimSpace line) markerDescription = false ∧
    HasPrefix (TrimSpace line) markerCommand = false ∧
    HasPrefix (TrimSpace line) markerScript = false := by
  simp only [isMarkerLine, isValueMarkerLine, Bool.or_eq_false_iff] at h
  exact ⟨h.1.1.1, h.1.1.2, h.1.2, h.2⟩

/-- Outside script mode and with nothing awaited, a line without marker leaves the state of the
marker loop unchanged. -/
theorem scanLine_plain_idle (st : ScanState) (line : Str) (hm : isMarkerLine line = false)
    (h1 : st.awaitingTitle = false) (h2 : st.awaitingDescription = false)
    (h3 : st.awaitingCommand = false) (h4 : st.passedScriptMarker = false) :
    scanLine st line = st := by
  obtain ⟨hT, hD, hC, hS⟩ := isMarkerLine_false line hm
  simp [scanLine, hT, hD, hC, hS, h1, h2, h3, h4]

theorem scanLines_plain_idle (lines : List Str) (st : ScanState)
    (hm : ∀ l ∈ lines, isMarkerLine l = false)
    (h1 : st.awaitingTitle = false) (h2 : st.awaitingDescription = false)
    (h3 : st.awaitingCommand = false) (h4 : st.passedScriptMarker = false) :
    scanLines st lines = st := by
  induction lines with
  | nil => rfl
  | cons l ls ih =>
    have hl := scanLine_plain_idle st l (hm l (List.mem_cons_self _ _)) h1 h2 h3 h4
    have hls : ∀ l ∈ ls, isMarkerLine l = false := fun x hx => hm x (List.mem_cons_of_mem _ hx)
    show scanLines (scanLine st l) ls = st
    rw [hl]
    exact ih hls

/-- Outside a block, a line that is no fence leaves the state of the block loop unchanged. -/
theorem blockLine_prose (st : BlockState) (line : Str) (hf : isFenceLine line = false)
    (h : st.inCodeBlock = false) : blockLine st line = st := by
  simp only [isFenceLine] at hf
  simp [blockLine, hf, h]

theorem blockLines_prose (lines : List Str) (st : BlockState)
    (hf : ∀ l ∈ lines, isFenceLine l = false) (h : st.inCodeBlock = false) :
    blockLines st lines = st := by
  induction lines with
  | nil => rfl
  | cons l ls ih =>
    have hl := blockLine_prose st l (hf l (List.mem_cons_self _ _)) h
    show blockLines (blockLine st l) ls = st
    rw [hl]
    exact ih (fun x hx => hf x (List.mem_cons_of_mem _ hx))

/-- A reply without marker lines yields no command in the first pass and leaves title and
description empty. -/
theorem markerScan_no_marker (raw : Str)
    (hm : ∀ l ∈ Split raw '\n', isMarkerLine l = false) : markerScan raw = scanInit :=
  scanLines_plain_idle _ scanInit hm rfl rfl rfl rfl

/-- A `TITLE:` line with text after the marker sets the title and clears the three awaiting
flags. -/
theorem scanLine_title_inline (st : ScanState) (w0 v : Str)
    (hw0 : ∀ c ∈ w0, isSpace c = true) (hv : TrimSpace v ≠ []) :
    scanLine st (w0 ++ markerTitle ++ v) =
      { st with Title := TrimSpace v, awaitingTitle := false, awaitingDescription := false,
                awaitingCommand := false } := by
  obtain ⟨w1, h1, e⟩ := TrimSpace_marker_value 'T' ['I', 'T', 'L', 'E', ':'] w0 v
    (by decide) hw0 hv
  have e2 : TrimSpace (w0 ++ markerTitle ++ v) = markerTitle ++ (w1 ++ TrimSpace v) := by
    rw [← List.append_assoc]; exact e
  have hne : (TrimSpace v).isEmpty = false := by
    cases hh : TrimSpace v with
    | nil => exact absurd hh hv
    | cons _ _ => rfl
  unfold scanLine
  simp only [e2, HasPrefix_append, TrimPrefix_append, TrimSpace_space_trimmed w1 v h1, hne]
  rfl

/-- A `COMMAND:` line with text after the marker appends that text, trimmed, to the commands
and clears the three awaiting flags. -/
theorem scanLine_command_inline (st : ScanState) (w0 v : Str)
    (hw0 : ∀ c ∈ w0, isSpace c = true) (hv : TrimSpace v ≠ []) :
    scanLine st (w0 ++ markerCommand ++ v) =
      { st with Commands := st.Commands ++ [TrimSpace v], awaitingTitle := false,
                awaitingDescription := false, awaitingCommand := false } := by
  obtain ⟨w1, h1, e⟩ := TrimSpace_marker_value 'C' ['O', 'M', 'M', 'A', 'N', 'D', ':'] w0 v
    (by decide) hw0 hv
  have e2 : TrimSpace (w0 ++ markerCommand ++ v) = markerCommand ++ (w1 ++ TrimSpace v) := by
    rw [← List.append_assoc]; exact e
  have hne : (TrimSpace v).isEmpty = false := by
    cases hh : TrimSpace v with
    | nil => exact absurd hh hv
    | cons _ _ => rfl
  have hT : HasPrefix (markerCommand ++ (w1 ++ TrimSpace v)) markerTitle = false := by
    simp [HasPrefix, markerCommand, markerTitle, List.isPrefixOf]
  have hD : HasPrefix (markerCommand ++ (w1 ++ TrimSpace v)) markerDescription = false := by
    simp [HasPrefix, markerCommand, markerDescription, List.isPrefixOf]
  unfold scanLine
  simp only [e2, hT, hD, HasPrefix_append, TrimPrefix_append, TrimSpace_space_trimmed w1 v h1,
    hne]
  rfl

theorem TrimSpace_cons_space (t : Str) : TrimSpace (' ' :: t) = TrimSpace t :=
  TrimSpace_space_append [' '] t (by decide)

theorem not_mem_append_cons (t pre : Str) (x : Char) (hp : '\n' ∉ pre) (hx : x ≠ '\n')
    (ht : '\n' ∉ t) : '\n' ∉ pre ++ x :: t := by
  simp only [List.mem_append, List.mem_cons, not_or]
  exact ⟨hp, fun e => hx e.symm, ht⟩

theorem ParseResponse_Title (raw : Str) :
    (ParseResponse raw).Title = (markerScan raw).Title := rfl

theorem ParseResponse_Description (raw : Str) :
    (ParseResponse raw).Description = (markerScan raw).Description := rfl

/-- When the first pass yields a command, its output is the final command list. -/
theorem ParseResponse_Commands_of_marker (raw : Str) (h : markerCommands raw ≠ []) :
    (ParseResponse raw).Commands = markerCommands raw := by
  have h1 : ((markerCommands raw).length == 0) = false := by
    cases hh : markerCommands raw with
    | nil => exact absurd hh h
    | cons _ _ => rfl
  simp only [ParseResponse, h1]
  simp
  intro h2
  exact absurd h2 h

/-- When neither the first nor the second pass yields a command and the reply is not empty,
the reply itself is the only command. -/
theorem ParseResponse_Commands_fallback (raw : Str) (h : raw ≠ [])
    (h1 : markerCommands raw = []) (h2 : extractCodeBlocks raw = []) :
    (ParseResponse raw).Commands = [raw] := by
  have hne : raw.isEmpty = false := by
    cases raw with
    | nil => exact absurd rfl h
    | cons a r => rfl
  simp [ParseResponse, h1, h2, hne]

/-- When the first pass yields no command and the second does, the output of the second pass
is the final command list. -/
theorem ParseResponse_Commands_of_blocks (raw : Str) (h1 : markerCommands raw = [])
    (h2 : extractCodeBlocks raw ≠ []) :
    (ParseResponse raw).Commands = extractCodeBlocks raw := by
  have h3 : ((extractCodeBlocks raw).length == 0) = false := by
    cases hh : extractCodeBlocks raw with
    | nil => exact absurd hh h2
    | cons _ _ => rfl
  simp only [ParseResponse, h1, h3]
  simp
  intro h4
  exact absurd h4 h2

/-- The trimmed form of a marker standing alone on its line is the marker. -/
theorem TrimSpace_marker_bare (mk w0 w2 : Str) (hmk : Trimmed mk)
    (hw0 : ∀ c ∈ w0, isSpace c = true) (hw2 : ∀ c ∈ w2, isSpace c = true) :
    TrimSpace (w0 ++ mk ++ w2) = mk :=
  TrimSpace_sandwich w0 mk w2 hw0 hw2 hmk

theorem Trimmed_of_ends (a : Char) (mid : Str) (b : Char) (ha : isSpace a = false)
    (hb : isSpace b = false) : Trimmed (a :: mid ++ [b]) := by
  constructor
  · intro a2 r h
    simp at h
    rw [← h.1]; exact ha
  · intro r b2 h
    have h2 : (a :: mid) ++ [b] = r ++ [b2] := by simpa using h
    have := List.append_inj_right' h2 rfl
    simp at this
    rw [← this]; exact hb

theorem TrimPrefix_self (mk : Str) : TrimPrefix mk mk = [] := by
  have := TrimPrefix_append mk []
  simpa using this

theorem HasPrefix_self (mk : Str) : HasPrefix mk mk = true := by
  have := HasPrefix_append mk []
  simpa using this

/-- A `TITLE:` line without text after the marker empties the title and awaits it. -/
theorem scanLine_title_bare (st : ScanState) (w0 w2 : Str)
    (hw0 : ∀ c ∈ w0, isSpace c = true) (hw2 : ∀ c ∈ w2, isSpace c = true) :
    scanLine st (w0 ++ markerTitle ++ w2) = { st with Title := [], awaitingTitle := true } := by
  have e := TrimSpace_marker_bare markerTitle w0 w2
    (Trimmed_of_ends 'T' ['I', 'T', 'L', 'E'] ':' (by decide) (by decide)) hw0 hw2
  have e0 : TrimSpace ([] : Str) = [] := rfl
  unfold scanLine
  simp only [e, HasPrefix_self, TrimPrefix_self, e0]
  rfl

/-- A `COMMAND:` line without text after the marker awaits the command. -/
theorem scanLine_command_bare (st : ScanState) (w0 w2 : Str)
    (hw0 : ∀ c ∈ w0, isSpace c = true) (hw2 : ∀ c ∈ w2, isSpace c = true) :
    scanLine st (w0 ++ markerCommand ++ w2) = { st with awaitingCommand := true } := by
  have e := TrimSpace_marker_bare markerCommand w0 w2
    (Trimmed_of_ends 'C' ['O', 'M', 'M', 'A', 'N', 'D'] ':' (by decide) (by decide)) hw0 hw2
  have e0 : TrimSpace ([] : Str) = [] := rfl
  have hT : HasPrefix markerCommand markerTitle = false := by decide
  have hD : HasPrefix markerCommand markerDescription = false := by decide
  unfold scanLine
  simp only [e, hT, hD, HasPrefix_self, TrimPrefix_self, e0]
  rfl

theorem isValueMarkerLine_false (line : Str) (h : isValueMarkerLine line = false) :
    HasPrefix (TrimSpace line) markerTitle = false ∧
    HasPrefix (TrimSpace line) markerDescription = false ∧
    HasPrefix (TrimSpace line) markerCommand = false := by
  simp only [isValueMarkerLine, Bool.or_eq_false_iff] at h
  exact ⟨h.1.1, h.1.2, h.2⟩

theorem isEmpty_false_of_ne (s : Str) (h : s ≠ []) : s.isEmpty = false := by
  cases s with
  | nil => exact absurd rfl h
  | cons _ _ => rfl

/-- While the title is awaited, a non-blank line without value marker becomes the title. -/
theorem scanLine_await_title (st : ScanState) (line : Str)
    (hm : isValueMarkerLine line = false) (hne : TrimSpace line ≠ [])
    (h1 : st.awaitingTitle = true) :
    scanLine st line = { st with Title := TrimSpace line, awaitingTitle := false } := by
  obtain ⟨hT, hD, hC⟩ := isValueMarkerLine_false line hm
  simp [scanLine, hT, hD, hC, h1, isEmpty_false_of_ne _ hne]

/-- While only the command is awaited, a non-blank line without value marker becomes a
command. -/
theorem scanLine_await_command (st : ScanState) (line : Str)
    (hm : isValueMarkerLine line = false) (hne : TrimSpace line ≠ [])
    (h1 : st.awaitingTitle = false) (h2 : st.awaitingDescription = false)
    (h3 : st.awaitingCommand = true) :
    scanLine st line =
      { st with Commands := st.Commands ++ [TrimSpace line], awaitingCommand := false } := by
  obtain ⟨hT, hD, hC⟩ := isValueMarkerLine_false line hm
  simp [scanLine, hT, hD, hC, h1, h2, h3, isEmpty_false_of_ne _ hne]

/-- The split form `"TITLE:\n" ++ t ++ "\nCOMMAND:\n" ++ c` parsed. -/
theorem split_form_parsed (t c : Str) (ht : '\n' ∉ t) (hc : '\n' ∉ c)
    (hte : TrimSpace t ≠ []) (hce : TrimSpace c ≠ [])
    (htm : isValueMarkerLine t = false) (hcm : isValueMarkerLine c = false) :
    (ParseResponse ("TITLE:\n".toList ++ t ++ "\nCOMMAND:\n".toList ++ c)).Title = TrimSpace t ∧
    (ParseResponse ("TITLE:\n".toList ++ t ++ "\nCOMMAND:\n".toList ++ c)).Commands
      = [TrimSpace c] ∧
    (ParseResponse ("TITLE:\n".toList ++ t ++ "\nCOMMAND:\n".toList ++ c)).Description = [] := by
  have eraw : "TITLE:\n".toList ++ t ++ "\nCOMMAND:\n".toList ++ c =
      ([] ++ markerTitle ++ []) ++ '\n' :: (t ++ '\n' :: (([] ++ markerCommand ++ []) ++
        '\n' :: c)) := by
    have e1 : "TITLE:\n".toList = markerTitle ++ ['\n'] := by decide
    have e2 : "\nCOMMAND:\n".toList = '\n' :: (markerCommand ++ ['\n']) := by decide
    rw [e1, e2]
    simp
  have hsplit : Split ("TITLE:\n".toList ++ t ++ "\nCOMMAND:\n".toList ++ c) '\n' =
      [[] ++ markerTitle ++ [], t, [] ++ markerCommand ++ [], c] := by
    rw [eraw, Split_append_sep _ _ '\n' (by decide), Split_append_sep _ _ '\n' ht,
      Split_append_sep _ _ '\n' (by decide), Split_no_sep _ '\n' hc]
  have hscan : markerScan ("TITLE:\n".toList ++ t ++ "\nCOMMAND:\n".toList ++ c) =
      { scanInit with Title := TrimSpace t, Commands := [TrimSpace c] } := by
    unfold markerScan
    rw [hsplit]
    show scanLine (scanLine (scanLine (scanLine scanInit _) _) _) _ = _
    rw [scanLine_title_bare scanInit [] [] (by simp) (by simp),
      scanLine_await_title _ t htm hte rfl,
      scanLine_command_bare _ [] [] (by simp) (by simp),
      scanLine_await_command _ c hcm hce rfl rfl rfl]
    simp [scanInit]
  have hmc : markerCommands ("TITLE:\n".toList ++ t ++ "\nCOMMAND:\n".toList ++ c) =
      [TrimSpace c] := by
    unfold markerCommands
    rw [hscan]
    rfl
  refine ⟨?_, ?_, ?_⟩
  · rw [ParseResponse_Title, hscan]
  · rw [ParseResponse_Commands_of_marker _ (by rw [hmc]; simp), hmc]
  · rw [ParseResponse_Description, hscan]
    rfl

/-- The inline form `"TITLE: " ++ t ++ "\nCOMMAND: " ++ c` parsed. -/
theorem inline_form_parsed (t c : Str) (ht : '\n' ∉ t) (hc : '\n' ∉ c)
    (hte : TrimSpace t ≠ []) (hce : TrimSpace c ≠ []) :
    (ParseResponse ("TITLE: ".toList ++ t ++ "\nCOMMAND: ".toList ++ c)).Title = TrimSpace t ∧
    (ParseResponse ("TITLE: ".toList ++ t ++ "\nCOMMAND: ".toList ++ c)).Commands
      = [TrimSpace c] ∧
    (ParseResponse ("TITLE: ".toList ++ t ++ "\nCOMMAND: ".toList ++ c)).Description = [] := by
  have eraw : "TITLE: ".toList ++ t ++ "\nCOMMAND: ".toList ++ c =
      ([] ++ markerTitle ++ ' ' :: t) ++ '\n' :: ([] ++ markerCommand ++ ' ' :: c) := by
    have e1 : "TITLE: ".toList = markerTitle ++ [' '] := by decide
    have e2 : "\nCOMMAND: ".toList = '\n' :: (markerCommand ++ [' ']) := by decide
    rw [e1, e2]
    simp
  have hl1 : '\n' ∉ ([] ++ markerTitle ++ ' ' :: t) :=
    not_mem_append_cons t _ ' ' (by decide) (by decide) ht
  have hl2 : '\n' ∉ ([] ++ markerCommand ++ ' ' :: c) :=
    not_mem_append_cons c _ ' ' (by decide) (by decide) hc
  have hsplit : Split ("TITLE: ".toList ++ t ++ "\nCOMMAND: ".toList ++ c) '\n' =
      [[] ++ markerTitle ++ ' ' :: t, [] ++ markerCommand ++ ' ' :: c] := by
    rw [eraw, Split_append_sep _ _ '\n' hl1, Split_no_sep _ '\n' hl2]
  have hscan : markerScan ("TITLE: ".toList ++ t ++ "\nCOMMAND: ".toList ++ c) =
      { scanInit with Title := TrimSpace t, Commands := [TrimSpace c] } := by
    unfold markerScan
    rw [hsplit]
    show scanLine (scanLine scanInit _) _ = _
    rw [scanLine_title_inline scanInit [] (' ' :: t) (by simp)
        (by rw [TrimSpace_cons_space]; exact hte),
      scanLine_command_inline _ [] (' ' :: c) (by simp)
        (by rw [TrimSpace_cons_space]; exact hce)]
    simp [TrimSpace_cons_space, scanInit]
  have hmc : markerCommands ("TITLE: ".toList ++ t ++ "\nCOMMAND: ".toList ++ c) =
      [TrimSpace c] := by
    unfold markerCommands
    rw [hscan]
    rfl
  refine ⟨?_, ?_, ?_⟩
  · rw [ParseResponse_Title, hscan]
  · rw [ParseResponse_Commands_of_marker _ (by rw [hmc]; simp), hmc]
  · rw [ParseResponse_Description, hscan]
    rfl

/-- With nothing awaited, a `SCRIPT:` line switches script collection on. -/
theorem scanLine_script_marker (st : ScanState) (w0 v : Str)
    (hw0 : ∀ c ∈ w0, isSpace c = true) (hv : ∀ c ∈ v, isSpace c = true)
    (h1 : st.awaitingTitle = false) (h2 : st.awaitingDescription = false)
    (h3 : st.awaitingCommand = false) :
    scanLine st (w0 ++ markerScript ++ v) = { st with passedScriptMarker := true } := by
  have e := TrimSpace_marker_bare markerScript w0 v
    (Trimmed_of_ends 'S' ['C', 'R', 'I', 'P', 'T'] ':' (by decide) (by decide)) hw0 hv
  have hT : HasPrefix markerScript markerTitle = false := by decide
  have hD : HasPrefix markerScript markerDescription = false := by decide
  have hC : HasPrefix markerScript markerCommand = false := by decide
  unfold scanLine
  simp only [e, hT, hD, hC, HasPrefix_self, h1, h2, h3]
  simp

/-- In script mode with nothing awaited, a line without marker is appended verbatim to the
script buffer when it is not blank, and skipped when it is. -/
theorem scanLine_collect (st : ScanState) (line : Str) (hm : isMarkerLine line = false)
    (h1 : st.awaitingTitle = false) (h2 : st.awaitingDescription = false)
    (h3 : st.awaitingCommand = false) (h4 : st.passedScriptMarker = true) :
    scanLine st line =
      { st with scriptLines := st.scriptLines ++ [line].filter (fun l => !isBlank l) } := by
  obtain ⟨hT, hD, hC, hS⟩ := isMarkerLine_false line hm
  cases st
  simp only at h1 h2 h3 h4
  by_cases hb : (TrimSpace line).isEmpty = true
  · simp [scanLine, hT, hD, hC, hS, h1, h2, h3, h4, hb, isBlank]
  · simp [scanLine, hT, hD, hC, hS, h1, h2, h3, h4, hb, isBlank]

theorem scanLines_collect (lines : List Str) (st : ScanState)
    (hm : ∀ l ∈ lines, isMarkerLine l = false)
    (h1 : st.awaitingTitle = false) (h2 : st.awaitingDescription = false)
    (h3 : st.awaitingCommand = false) (h4 : st.passedScriptMarker = true) :
    scanLines st lines =
      { st with scriptLines := st.scriptLines ++ lines.filter (fun l => !isBlank l) } := by
  induction lines generalizing st with
  | nil => simp [scanLines]
  | cons l ls ih =>
    have hl := scanLine_collect st l (hm l (List.mem_cons_self _ _)) h1 h2 h3 h4
    have ih2 := ih (scanLine st l) (fun x hx => hm x (List.mem_cons_of_mem _ hx))
      (by rw [hl]; exact h1) (by rw [hl]; exact h2) (by rw [hl]; exact h3)
      (by rw [hl]; exact h4)
    show scanLines (scanLine st l) ls = _
    rw [ih2, hl]
    have hf : List.filter (fun l => !isBlank l) (l :: ls) =
        List.filter (fun l => !isBlank l) [l] ++ List.filter (fun l => !isBlank l) ls :=
      List.filter_append [l] ls
    simp only [hf, List.append_assoc]

/-- The marker loop only ever appends to the discrete commands. -/
theorem scanLine_Commands_grow (st : ScanState) (line : Str) :
    st.Commands <+: (scanLine st line).Commands := by
  unfold scanLine
  simp only []
  repeat' split
  all_goals first
    | exact List.prefix_refl _
    | exact List.prefix_append _ _

theorem scanLines_Commands_grow (lines : List Str) (st : ScanState) :
    st.Commands <+: (scanLines st lines).Commands := by
  induction lines generalizing st with
  | nil => exact List.prefix_refl _
  | cons l ls ih =>
    exact List.IsPrefix.trans (scanLine_Commands_grow st l) (ih (scanLine st l))

theorem scanLines_append (st : ScanState) (pre suf : List Str) :
    scanLines st (pre ++ suf) = scanLines (scanLines st pre) suf := by
  simp [scanLines, List.foldl_append]

theorem blockLines_append (st : BlockState) (pre suf : List Str) :
    blockLines st (pre ++ suf) = blockLines (blockLines st pre) suf := by
  simp [blockLines, List.foldl_append]

/-- Inside a block, lines that are no fence are appended to the lines of the block. -/
theorem blockLines_body (lines : List Str) (st : BlockState)
    (hf : ∀ l ∈ lines, isFenceLine l = false) (h : st.inCodeBlock = true) :
    blockLines st lines = { st with codeLines := st.codeLines ++ lines } := by
  induction lines generalizing st with
  | nil => simp [blockLines]
  | cons l ls ih =>
    have hl : isFenceLine l = false := hf l (List.mem_cons_self _ _)
    simp only [isFenceLine] at hl
    have e : blockLine st l = { st with codeLines := st.codeLines ++ [l] } := by
      simp [blockLine, hl, h]
    have ih2 := ih (blockLine st l) (fun x hx => hf x (List.mem_cons_of_mem _ hx))
      (by rw [e]; exact h)
    show blockLines (blockLine st l) ls = _
    rw [ih2, e]
    simp

/-- A complete fenced block followed by prose, read outside a block, adds its joined body to
the commands. -/
theorem blockLines_segment (s : FencedBlock × List Str) (st : BlockState) (hs : WellFenced s)
    (h1 : st.inCodeBlock = false) (h2 : st.codeLines = []) :
    blockLines st (s.1.opening :: s.1.body ++ s.1.closing :: s.2) =
      { commands := st.commands ++ [Join s.1.body nl], inCodeBlock := false,
        codeLines := [] } := by
  obtain ⟨ho, hc, hb, hbody, hprose⟩ := hs
  simp only [isFenceLine] at ho hc
  have e1 : blockLine st s.1.opening = { st with inCodeBlock := true } := by
    simp [blockLine, ho, h1]
  have hlen : 0 < s.1.body.length := List.length_pos.2 hb
  show blockLines (blockLine st s.1.opening) (s.1.body ++ s.1.closing :: s.2) = _
  rw [blockLines_append, e1, blockLines_body s.1.body _ hbody rfl]
  show blockLines (blockLine _ s.1.closing) s.2 = _
  have e2 :
      blockLine
        { commands := st.commands, inCodeBlock := true,
          codeLines := st.codeLines ++ s.1.body } s.1.closing =
      { commands := st.commands ++ [Join s.1.body nl], inCodeBlock := false,
        codeLines := [] } := by
    simp [blockLine, hc, h2, hlen]
  rw [e2]
  exact blockLines_prose s.2 _ hprose rfl

theorem blockLines_segments (segs : List (FencedBlock × List Str)) (st : BlockState)
    (hs : ∀ s ∈ segs, WellFenced s) (h1 : st.inCodeBlock = false) (h2 : st.codeLines = []) :
    blockLines st (segmentLines segs) =
      { commands := st.commands ++ segs.map (fun s => Join s.1.body nl), inCodeBlock := false,
        codeLines := [] } := by
  induction segs generalizing st with
  | nil =>
    cases st
    simp only at h1 h2
    simp [segmentLines, blockLines, h1, h2]
  | cons s rest ih =>
    have e := blockLines_segment s st (hs s (List.mem_cons_self _ _)) h1 h2
    show blockLines st ((s.1.opening :: s.1.body ++ s.1.closing :: s.2) ++ segmentLines rest)
      = _
    rw [blockLines_append, e, ih _ (fun x hx => hs x (List.mem_cons_of_mem _ hx)) rfl rfl]
    simp

/-- A `DESCRIPTION:` line with text after the marker sets the description and, by the test
`response.Description == ""` of line 58, takes the branch that awaits a description. -/
theorem scanLine_description_inline (st : ScanState) (w0 v : Str)
    (hw0 : ∀ c ∈ w0, isSpace c = true) (hv : TrimSpace v ≠ []) :
    scanLine st (w0 ++ markerDescription ++ v) =
      { st with Description := TrimSpace v, awaitingDescription := true } := by
  obtain ⟨w1, h1, e⟩ := TrimSpace_marker_value 'D'
    ['E', 'S', 'C', 'R', 'I', 'P', 'T', 'I', 'O', 'N', ':'] w0 v (by decide) hw0 hv
  have e2 : TrimSpace (w0 ++ markerDescription ++ v) =
      markerDescription ++ (w1 ++ TrimSpace v) := by
    rw [← List.append_assoc]; exact e
  have hne : (TrimSpace v).isEmpty = false := isEmpty_false_of_ne _ hv
  have hT : HasPrefix (markerDescription ++ (w1 ++ TrimSpace v)) markerTitle = false := by
    simp [HasPrefix, markerDescription, markerTitle, List.isPrefixOf]
  unfold scanLine
  simp only [e2, hT, HasPrefix_append, TrimPrefix_append, TrimSpace_space_trimmed w1 v h1, hne]
  rfl

/-- While the description is awaited and the title is not, a non-blank line without value
marker becomes the description. -/
theorem scanLine_await_description (st : ScanState) (line : Str)
    (hm : isValueMarkerLine line = false) (hne : TrimSpace line ≠ [])
    (h1 : st.awaitingTitle = false) (h2 : st.awaitingDescription = true) :
    scanLine st line =
      { st with Description := TrimSpace line, awaitingDescription := false } := by
  obtain ⟨hT, hD, hC⟩ := isValueMarkerLine_false line hm
  simp [scanLine, hT, hD, hC, h1, h2, isEmpty_false_of_ne _ hne]

/-- The documented multi-step form `TITLE: t`, `DESCRIPTION: d`, `SCRIPT:`, script lines: the
`SCRIPT:` line is taken as the awaited description, so script collection never starts and the
first pass yields no command. -/
theorem documented_script_form_scan (t d : Str) (L : List Str) (ht : '\n' ∉ t)
    (hd : '\n' ∉ d) (hte : TrimSpace t ≠ []) (hde : TrimSpace d ≠ []) (hL : L ≠ [])
    (hnl : ∀ l ∈ L, '\n' ∉ l) (hm : ∀ l ∈ L, isMarkerLine l = false) :
    markerScan ("TITLE: ".toList ++ t ++ "\nDESCRIPTION: ".toList ++ d ++ "\nSCRIPT:\n".toList
        ++ Join L nl) =
      { scanInit with Title := TrimSpace t, Description := markerScript } := by
  have eraw : "TITLE: ".toList ++ t ++ "\nDESCRIPTION: ".toList ++ d ++ "\nSCRIPT:\n".toList
        ++ Join L nl =
      ([] ++ markerTitle ++ ' ' :: t) ++ '\n' :: (([] ++ markerDescription ++ ' ' :: d) ++
        '\n' :: (markerScript ++ '\n' :: Join L nl)) := by
    have e1 : "TITLE: ".toList = markerTitle ++ [' '] := by decide
    have e2 : "\nDESCRIPTION: ".toList = '\n' :: (markerDescription ++ [' ']) := by decide
    have e3 : "\nSCRIPT:\n".toList = '\n' :: (markerScript ++ ['\n']) := by decide
    rw [e1, e2, e3]
    simp
  have hl1 : '\n' ∉ ([] ++ markerTitle ++ ' ' :: t) :=
    not_mem_append_cons t _ ' ' (by decide) (by decide) ht
  have hl2 : '\n' ∉ ([] ++ markerDescription ++ ' ' :: d) :=
    not_mem_append_cons d _ ' ' (by decide) (by decide) hd
  unfold markerScan
  rw [eraw, Split_append_sep _ _ '\n' hl1, Split_append_sep _ _ '\n' hl2,
    Split_append_sep _ _ '\n' (by decide), Split_Join L hL hnl]
  show scanLines (scanLine (scanLine (scanLine scanInit _) _) markerScript) L = _
  rw [scanLine_title_inline scanInit [] (' ' :: t) (by simp)
      (by rw [TrimSpace_cons_space]; exact hte),
    scanLine_description_inline _ [] (' ' :: d) (by simp)
      (by rw [TrimSpace_cons_space]; exact hde),
    scanLine_await_description _ markerScript (by decide) (by decide) rfl rfl,
    scanLines_plain_idle L _ hm rfl rfl rfl rfl]
  have e4 : TrimSpace markerScript = markerScript := by decide
  simp [TrimSpace_cons_space, scanInit, e4]

/-! ## The claims -/

/-- C1: for every non-empty reply `raw`, `ParseResponse raw` has at least one command, and when
neither the marker scan nor the fenced-block scan yields a command, the commands are exactly
the one-element list `[raw]`. -/
theorem C1_commands_never_absent (raw : Str) (h : raw ≠ []) :
    1 ≤ (ParseResponse raw).Commands.length ∧
    (markerCommands raw = [] → extractCodeBlocks raw = [] →
      (ParseResponse raw).Commands = [raw]) := by
  have hne : raw.isEmpty = false := by
    cases raw with
    | nil => exact absurd rfl h
    | cons a r => rfl
  constructor
  · simp only [ParseResponse, hne]
    by_cases h1 : (markerCommands raw).length = 0
    · by_cases h2 : (extractCodeBlocks raw).length = 0
      · simp [h1, h2]
      · simp [h1, h2]; omega
    · simp [h1]; omega
  · intro h1 h2
    exact ParseResponse_Commands_fallback raw h h1 h2

/-- Witness of C1 on the reply `"hello"`. -/
theorem C1_commands_never_absent_witness :
    "hello".toList ≠ [] ∧ 1 ≤ (ParseResponse "hello".toList).Commands.length ∧
    (markerCommands "hello".toList = [] → extractCodeBlocks "hello".toList = [] →
      (ParseResponse "hello".toList).Commands = ["hello".toList]) :=
  ⟨by decide, C1_commands_never_absent "hello".toList (by decide)⟩

/-- C2, evaluated on the documented multi-step reply
`"TITLE: Install\nDESCRIPTION: Steps\nSCRIPT:\necho hi"`: the title is `"Install"`, but the
description is `"SCRIPT:"` instead of `"Steps"` and the only command is the whole reply
instead of the script `"echo hi"`. -/
theorem C2_documented_script_form_misparsed :
    ParseResponse "TITLE: Install\nDESCRIPTION: Steps\nSCRIPT:\necho hi".toList =
      { Title := "Install".toList, Description := "SCRIPT:".toList,
        Commands := ["TITLE: Install\nDESCRIPTION: Steps\nSCRIPT:\necho hi".toList],
        RawResponse := "TITLE: Install\nDESCRIPTION: Steps\nSCRIPT:\necho hi".toList } ∧
    (ParseResponse "TITLE: Install\nDESCRIPTION: Steps\nSCRIPT:\necho hi".toList).Description
      ≠ TrimSpace "Steps".toList ∧
    (ParseResponse "TITLE: Install\nDESCRIPTION: Steps\nSCRIPT:\necho hi".toList).Commands
      ≠ [Join ["echo hi".toList] nl] := by
  decide

/-- In every reply of the documented multi-step form the description is the text `SCRIPT:`
and the first pass yields no command, whatever the script lines are. -/
theorem documented_script_form_misparsed (t d : Str) (L : List Str) (ht : '\n' ∉ t)
    (hd : '\n' ∉ d) (hte : TrimSpace t ≠ []) (hde : TrimSpace d ≠ []) (hL : L ≠ [])
    (hnl : ∀ l ∈ L, '\n' ∉ l) (hm : ∀ l ∈ L, isMarkerLine l = false) :
    (ParseResponse ("TITLE: ".toList ++ t ++ "\nDESCRIPTION: ".toList ++ d ++
      "\nSCRIPT:\n".toList ++ Join L nl)).Title = TrimSpace t ∧
    (ParseResponse ("TITLE: ".toList ++ t ++ "\nDESCRIPTION: ".toList ++ d ++
      "\nSCRIPT:\n".toList ++ Join L nl)).Description = markerScript ∧
    markerCommands ("TITLE: ".toList ++ t ++ "\nDESCRIPTION: ".toList ++ d ++
      "\nSCRIPT:\n".toList ++ Join L nl) = [] := by
  have hscan := documented_script_form_scan t d L ht hd hte hde hL hnl hm
  refine ⟨?_, ?_, ?_⟩
  · rw [ParseResponse_Title, hscan]
  · rw [ParseResponse_Description, hscan]
  · unfold markerCommands
    rw [hscan]
    rfl

/-- C3: for single-line `t` and `c` whose trimmed forms are not empty, the reply
`"TITLE: " ++ t ++ "\nCOMMAND: " ++ c` has title `trim t`, commands `[trim c]` and an empty
description. -/
theorem C3_inline_title_command (t c : Str) (ht : '\n' ∉ t) (hc : '\n' ∉ c)
    (hte : TrimSpace t ≠ []) (hce : TrimSpace c ≠ []) :
    (ParseResponse ("TITLE: ".toList ++ t ++ "\nCOMMAND: ".toList ++ c)).Title = TrimSpace t ∧
    (ParseResponse ("TITLE: ".toList ++ t ++ "\nCOMMAND: ".toList ++ c)).Commands
      = [TrimSpace c] ∧
    (ParseResponse ("TITLE: ".toList ++ t ++ "\nCOMMAND: ".toList ++ c)).Description = [] :=
  inline_form_parsed t c ht hc hte hce

/-- Witness of C3 on `t = "Find process"`, `c = "lsof -i :3000"`. -/
theorem C3_inline_title_command_witness :
    ('\n' ∉ "Find process".toList ∧ '\n' ∉ "lsof -i :3000".toList ∧
      TrimSpace "Find process".toList ≠ [] ∧ TrimSpace "lsof -i :3000".toList ≠ []) ∧
    (ParseResponse ("TITLE: ".toList ++ "Find process".toList ++ "\nCOMMAND: ".toList ++
      "lsof -i :3000".toList)).Title = TrimSpace "Find process".toList ∧
    (ParseResponse ("TITLE: ".toList ++ "Find process".toList ++ "\nCOMMAND: ".toList ++
      "lsof -i :3000".toList)).Commands = [TrimSpace "lsof -i :3000".toList] ∧
    (ParseResponse ("TITLE: ".toList ++ "Find process".toList ++ "\nCOMMAND: ".toList ++
      "lsof -i :3000".toList)).Description = [] :=
  ⟨by decide, C3_inline_title_command "Find process".toList "lsof -i :3000".toList
    (by decide) (by decide) (by decide) (by decide)⟩

/-- C4: for single-line `t` and `c` whose trimmed forms are not empty and start with none of
`TITLE:`, `DESCRIPTION:`, `COMMAND:`, the split form `"TITLE:\n" ++ t ++ "\nCOMMAND:\n" ++ c`
has the same title and the same commands as the inline form
`"TITLE: " ++ t ++ "\nCOMMAND: " ++ c`. -/
theorem C4_split_form_equals_inline (t c : Str) (ht : '\n' ∉ t) (hc : '\n' ∉ c)
    (hte : TrimSpace t ≠ []) (hce : TrimSpace c ≠ [])
    (htm : isValueMarkerLine t = false) (hcm : isValueMarkerLine c = false) :
    (ParseResponse ("TITLE:\n".toList ++ t ++ "\nCOMMAND:\n".toList ++ c)).Title =
      (ParseResponse ("TITLE: ".toList ++ t ++ "\nCOMMAND: ".toList ++ c)).Title ∧
    (ParseResponse ("TITLE:\n".toList ++ t ++ "\nCOMMAND:\n".toList ++ c)).Commands =
      (ParseResponse ("TITLE: ".toList ++ t ++ "\nCOMMAND: ".toList ++ c)).Commands := by
  obtain ⟨s1, s2, _⟩ := split_form_parsed t c ht hc hte hce htm hcm
  obtain ⟨i1, i2, _⟩ := inline_form_parsed t c ht hc hte hce
  exact ⟨by rw [s1, i1], by rw [s2, i2]⟩

/-- Witness of C4 on `t = "Find process"`, `c = "lsof -i :3000"`. -/
theorem C4_split_form_equals_inline_witness :
    ('\n' ∉ "Find process".toList ∧ '\n' ∉ "lsof -i :3000".toList ∧
      TrimSpace "Find process".toList ≠ [] ∧ TrimSpace "lsof -i :3000".toList ≠ [] ∧
      isValueMarkerLine "Find process".toList = false ∧
      isValueMarkerLine "lsof -i :3000".toList = false) ∧
    (ParseResponse ("TITLE:\n".toList ++ "Find process".toList ++ "\nCOMMAND:\n".toList ++
        "lsof -i :3000".toList)).Title =
      (ParseResponse ("TITLE: ".toList ++ "Find process".toList ++ "\nCOMMAND: ".toList ++
        "lsof -i :3000".toList)).Title ∧
    (ParseResponse ("TITLE:\n".toList ++ "Find process".toList ++ "\nCOMMAND:\n".toList ++
        "lsof -i :3000".toList)).Commands =
      (ParseResponse ("TITLE: ".toList ++ "Find process".toList ++ "\nCOMMAND: ".toList ++
        "lsof -i :3000".toList)).Commands :=
  ⟨by decide, C4_split_form_equals_inline "Find process".toList "lsof -i :3000".toList
    (by decide) (by decide) (by decide) (by decide) (by decide) (by decide)⟩

/-- C5: for every list of lines `L` none of which starts, trimmed, with one of the four
markers and at least one of which is not blank, the reply `"SCRIPT:\n" ++ join(L, "\n")` has
as its only command the non-blank lines of `L`, in order and verbatim, joined with newlines:
blank lines are dropped and do not end the collection. -/
theorem C5_script_drops_blank_lines (L : List Str) (hnl : ∀ l ∈ L, '\n' ∉ l)
    (hm : ∀ l ∈ L, isMarkerLine l = false) (hne : ∃ l ∈ L, isBlank l = false) :
    (ParseResponse ("SCRIPT:\n".toList ++ Join L nl)).Commands =
      [Join (L.filter (fun l => !isBlank l)) nl] := by
  have hL : L ≠ [] := by
    obtain ⟨l, hl, _⟩ := hne
    exact List.ne_nil_of_mem hl
  have hF : L.filter (fun l => !isBlank l) ≠ [] := by
    obtain ⟨l, hl, hb⟩ := hne
    apply List.ne_nil_of_mem (a := l)
    simp [List.mem_filter, hl, hb]
  have eraw : "SCRIPT:\n".toList ++ Join L nl =
      ([] ++ markerScript ++ []) ++ '\n' :: Join L nl := by
    have e1 : "SCRIPT:\n".toList = markerScript ++ ['\n'] := by decide
    rw [e1]
    simp
  have hsplit : Split ("SCRIPT:\n".toList ++ Join L nl) '\n' =
      ([] ++ markerScript ++ []) :: L := by
    rw [eraw, Split_append_sep _ _ '\n' (by decide), Split_Join L hL hnl]
  have hscan : markerScan ("SCRIPT:\n".toList ++ Join L nl) =
      { scanInit with passedScriptMarker := true,
                      scriptLines := L.filter (fun l => !isBlank l) } := by
    unfold markerScan
    rw [hsplit]
    show scanLines (scanLine scanInit _) L = _
    rw [scanLine_script_marker scanInit [] [] (by simp) (by simp) rfl rfl rfl,
      scanLines_collect L _ hm rfl rfl rfl rfl]
    simp [scanInit]
  have hmc : markerCommands ("SCRIPT:\n".toList ++ Join L nl) =
      [Join (L.filter (fun l => !isBlank l)) nl] := by
    unfold markerCommands
    rw [hscan]
    have hlen : 0 < (L.filter (fun l => !isBlank l)).length := List.length_pos.2 hF
    simp [scanInit, hlen]
  rw [ParseResponse_Commands_of_marker _ (by rw [hmc]; simp), hmc]

/-- Witness of C5 on the lines `"echo hi"`, `""`, `"echo bye"`, that is on the reply
`"SCRIPT:\necho hi\n\necho bye"`, whose only command is `"echo hi\necho bye"`. -/
theorem C5_script_drops_blank_lines_witness :
    ((∀ l ∈ ["echo hi".toList, [], "echo bye".toList], '\n' ∉ l) ∧
      (∀ l ∈ ["echo hi".toList, [], "echo bye".toList], isMarkerLine l = false) ∧
      (∃ l ∈ ["echo hi".toList, [], "echo bye".toList], isBlank l = false)) ∧
    (ParseResponse ("SCRIPT:\n".toList ++
        Join ["echo hi".toList, [], "echo bye".toList] nl)).Commands =
      [Join (["echo hi".toList, [], "echo bye".toList].filter (fun l => !isBlank l)) nl] :=
  ⟨by decide, C5_script_drops_blank_lines ["echo hi".toList, [], "echo bye".toList]
    (by decide) (by decide) (by decide)⟩

/-- C7: for every reply without marker line that consists of `k ≥ 1` complete fenced blocks
(an opening fence line, at least one body line that is no fence line, a closing fence line),
optionally preceded, separated and followed by prose lines, the commands are the `k` block
bodies in order, each body being its lines joined with newlines, unchanged. -/
theorem C7_fenced_blocks_become_commands (prose : List Str)
    (segs : List (FencedBlock × List Str)) (hk : segs ≠ [])
    (hnl : ∀ l ∈ fencedReplyLines prose segs, '\n' ∉ l)
    (hm : ∀ l ∈ fencedReplyLines prose segs, isMarkerLine l = false)
    (hp : ∀ l ∈ prose, isFenceLine l = false) (hs : ∀ s ∈ segs, WellFenced s) :
    (ParseResponse (Join (fencedReplyLines prose segs) nl)).Commands =
      segs.map (fun s => Join s.1.body nl) := by
  have hne : fencedReplyLines prose segs ≠ [] := by
    cases segs with
    | nil => exact absurd rfl hk
    | cons s rest => simp [fencedReplyLines, segmentLines]
  have hsplit := Split_Join (fencedReplyLines prose segs) hne hnl
  have hscan : markerScan (Join (fencedReplyLines prose segs) nl) = scanInit :=
    markerScan_no_marker _ (by rw [hsplit]; exact hm)
  have hmc : markerCommands (Join (fencedReplyLines prose segs) nl) = [] := by
    unfold markerCommands
    rw [hscan]
    rfl
  have hb : extractCodeBlocks (Join (fencedReplyLines prose segs) nl) =
      segs.map (fun s => Join s.1.body nl) := by
    unfold extractCodeBlocks
    rw [hsplit]
    unfold fencedReplyLines
    rw [blockLines_append, blockLines_prose prose blockInit hp rfl,
      blockLines_segments segs blockInit hs rfl rfl]
    simp [blockInit]
  rw [ParseResponse_Commands_of_blocks _ hmc (by rw [hb]; simpa using hk), hb]

/-- Witness of C7 on the reply `"Run:"` followed by the blocks of `fencedExample`. -/
theorem C7_fenced_blocks_become_commands_witness :
    (fencedExample ≠ [] ∧
      (∀ l ∈ fencedReplyLines ["Run:".toList] fencedExample, '\n' ∉ l) ∧
      (∀ l ∈ fencedReplyLines ["Run:".toList] fencedExample, isMarkerLine l = false) ∧
      (∀ l ∈ ["Run:".toList], isFenceLine l = false) ∧
      (∀ s ∈ fencedExample, WellFenced s)) ∧
    (ParseResponse (Join (fencedReplyLines ["Run:".toList] fencedExample) nl)).Commands =
      fencedExample.map (fun s => Join s.1.body nl) :=
  ⟨by decide, C7_fenced_blocks_become_commands ["Run:".toList] fencedExample
    (by decide) (by decide) (by decide) (by decide) (by decide)⟩

/-- C8: for every non-empty reply in which no trimmed line starts with `TITLE:`,
`DESCRIPTION:`, `COMMAND:`, `SCRIPT:` or three backticks, the commands are the one-element
list holding the entire reply, and title and description are empty. -/
theorem C8_plain_prose_passthrough (raw : Str) (h : raw ≠ [])
    (hm : ∀ l ∈ Split raw '\n', isMarkerLine l = false)
    (hf : ∀ l ∈ Split raw '\n', isFenceLine l = false) :
    (ParseResponse raw).Commands = [raw] ∧ (ParseResponse raw).Title = [] ∧
    (ParseResponse raw).Description = [] := by
  have hs := markerScan_no_marker raw hm
  have hc : markerCommands raw = [] := by simp [markerCommands, hs, scanInit]
  have hb : extractCodeBlocks raw = [] := by
    unfold extractCodeBlocks
    rw [blockLines_prose _ blockInit hf rfl]
    rfl
  refine ⟨ParseResponse_Commands_fallback raw h hc hb, ?_, ?_⟩
  · simp [ParseResponse, hs, scanInit]
  · simp [ParseResponse, hs, scanInit]

/-- Witness of C8 on the two-line prose reply `"just run\nthe tool"`. -/
theorem C8_plain_prose_passthrough_witness :
    "just run\nthe tool".toList ≠ [] ∧
    (∀ l ∈ Split "just run\nthe tool".toList '\n', isMarkerLine l = false) ∧
    (∀ l ∈ Split "just run\nthe tool".toList '\n', isFenceLine l = false) ∧
    (ParseResponse "just run\nthe tool".toList).Commands = ["just run\nthe tool".toList] ∧
    (ParseResponse "just run\nthe tool".toList).Title = [] ∧
    (ParseResponse "just run\nthe tool".toList).Description = [] :=
  ⟨by decide, by decide, by decide,
    C8_plain_prose_passthrough "just run\nthe tool".toList (by decide) (by decide) (by decide)⟩

/-- C9: `ParseResponse` has no error path: it returns a `Response` for every input, and for
the empty string the result has no command, empty title, empty description and empty raw
text. -/
theorem C9_total_and_empty_input :
    (∀ raw : Str, ∃ r : Response, ParseResponse raw = r) ∧
    ParseResponse [] = { Title := [], Description := [], Commands := [], RawResponse := [] } ∧
    (ParseResponse []).Commands.length = 0 := by
  refine ⟨fun raw => ⟨_, rfl⟩, by decide, by decide⟩

/-- C10: for every input `raw`, the field `RawResponse` of `ParseResponse raw` is `raw`
itself, whichever pass produced the commands. -/
theorem C10_raw_response_unmodified (raw : Str) : (ParseResponse raw).RawResponse = raw := by
  rfl

/-- C11: re-parsing the raw text kept in a parsed reply gives the same reply again, for every
string `x`: `Title`, `Description`, `Commands` and `RawResponse` are all equal. -/
theorem C11_reparse_raw_text (x : Str) :
    ParseResponse (ParseResponse x).RawResponse = ParseResponse x ∧
    (ParseResponse (ParseResponse x).RawResponse).Title = (ParseResponse x).Title ∧
    (ParseResponse (ParseResponse x).RawResponse).Description = (ParseResponse x).Description ∧
    (ParseResponse (ParseResponse x).RawResponse).Commands = (ParseResponse x).Commands ∧
    (ParseResponse (ParseResponse x).RawResponse).RawResponse = (ParseResponse x).RawResponse :=
  ⟨rfl, rfl, rfl, rfl, rfl⟩

/-! ## Prompt builder: the claims -/

theorem BuildUserPrompt_of_how (q : Str) (h : HasPrefix q howPrefix = true) :
    BuildUserPrompt q = q := by
  simp [BuildUserPrompt, h]

theorem BuildUserPrompt_of_not_how (q : Str) (h : HasPrefix q howPrefix = false) :
    BuildUserPrompt q = howPrefix ++ q := by
  simp [BuildUserPrompt, h]

theorem BuildUserPrompt_starts_with_how (q : Str) :
    HasPrefix (BuildUserPrompt q) howPrefix = true := by
  cases h : HasPrefix q howPrefix with
  | true => rw [BuildUserPrompt_of_how q h]; exact h
  | false => rw [BuildUserPrompt_of_not_how q h]; exact HasPrefix_append _ _

/-- C12: `BuildUserPrompt` is idempotent. -/
theorem C12_BuildUserPrompt_idempotent (q : Str) :
    BuildUserPrompt (BuildUserPrompt q) = BuildUserPrompt q :=
  BuildUserPrompt_of_how _ (BuildUserPrompt_starts_with_how q)

/-- C13: if `q` starts with the characters `"how "` then `BuildUserPrompt q` is `q`, otherwise
it is `"how "` followed by `q`; in every case the result starts with `"how "`. -/
theorem C13_BuildUserPrompt_cases (q : Str) :
    ("how ".toList <+: q → BuildUserPrompt q = q) ∧
    (¬ "how ".toList <+: q → BuildUserPrompt q = "how ".toList ++ q) ∧
    "how ".toList <+: BuildUserPrompt q := by
  have e : "how ".toList = howPrefix := by decide
  rw [e]
  refine ⟨fun h => ?_, fun h => ?_, ?_⟩
  · exact BuildUserPrompt_of_how q (by simpa [HasPrefix] using h)
  · apply BuildUserPrompt_of_not_how q
    cases hh : HasPrefix q howPrefix with
    | true => exact absurd (by simpa [HasPrefix] using hh) h
    | false => rfl
  · have := BuildUserPrompt_starts_with_how q
    simpa [HasPrefix] using this

/-- Witness of C13 on `"How do I x"` and on `"how"`, which are both prefixed, and on
`"how do I x"`, which is kept. -/
theorem C13_BuildUserPrompt_cases_witness :
    BuildUserPrompt "How do I x".toList = "how ".toList ++ "How do I x".toList ∧
    BuildUserPrompt "how".toList = "how ".toList ++ "how".toList ∧
    BuildUserPrompt "how do I x".toList = "how do I x".toList :=
  ⟨(C13_BuildUserPrompt_cases "How do I x".toList).2.1 (by decide),
    (C13_BuildUserPrompt_cases "how".toList).2.1 (by decide),
    (C13_BuildUserPrompt_cases "how do I x".toList).1 (by decide)⟩

/-! ## Provider factory: the claims -/

/-- The outcome of `NewProvider` on each of the five names and on any other name. -/
theorem NewProvider_cases (env : Env) (name apiKey model baseURL : Str) :
    (name = "OpenAI".toList ∧
      NewProvider env name apiKey model baseURL =
        Except.ok (Provider.OpenAI (NewOpenAIProvider apiKey model))) ∨
    (name = "Anthropic".toList ∧
      NewProvider env name apiKey model baseURL =
        Except.ok (Provider.Anthropic (NewAnthropicProvider apiKey model))) ∨
    (name = "Google".toList ∧
      NewProvider env name apiKey model baseURL =
        Except.ok (Provider.Google (NewGoogleProvider env apiKey model))) ∨
    (name = "xAI".toList ∧
      NewProvider env name apiKey model baseURL =
        Except.ok (Provider.XAI (NewXAIProvider apiKey model))) ∨
    (name = "OpenAI-Compatible".toList ∧
      NewProvider env name apiKey model baseURL =
        Except.ok (Provider.OpenAICompatible
          (NewOpenAICompatibleProvider apiKey model baseURL))) ∨
    (name ∉ ["OpenAI".toList, "Anthropic".toList, "Google".toList, "xAI".toList,
        "OpenAI-Compatible".toList] ∧
      NewProvider env name apiKey model baseURL =
        Except.error ("unknown provider: ".toList ++ name)) := by
  unfold NewProvider
  by_cases h1 : name = "OpenAI".toList
  · exact Or.inl ⟨h1, by rw [if_pos h1]⟩
  by_cases h2 : name = "Anthropic".toList
  · exact Or.inr (Or.inl ⟨h2, by rw [if_neg h1, if_pos h2]⟩)
  by_cases h3 : name = "Google".toList
  · exact Or.inr (Or.inr (Or.inl ⟨h3, by rw [if_neg h1, if_neg h2, if_pos h3]⟩))
  by_cases h4 : name = "xAI".toList
  · exact Or.inr (Or.inr (Or.inr (Or.inl
      ⟨h4, by rw [if_neg h1, if_neg h2, if_neg h3, if_pos h4]⟩)))
  by_cases h5 : name = "OpenAI-Compatible".toList
  · exact Or.inr (Or.inr (Or.inr (Or.inr (Or.inl
      ⟨h5, by rw [if_neg h1, if_neg h2, if_neg h3, if_neg h4, if_pos h5]⟩))))
  · refine Or.inr (Or.inr (Or.inr (Or.inr (Or.inr ⟨?_, ?_⟩))))
    · intro hm
      simp only [List.mem_cons, List.mem_singleton, List.not_mem_nil, or_false] at hm
      rcases hm with h | h | h | h | h
      · exact h1 h
      · exact h2 h
      · exact h3 h
      · exact h4 h
      · exact h5 h
    · rw [if_neg h1, if_neg h2, if_neg h3, if_neg h4, if_neg h5]

/-- C14: `NewProvider` fails exactly when the name is none of `"OpenAI"`, `"Anthropic"`,
`"Google"`, `"xAI"`, `"OpenAI-Compatible"`; it then returns no provider and the error
`"unknown provider: "` followed by the name, whatever the API key, the model and the base URL
are. -/
theorem C14_NewProvider_fails_iff_unknown (env : Env) (name apiKey model baseURL : Str) :
    ((∃ e, NewProvider env name apiKey model baseURL = Except.error e) ↔
      name ∉ ["OpenAI".toList, "Anthropic".toList, "Google".toList, "xAI".toList,
        "OpenAI-Compatible".toList]) ∧
    (name ∉ ["OpenAI".toList, "Anthropic".toList, "Google".toList, "xAI".toList,
        "OpenAI-Compatible".toList] →
      NewProvider env name apiKey model baseURL =
        Except.error ("unknown provider: ".toList ++ name)) := by
  have hmem : ∀ n : Str, n ∈ ["OpenAI".toList, "Anthropic".toList, "Google".toList,
      "xAI".toList, "OpenAI-Compatible".toList] ↔
      (n = "OpenAI".toList ∨ n = "Anthropic".toList ∨ n = "Google".toList ∨
        n = "xAI".toList ∨ n = "OpenAI-Compatible".toList) := by
    intro n
    simp only [List.mem_cons, List.mem_singleton, List.not_mem_nil, or_false]
  rcases NewProvider_cases env name apiKey model baseURL with
    ⟨hn, h⟩ | ⟨hn, h⟩ | ⟨hn, h⟩ | ⟨hn, h⟩ | ⟨hn, h⟩ | ⟨hn, h⟩
  · have hin := (hmem name).2 (Or.inl hn)
    exact ⟨⟨fun ⟨e, he⟩ => (by rw [h] at he; cases he), fun hc => absurd hin hc⟩,
      fun hc => absurd hin hc⟩
  · have hin := (hmem name).2 (Or.inr (Or.inl hn))
    exact ⟨⟨fun ⟨e, he⟩ => (by rw [h] at he; cases he), fun hc => absurd hin hc⟩,
      fun hc => absurd hin hc⟩
  · have hin := (hmem name).2 (Or.inr (Or.inr (Or.inl hn)))
    exact ⟨⟨fun ⟨e, he⟩ => (by rw [h] at he; cases he), fun hc => absurd hin hc⟩,
      fun hc => absurd hin hc⟩
  · have hin := (hmem name).2 (Or.inr (Or.inr (Or.inr (Or.inl hn))))
    exact ⟨⟨fun ⟨e, he⟩ => (by rw [h] at he; cases he), fun hc => absurd hin hc⟩,
      fun hc => absurd hin hc⟩
  · have hin := (hmem name).2 (Or.inr (Or.inr (Or.inr (Or.inr hn))))
    exact ⟨⟨fun ⟨e, he⟩ => (by rw [h] at he; cases he), fun hc => absurd hin hc⟩,
      fun hc => absurd hin hc⟩
  · exact ⟨⟨fun _ => hn, fun _ => ⟨_, h⟩⟩, fun _ => h⟩

/-- Witness of C14 on the names `"openai"` (wrong case), which fails with
`"unknown provider: openai"`, and `"OpenAI"`, which does not fail. -/
theorem C14_NewProvider_fails_iff_unknown_witness :
    NewProvider envNoContent "openai".toList "k".toList "m".toList [] =
      Except.error ("unknown provider: ".toList ++ "openai".toList) ∧
    ¬ ∃ e, NewProvider envNoContent "OpenAI".toList "k".toList "m".toList [] =
      Except.error e :=
  ⟨(C14_NewProvider_fails_iff_unknown envNoContent "openai".toList "k".toList "m".toList
      []).2 (by decide),
    fun h => (C14_NewProvider_fails_iff_unknown envNoContent "OpenAI".toList "k".toList
      "m".toList []).1.1 h (by decide)⟩

/-- C15: for every name `n` of `GetProviders`, `NewProvider` succeeds whatever the API key,
the model and the base URL are, and the name of the provider it creates is `n`. -/
theorem C15_factory_round_trips_names (env : Env) (n k m u : Str) (h : n ∈ GetProviders) :
    ∃ p : Provider, NewProvider env n k m u = Except.ok p ∧ p.GetName = n := by
  have hn : n ∈ ["OpenAI".toList, "Anthropic".toList, "Google".toList, "xAI".toList,
      "OpenAI-Compatible".toList] := h
  rcases NewProvider_cases env n k m u with
    ⟨hn, h⟩ | ⟨hn, h⟩ | ⟨hn, h⟩ | ⟨hn, h⟩ | ⟨hn, h⟩ | ⟨hc, _⟩
  · exact ⟨_, h, hn.symm⟩
  · exact ⟨_, h, hn.symm⟩
  · exact ⟨_, h, hn.symm⟩
  · exact ⟨_, h, hn.symm⟩
  · exact ⟨_, h, hn.symm⟩
  · exact absurd hn hc

/-- Witness of C15 on the name `"Google"`, in a world where no Google client can be
created. -/
theorem C15_factory_round_trips_names_witness :
    "Google".toList ∈ GetProviders ∧
    ∃ p : Provider, NewProvider envNoGoogleClient "Google".toList "k".toList "m".toList [] =
      Except.ok p ∧ p.GetName = "Google".toList :=
  ⟨by decide, C15_factory_round_trips_names envNoGoogleClient "Google".toList "k".toList
    "m".toList [] (by decide)⟩

/-! ## Provider adapters: the claims -/

theorem OpenAI_Ask_no_choice (env : Env) (p : OpenAIProvider) (question : Str)
    (sysInfo : SystemInfo)
    (h : env.chat p.client (chatParams env p.model question sysInfo) =
      Except.ok { Choices := [] }) :
    (p.Ask env question sysInfo).1 = Except.error "no response from OpenAI".toList := by
  simp only [OpenAIProvider.Ask, h]

theorem XAI_Ask_no_choice (env : Env) (p : XAIProvider) (question : Str)
    (sysInfo : SystemInfo)
    (h : env.chat p.client (chatParams env p.model question sysInfo) =
      Except.ok { Choices := [] }) :
    (p.Ask env question sysInfo).1 = Except.error "no response from xAI".toList := by
  simp only [XAIProvider.Ask, h]

theorem OpenAICompatible_Ask_no_choice (env : Env) (p : OpenAICompatibleProvider)
    (question : Str) (sysInfo : SystemInfo)
    (h : env.chat p.client (chatParams env p.model question sysInfo) =
      Except.ok { Choices := [] }) :
    (p.Ask env question sysInfo).1 =
      Except.error "no response from OpenAI-compatible API".toList := by
  simp only [OpenAICompatibleProvider.Ask, h]

theorem Anthropic_Ask_no_content (env : Env) (p : AnthropicProvider) (question : Str)
    (sysInfo : SystemInfo)
    (h : env.messages p.client (messageParams env p.model question sysInfo) =
      Except.ok { Content := [] }) :
    (p.Ask env question sysInfo).1 = Except.error "no response from Anthropic".toList := by
  simp [AnthropicProvider.Ask, h]

theorem Google_Ask_no_candidate (env : Env) (client : GoogleClient) (model question : Str)
    (sysInfo : SystemInfo)
    (h : env.generateContent client model (googlePrompt env question sysInfo) =
      Except.ok { Candidates := [] }) :
    (GoogleProvider.Ask env { client := some client, model := model } question sysInfo).1 =
      Except.error "no response from Google".toList := by
  simp only [GoogleProvider.Ask, h]

theorem Google_Ask_no_parts (env : Env) (client : GoogleClient) (model question : Str)
    (sysInfo : SystemInfo) (candidate : Candidate) (rest : List Candidate)
    (h : env.generateContent client model (googlePrompt env question sysInfo) =
      Except.ok { Candidates := candidate :: rest })
    (hc : candidate.Content = none ∨ candidate.Content = some []) :
    (GoogleProvider.Ask env { client := some client, model := model } question sysInfo).1 =
      Except.error "no content in Google response".toList := by
  rcases hc with hc | hc
  · simp only [GoogleProvider.Ask, h, hc]
  · simp [GoogleProvider.Ask, h, hc]

/-- C16: for each of the five adapters, when the vendor call succeeds with a reply that has
no content item (no choice for OpenAI, xAI and OpenAI-compatible, no content block for
Anthropic, no candidate for Google, or a first candidate without content or without parts),
`Ask` returns no result and the error "no response from ..." (for Google's candidate without
parts "no content in Google response"), which is not the wrapped "... API error: ..." of a
failed call. -/
theorem C16_no_content_is_not_an_API_error (env : Env) (question : Str)
    (sysInfo : SystemInfo) :
    (∀ p : OpenAIProvider,
      env.chat p.client (chatParams env p.model question sysInfo) =
        Except.ok { Choices := [] } →
      (p.Ask env question sysInfo).1 = Except.error "no response from OpenAI".toList ∧
      ∀ err, (p.Ask env question sysInfo).1 ≠
        Except.error ("OpenAI API error: ".toList ++ err)) ∧
    (∀ p : XAIProvider,
      env.chat p.client (chatParams env p.model question sysInfo) =
        Except.ok { Choices := [] } →
      (p.Ask env question sysInfo).1 = Except.error "no response from xAI".toList ∧
      ∀ err, (p.Ask env question sysInfo).1 ≠
        Except.error ("xAI API error: ".toList ++ err)) ∧
    (∀ p : OpenAICompatibleProvider,
      env.chat p.client (chatParams env p.model question sysInfo) =
        Except.ok { Choices := [] } →
      (p.Ask env question sysInfo).1 =
        Except.error "no response from OpenAI-compatible API".toList ∧
      ∀ err, (p.Ask env question sysInfo).1 ≠
        Except.error ("OpenAI-compatible API error: ".toList ++ err)) ∧
    (∀ p : AnthropicProvider,
      env.messages p.client (messageParams env p.model question sysInfo) =
        Except.ok { Content := [] } →
      (p.Ask env question sysInfo).1 = Except.error "no response from Anthropic".toList ∧
      ∀ err, (p.Ask env question sysInfo).1 ≠
        Except.error ("anthropic API error: ".toList ++ err)) ∧
    (∀ (client : GoogleClient) (model : Str),
      env.generateContent client model (googlePrompt env question sysInfo) =
        Except.ok { Candidates := [] } →
      (GoogleProvider.Ask env { client := some client, model := model } question sysInfo).1 =
        Except.error "no response from Google".toList ∧
      ∀ err,
        (GoogleProvider.Ask env { client := some client, model := model } question sysInfo).1
          ≠ Except.error ("google API error: ".toList ++ err)) ∧
    (∀ (client : GoogleClient) (model : Str) (candidate : Candidate) (rest : List Candidate),
      env.generateContent client model (googlePrompt env question sysInfo) =
        Except.ok { Candidates := candidate :: rest } →
      (candidate.Content = none ∨ candidate.Content = some []) →
      (GoogleProvider.Ask env { client := some client, model := model } question sysInfo).1 =
        Except.error "no content in Google response".toList ∧
      ∀ err,
        (GoogleProvider.Ask env { client := some client, model := model } question sysInfo).1
          ≠ Except.error ("google API error: ".toList ++ err)) := by
  refine ⟨?_, ?_, ?_, ?_, ?_, ?_⟩
  · intro p h
    have e := OpenAI_Ask_no_choice env p question sysInfo h
    refine ⟨e, fun err he => ?_⟩
    rw [e] at he
    simp at he
  · intro p h
    have e := XAI_Ask_no_choice env p question sysInfo h
    refine ⟨e, fun err he => ?_⟩
    rw [e] at he
    simp at he
  · intro p h
    have e := OpenAICompatible_Ask_no_choice env p question sysInfo h
    refine ⟨e, fun err he => ?_⟩
    rw [e] at he
    simp at he
  · intro p h
    have e := Anthropic_Ask_no_content env p question sysInfo h
    refine ⟨e, fun err he => ?_⟩
    rw [e] at he
    simp at he
  · intro client model h
    have e := Google_Ask_no_candidate env client model question sysInfo h
    refine ⟨e, fun err he => ?_⟩
    rw [e] at he
    simp at he
  · intro client model candidate rest h hc
    have e := Google_Ask_no_parts env client model question sysInfo candidate rest h hc
    refine ⟨e, fun err he => ?_⟩
    rw [e] at he
    simp at he

/-- Witness of C16 in the world where every reply has no content item (and, for Google, in
the worlds where the first candidate has no content or no parts). -/
theorem C16_no_content_is_not_an_API_error_witness :
    ((NewOpenAIProvider "k".toList "gpt-4o".toList).Ask envNoContent "list files".toList
      sampleSystem).1 = Except.error "no response from OpenAI".toList ∧
    ((NewXAIProvider "k".toList "grok-3".toList).Ask envNoContent "list files".toList
      sampleSystem).1 = Except.error "no response from xAI".toList ∧
    ((NewOpenAICompatibleProvider [] "local".toList "http://localhost:1234".toList).Ask
      envNoContent "list files".toList sampleSystem).1 =
      Except.error "no response from OpenAI-compatible API".toList ∧
    ((NewAnthropicProvider "k".toList "claude-opus-4-1".toList).Ask envNoContent
      "list files".toList sampleSystem).1 = Except.error "no response from Anthropic".toList ∧
    (GoogleProvider.Ask envNoContent
      { client := some { APIKey := "k".toList }, model := "gemini-2.5-pro".toList }
      "list files".toList sampleSystem).1 = Except.error "no response from Google".toList ∧
    (GoogleProvider.Ask envNilContent
      { client := some { APIKey := "k".toList }, model := "gemini-2.5-pro".toList }
      "list files".toList sampleSystem).1 =
      Except.error "no content in Google response".toList ∧
    (GoogleProvider.Ask envNoParts
      { client := some { APIKey := "k".toList }, model := "gemini-2.5-pro".toList }
      "list files".toList sampleSystem).1 =
      Except.error "no content in Google response".toList :=
  ⟨((C16_no_content_is_not_an_API_error envNoContent "list files".toList sampleSystem).1
      _ rfl).1,
    ((C16_no_content_is_not_an_API_error envNoContent "list files".toList sampleSystem).2.1
      _ rfl).1,
    ((C16_no_content_is_not_an_API_error envNoContent "list files".toList sampleSystem).2.2.1
      _ rfl).1,
    ((C16_no_content_is_not_an_API_error envNoContent "list files".toList
      sampleSystem).2.2.2.1 _ rfl).1,
    ((C16_no_content_is_not_an_API_error envNoContent "list files".toList
      sampleSystem).2.2.2.2.1 _ _ rfl).1,
    ((C16_no_content_is_not_an_API_error envNilContent "list files".toList
      sampleSystem).2.2.2.2.2 _ _ _ _ rfl (Or.inl rfl)).1,
    ((C16_no_content_is_not_an_API_error envNoParts "list files".toList
      sampleSystem).2.2.2.2.2 _ _ _ _ rfl (Or.inr rfl)).1⟩

theorem ParseResponse_RawResponse (raw : Str) : (ParseResponse raw).RawResponse = raw := rfl

/-- The OpenAI adapter hands the first choice to the parser without looking at it: an empty
first text gives a successful `Ask`. -/
theorem OpenAI_Ask_first_choice (env : Env) (p : OpenAIProvider) (question : Str)
    (sysInfo : SystemInfo) (text : Str) (rest : List Str)
    (h : env.chat p.client (chatParams env p.model question sysInfo) =
      Except.ok { Choices := text :: rest }) :
    (p.Ask env question sysInfo).1 = Except.ok (ParseResponse text) := by
  simp only [OpenAIProvider.Ask, h]

/-- The Anthropic adapter never succeeds with an empty raw text. -/
theorem Anthropic_Ask_success_has_text (env : Env) (p : AnthropicProvider) (question : Str)
    (sysInfo : SystemInfo) (r : Response) (h : (p.Ask env question sysInfo).1 = Except.ok r) :
    r.RawResponse ≠ [] := by
  simp only [AnthropicProvider.Ask] at h
  split at h
  · simp at h
  · split at h
    · simp at h
    · split at h
      · simp at h
      · rename_i hne
        simp only [Except.ok.injEq] at h
        rw [← h]
        intro he
        apply hne
        rw [ParseResponse_RawResponse] at he
        rw [he]
        rfl

/-- The Google adapter never succeeds with an empty raw text. -/
theorem Google_Ask_success_has_text (env : Env) (p : GoogleProvider) (question : Str)
    (sysInfo : SystemInfo) (r : Response) (h : (p.Ask env question sysInfo).1 = Except.ok r) :
    r.RawResponse ≠ [] := by
  simp only [GoogleProvider.Ask] at h
  repeat' split at h
  all_goals try simp at h
  rename_i hne
  rw [← h]
  intro he
  apply hne
  rw [ParseResponse_RawResponse] at he
  rw [he]
  rfl

/-- C17, evaluated in the world where every vendor reply carries the empty string as its only
text: the OpenAI, xAI and OpenAI-compatible adapters succeed, with a result whose raw text
is empty and which has no command, while the Anthropic and the Google adapter fail with their
"no text content" error. -/
theorem C17_openai_family_accepts_empty_text :
    ((NewOpenAIProvider "k".toList "gpt-4o".toList).Ask envEmptyText "list files".toList
      sampleSystem).1 =
      Except.ok { Title := [], Description := [], Commands := [], RawResponse := [] } ∧
    ((NewXAIProvider "k".toList "grok-3".toList).Ask envEmptyText "list files".toList
      sampleSystem).1 =
      Except.ok { Title := [], Description := [], Commands := [], RawResponse := [] } ∧
    ((NewOpenAICompatibleProvider [] "local".toList "http://localhost:1234".toList).Ask
      envEmptyText "list files".toList sampleSystem).1 =
      Except.ok { Title := [], Description := [], Commands := [], RawResponse := [] } ∧
    ((NewAnthropicProvider "k".toList "claude-opus-4-1".toList).Ask envEmptyText
      "list files".toList sampleSystem).1 =
      Except.error "no text content in Anthropic response".toList ∧
    (GoogleProvider.Ask envEmptyText
      { client := some { APIKey := "k".toList }, model := "gemini-2.5-pro".toList }
      "list files".toList sampleSystem).1 =
      Except.error "no text content in Google response".toList :=
  ⟨rfl, rfl, rfl, rfl, rfl⟩

/-- Without a client, `GoogleProvider.Ask` fails at once, in every world and for every
question and system: no vendor call is issued. -/
theorem Google_Ask_without_client (env : Env) (model question : Str) (sysInfo : SystemInfo) :
    GoogleProvider.Ask env { client := none, model := model } question sysInfo =
      (Except.error "google client not initialized".toList, []) := rfl

/-- With a client, `GoogleProvider.Ask` never fails with "google client not initialized". -/
theorem Google_Ask_with_client (env : Env) (client : GoogleClient) (model question : Str)
    (sysInfo : SystemInfo) :
    (GoogleProvider.Ask env { client := some client, model := model } question sysInfo).1 ≠
      Except.error "google client not initialized".toList := by
  simp only [GoogleProvider.Ask]
  repeat' split
  all_goals simp

/-- C18: when the creation of the client fails, `NewGoogleProvider` still returns a provider,
which holds no client; every `Ask` on it, for every question and system and in every world,
returns the error "google client not initialized", no result, and issues no vendor call; and
a provider that holds a client never returns that error. -/
theorem C18_google_client_not_initialized (env : Env) (apiKey model err : Str)
    (h : env.newGoogleClient apiKey = Except.error err) :
    NewGoogleProvider env apiKey model = { client := none, model := model } ∧
    (∀ (env2 : Env) (question : Str) (sysInfo : SystemInfo),
      (NewGoogleProvider env apiKey model).Ask env2 question sysInfo =
        (Except.error "google client not initialized".toList, [])) ∧
    (∀ (env2 : Env) (client : GoogleClient) (model2 question : Str) (sysInfo : SystemInfo),
      (GoogleProvider.Ask env2 { client := some client, model := model2 } question sysInfo).1
        ≠ Except.error "google client not initialized".toList) := by
  have e : NewGoogleProvider env apiKey model = { client := none, model := model } := by
    simp only [NewGoogleProvider, h]
  refine ⟨e, ?_, ?_⟩
  · intro env2 question sysInfo
    rw [e]
    exact Google_Ask_without_client env2 model question sysInfo
  · intro env2 client model2 question sysInfo
    exact Google_Ask_with_client env2 client model2 question sysInfo

/-- Witness of C18 in the world where no Google client can be created. -/
theorem C18_google_client_not_initialized_witness :
    envNoGoogleClient.newGoogleClient "k".toList = Except.error "no credentials".toList ∧
    (NewGoogleProvider envNoGoogleClient "k".toList "gemini-2.5-pro".toList =
      { client := none, model := "gemini-2.5-pro".toList } ∧
    (∀ (env2 : Env) (question : Str) (sysInfo : SystemInfo),
      (NewGoogleProvider envNoGoogleClient "k".toList "gemini-2.5-pro".toList).Ask env2
        question sysInfo = (Except.error "google client not initialized".toList, [])) ∧
    (∀ (env2 : Env) (client : GoogleClient) (model2 question : Str) (sysInfo : SystemInfo),
      (GoogleProvider.Ask env2 { client := some client, model := model2 } question sysInfo).1
        ≠ Except.error "google client not initialized".toList)) :=
  ⟨rfl, C18_google_client_not_initialized envNoGoogleClient "k".toList
    "gemini-2.5-pro".toList "no credentials".toList rfl⟩

/-! ## Configuration: the claims -/

theorem isEmpty_eq_true_iff (s : Str) : s.isEmpty = true ↔ s = [] := by
  cases s <;> simp

/-- C19: with the keyring look-up given as `hasKey`, `IsConfigured` reports ready exactly when
the provider and the model are set and, for the provider `"OpenAI-Compatible"`, the base URL
is set, while for every other provider `hasKey` succeeds with `true`; for
`"OpenAI-Compatible"` the API key is never listed as missing, and for every other provider
the base URL is never listed as missing. -/
theorem C19_IsConfigured_ready_iff (hasKey : Str → Bool × Option KeyringError) (c : Config) :
    ((c.IsConfigured hasKey).1 = true ↔
      c.CurrentProvider ≠ [] ∧ c.CurrentModel ≠ [] ∧
      (if c.CurrentProvider = ProviderOpenAICompatible then c.BaseURL ≠ []
        else hasKey c.CurrentProvider = (true, none))) ∧
    (c.CurrentProvider = ProviderOpenAICompatible →
      "API key".toList ∉ (c.IsConfigured hasKey).2) ∧
    (c.CurrentProvider ≠ ProviderOpenAICompatible →
      "base URL".toList ∉ (c.IsConfigured hasKey).2) := by
  obtain ⟨prov, mdl, url⟩ := c
  by_cases hc : prov = ProviderOpenAICompatible
  · subst hc
    have hpne : ProviderOpenAICompatible ≠ [] := by decide
    have hpe : ProviderOpenAICompatible.isEmpty = false := by decide
    refine ⟨?_, ?_, fun h => absurd rfl h⟩
    · cases mdl <;> cases url <;> simp [Config.IsConfigured, hpe, hpne]
    · intro _
      cases mdl <;> cases url <;> simp [Config.IsConfigured, hpe, hpne]
  · refine ⟨?_, fun h => absurd h hc, ?_⟩
    · rcases hk : hasKey prov with ⟨b, e⟩
      cases prov <;> cases mdl <;> cases b <;> cases e <;>
        simp [Config.IsConfigured, hc, hk]
    · intro _
      rcases hk : hasKey prov with ⟨b, e⟩
      cases prov <;> cases mdl <;> cases b <;> cases e <;>
        simp [Config.IsConfigured, hc, hk]

/-- Witness of C19: the provider `"OpenAI-Compatible"` with a model and a base URL is ready
without any key in the keyring; the provider `"OpenAI"` with a model is ready when the keyring
has its key, and is not ready when the look-up fails. -/
theorem C19_IsConfigured_ready_iff_witness :
    (Config.IsConfigured (fun _ => (false, none))
      { CurrentProvider := ProviderOpenAICompatible, CurrentModel := "local".toList,
        BaseURL := "http://localhost:1234".toList }).1 = true ∧
    (Config.IsConfigured (fun _ => (true, none))
      { CurrentProvider := ProviderOpenAI, CurrentModel := "gpt-4o".toList,
        BaseURL := [] }).1 = true ∧
    ¬ (Config.IsConfigured (fun _ => (false, some (KeyringError.other "locked".toList)))
      { CurrentProvider := ProviderOpenAI, CurrentModel := "gpt-4o".toList,
        BaseURL := "http://localhost:1234".toList }).1 = true :=
  ⟨(C19_IsConfigured_ready_iff (fun _ => (false, none))
      { CurrentProvider := ProviderOpenAICompatible, CurrentModel := "local".toList,
        BaseURL := "http://localhost:1234".toList }).1.2 (by decide),
    (C19_IsConfigured_ready_iff (fun _ => (true, none))
      { CurrentProvider := ProviderOpenAI, CurrentModel := "gpt-4o".toList,
        BaseURL := [] }).1.2 (by decide),
    fun h => absurd ((C19_IsConfigured_ready_iff
      (fun _ => (false, some (KeyringError.other "locked".toList)))
      { CurrentProvider := ProviderOpenAI, CurrentModel := "gpt-4o".toList,
        BaseURL := "http://localhost:1234".toList }).1.1 h) (by decide)⟩

/-- C20: for a key of more than 8 bytes `MaskAPIKey` returns `"****"` followed by the last 8
bytes of the key; for a key of `n ≤ 8` bytes it returns `8 - n / 2` asterisks followed by the
last `n - n / 2` bytes of the key; in both cases the bytes of the key before that suffix do
not enter the output: two keys of the same length with the same suffix are masked alike. -/
theorem C20_MaskAPIKey_keeps_only_suffix (key : ByteStr) :
    (8 < key.length →
      MaskAPIKey key =
        [asterisk, asterisk, asterisk, asterisk] ++ key.drop (key.length - 8) ∧
      (key.drop (key.length - 8)).length = 8) ∧
    (key.length ≤ 8 →
      MaskAPIKey key =
        List.replicate (8 - key.length / 2) asterisk ++ key.drop (key.length / 2) ∧
      (key.drop (key.length / 2)).length = key.length - key.length / 2) ∧
    (∀ other : ByteStr, other.length = key.length →
      other.drop (if key.length ≤ 8 then key.length / 2 else key.length - 8) =
        key.drop (if key.length ≤ 8 then key.length / 2 else key.length - 8) →
      MaskAPIKey other = MaskAPIKey key) := by
  refine ⟨fun h => ?_, fun h => ?_, fun other hl hd => ?_⟩
  · have hn : ¬ key.length ≤ 8 := by omega
    refine ⟨?_, ?_⟩
    · simp only [MaskAPIKey, hn, if_false]
      rfl
    · rw [List.length_drop]
      omega
  · refine ⟨?_, ?_⟩
    · simp only [MaskAPIKey, h, if_true]
    · rw [List.length_drop]
  · by_cases h : key.length ≤ 8
    · simp only [h, if_true] at hd
      simp only [MaskAPIKey, hl, h, if_true, hd]
    · simp only [h, if_false] at hd
      simp only [MaskAPIKey, hl, h, if_false, hd]

/-- Witness of C20 on the keys `"sk-1234567890abcdef"`, masked as `"****90abcdef"`, and
`"abc"`, masked as seven asterisks and `"bc"`. -/
theorem C20_MaskAPIKey_keeps_only_suffix_witness :
    MaskAPIKey (asciiBytes "sk-1234567890abcdef") = asciiBytes "****90abcdef" ∧
    MaskAPIKey (asciiBytes "abc") = asciiBytes "*******bc" :=
  ⟨((C20_MaskAPIKey_keeps_only_suffix (asciiBytes "sk-1234567890abcdef")).1
      (by decide)).1.trans (by decide),
    ((C20_MaskAPIKey_keeps_only_suffix (asciiBytes "abc")).2.1 (by decide)).1.trans
      (by decide)⟩

/-! ## Later claims on the parser -/

/-- A `DESCRIPTION:` line without text after the marker empties the description and, by the
test `response.Description == ""` of line 58, clears the three awaiting flags: no description
is awaited. -/
theorem scanLine_description_bare (st : ScanState) (w0 w2 : Str)
    (hw0 : ∀ c ∈ w0, isSpace c = true) (hw2 : ∀ c ∈ w2, isSpace c = true) :
    scanLine st (w0 ++ markerDescription ++ w2) =
      { st with Description := [], awaitingTitle := false, awaitingDescription := false,
                awaitingCommand := false } := by
  have e := TrimSpace_marker_bare markerDescription w0 w2
    (Trimmed_of_ends 'D' ['E', 'S', 'C', 'R', 'I', 'P', 'T', 'I', 'O', 'N'] ':'
      (by decide) (by decide)) hw0 hw2
  have e0 : TrimSpace ([] : Str) = [] := rfl
  have hT : HasPrefix markerDescription markerTitle = false := by decide
  unfold scanLine
  simp only [e, hT, HasPrefix_self, TrimPrefix_self, e0]
  rfl

/-- The split form `"DESCRIPTION:\n" ++ d`: the description stays empty and the first pass
yields no command. -/
theorem bare_description_form_scan (d : Str) (hd : '\n' ∉ d) (hm : isMarkerLine d = false) :
    markerScan ("DESCRIPTION:\n".toList ++ d) = scanInit := by
  have eraw : "DESCRIPTION:\n".toList ++ d = ([] ++ markerDescription ++ []) ++ '\n' :: d := by
    have e1 : "DESCRIPTION:\n".toList = markerDescription ++ ['\n'] := by decide
    rw [e1]
    simp
  unfold markerScan
  rw [eraw, Split_append_sep _ _ '\n' (by decide), Split_no_sep _ '\n' hd]
  show scanLine (scanLine scanInit _) d = _
  rw [scanLine_description_bare scanInit [] [] (by simp) (by simp)]
  exact scanLine_plain_idle _ d hm rfl rfl rfl rfl

/-- The inline form `"DESCRIPTION: " ++ d`: the description is the trimmed `d`. -/
theorem inline_description_form_scan (d : Str) (hd : '\n' ∉ d) (hde : TrimSpace d ≠ []) :
    (markerScan ("DESCRIPTION: ".toList ++ d)).Description = TrimSpace d := by
  have eraw : "DESCRIPTION: ".toList ++ d = [] ++ markerDescription ++ ' ' :: d := by
    have e1 : "DESCRIPTION: ".toList = markerDescription ++ [' '] := by decide
    rw [e1]
    simp
  have hl : '\n' ∉ ([] ++ markerDescription ++ ' ' :: d) :=
    not_mem_append_cons d _ ' ' (by decide) (by decide) hd
  unfold markerScan
  rw [eraw, Split_no_sep _ '\n' hl]
  show (scanLine scanInit _).Description = _
  rw [scanLine_description_inline scanInit [] (' ' :: d) (by simp)
    (by rw [TrimSpace_cons_space]; exact hde)]
  exact TrimSpace_cons_space d

/-- For every single-line `d` that is not blank and starts with no marker, the split form
`"DESCRIPTION:\n" ++ d` has an empty description, while the inline form has the trimmed `d`:
the two differ. -/
theorem bare_description_form_differs (d : Str) (hd : '\n' ∉ d) (hde : TrimSpace d ≠ [])
    (hm : isMarkerLine d = false) :
    (ParseResponse ("DESCRIPTION:\n".toList ++ d)).Description = [] ∧
    (ParseResponse ("DESCRIPTION: ".toList ++ d)).Description = TrimSpace d ∧
    (ParseResponse ("DESCRIPTION:\n".toList ++ d)).Description ≠
      (ParseResponse ("DESCRIPTION: ".toList ++ d)).Description := by
  have h1 : (ParseResponse ("DESCRIPTION:\n".toList ++ d)).Description = [] := by
    rw [ParseResponse_Description, bare_description_form_scan d hd hm]
    rfl
  have h2 : (ParseResponse ("DESCRIPTION: ".toList ++ d)).Description = TrimSpace d := by
    rw [ParseResponse_Description, inline_description_form_scan d hd hde]
  refine ⟨h1, h2, ?_⟩
  rw [h1, h2]
  exact fun h => hde h.symm

/-- C21, evaluated on `d = "Some text"`: the split form `"DESCRIPTION:\nSome text"` has an
empty description, and `"Some text"` only survives inside the raw passthrough command, while
the inline form `"DESCRIPTION: Some text"` has the description `"Some text"`. -/
theorem C21_description_next_line_not_consumed :
    (ParseResponse "DESCRIPTION:\nSome text".toList).Description = [] ∧
    (ParseResponse "DESCRIPTION:\nSome text".toList).Commands =
      ["DESCRIPTION:\nSome text".toList] ∧
    (ParseResponse "DESCRIPTION: Some text".toList).Description = "Some text".toList ∧
    (ParseResponse "DESCRIPTION:\nSome text".toList).Description ≠
      (ParseResponse "DESCRIPTION: Some text".toList).Description := by
  decide

/-- The reply `"TITLE:\nCOMMAND:\n" ++ x`: after the two bare markers both the title and the
command are awaited, the line `x` is taken as the title, and no command is found. -/
theorem bare_title_command_form_scan (x : Str) (hx : '\n' ∉ x) (hxe : TrimSpace x ≠ [])
    (hm : isValueMarkerLine x = false) :
    markerScan ("TITLE:\nCOMMAND:\n".toList ++ x) =
      { scanInit with Title := TrimSpace x, awaitingCommand := true } := by
  have eraw : "TITLE:\nCOMMAND:\n".toList ++ x =
      ([] ++ markerTitle ++ []) ++ '\n' :: (([] ++ markerCommand ++ []) ++ '\n' :: x) := by
    have e1 : "TITLE:\nCOMMAND:\n".toList = markerTitle ++ '\n' :: (markerCommand ++ ['\n']) := by
      decide
    rw [e1]
    simp
  unfold markerScan
  rw [eraw, Split_append_sep _ _ '\n' (by decide), Split_append_sep _ _ '\n' (by decide),
    Split_no_sep _ '\n' hx]
  show scanLine (scanLine (scanLine scanInit _) _) x = _
  rw [scanLine_title_bare scanInit [] [] (by simp) (by simp),
    scanLine_command_bare _ [] [] (by simp) (by simp),
    scanLine_await_title _ x hm hxe rfl]
  rfl

/-- For every single-line `x` that is not blank and starts with no value marker, the reply
`"TITLE:\nCOMMAND:\n" ++ x` has the title `trim x` and no command from the first pass. -/
theorem bare_title_command_form_parsed (x : Str) (hx : '\n' ∉ x) (hxe : TrimSpace x ≠ [])
    (hm : isValueMarkerLine x = false) :
    (ParseResponse ("TITLE:\nCOMMAND:\n".toList ++ x)).Title = TrimSpace x ∧
    markerCommands ("TITLE:\nCOMMAND:\n".toList ++ x) = [] := by
  have hs := bare_title_command_form_scan x hx hxe hm
  refine ⟨?_, ?_⟩
  · rw [ParseResponse_Title, hs]
  · unfold markerCommands
    rw [hs]
    rfl

/-- C22, evaluated: after the lines `TITLE:` and `COMMAND:` two awaiting flags are set; the
reply `"TITLE:\nCOMMAND:\nls -la"` has the title `"ls -la"` and, as only command, the whole
reply; and in `"TITLE:\nSCRIPT:\necho hi"` the `SCRIPT:` line becomes the title, so no script
is collected. -/
theorem C22_two_fields_awaited_at_once :
    (scanLines scanInit ["TITLE:".toList, "COMMAND:".toList]).awaitingTitle = true ∧
    (scanLines scanInit ["TITLE:".toList, "COMMAND:".toList]).awaitingCommand = true ∧
    ParseResponse "TITLE:\nCOMMAND:\nls -la".toList =
      { Title := "ls -la".toList, Description := [],
        Commands := ["TITLE:\nCOMMAND:\nls -la".toList],
        RawResponse := "TITLE:\nCOMMAND:\nls -la".toList } ∧
    ParseResponse "TITLE:\nSCRIPT:\necho hi".toList =
      { Title := "SCRIPT:".toList, Description := [],
        Commands := ["TITLE:\nSCRIPT:\necho hi".toList],
        RawResponse := "TITLE:\nSCRIPT:\necho hi".toList } := by
  decide

/-- C25: when the marker scan yields a command, the commands are exactly its output (no
fenced block adds an element and the raw text is not appended); and when it yields none and
the fenced-block scan yields an element, the commands are exactly the output of that scan (the
raw text is not added). -/
theorem C25_passes_contribute_exclusively (raw : Str) :
    (markerCommands raw ≠ [] → (ParseResponse raw).Commands = markerCommands raw) ∧
    (markerCommands raw = [] → extractCodeBlocks raw ≠ [] →
      (ParseResponse raw).Commands = extractCodeBlocks raw) :=
  ⟨ParseResponse_Commands_of_marker raw, ParseResponse_Commands_of_blocks raw⟩

/-- Witness of C25 on `"COMMAND: ls"` followed by a fenced block with `rm x`, whose commands
are `["ls"]`, and on the fenced block alone, whose commands are `["rm x"]`. -/
theorem C25_passes_contribute_exclusively_witness :
    (ParseResponse "COMMAND: ls\n```\nrm x\n```".toList).Commands = ["ls".toList] ∧
    (ParseResponse "```\nrm x\n```".toList).Commands = ["rm x".toList] :=
  ⟨((C25_passes_contribute_exclusively "COMMAND: ls\n```\nrm x\n```".toList).1
      (by decide)).trans (by decide),
    ((C25_passes_contribute_exclusively "```\nrm x\n```".toList).2 (by decide)
      (by decide)).trans (by decide)⟩

theorem TrimSpace_append_space (s w : Str) (hw : ∀ c ∈ w, isSpace c = true) :
    TrimSpace (s ++ w) = TrimSpace s := by
  obtain ⟨u1, u2, h1, h2, hs⟩ := TrimSpace_decomp s
  have h3 : ∀ c ∈ u2 ++ w, isSpace c = true := by
    intro c hc
    rcases List.mem_append.1 hc with h | h
    · exact h2 c h
    · exact hw c h
  have key := TrimSpace_sandwich u1 (TrimSpace s) (u2 ++ w) h1 h3 (TrimSpace_trimmed s)
  have e : s ++ w = u1 ++ TrimSpace s ++ (u2 ++ w) := by
    conv_lhs => rw [hs]
    simp
  rw [e]
  exact key

/-- The trimmed form of a string that starts with a character that is no space starts with
that character. -/
theorem TrimSpace_cons_nonspace (a : Char) (s : Str) (ha : isSpace a = false) :
    ∃ r : Str, TrimSpace (a :: s) = a :: r := by
  have hne : TrimSpace (a :: s) ≠ [] := by
    intro h
    have := (TrimSpace_eq_nil_iff (a :: s)).1 h a (List.mem_cons_self _ _)
    rw [ha] at this
    exact Bool.noConfusion this
  obtain ⟨u1, u2, hu1, hu2, hs⟩ := TrimSpace_decomp (a :: s)
  cases u1 with
  | nil =>
    cases hT : TrimSpace (a :: s) with
    | nil => exact absurd hT hne
    | cons b r =>
      rw [hT] at hs
      simp at hs
      exact ⟨r, by rw [hs.1]⟩
  | cons b u =>
    simp at hs
    have hb := hu1 b (List.mem_cons_self _ _)
    rw [← hs.1, ha] at hb
    exact Bool.noConfusion hb

/-- A line that starts with a character which is no space, and which is neither `T`, `D`,
`C`, `S` nor a backtick, carries no marker and is no fence line. -/
theorem plain_of_head (a : Char) (s : Str) (ha : isSpace a = false) (h1 : a ≠ 'T')
    (h2 : a ≠ 'D') (h3 : a ≠ 'C') (h4 : a ≠ 'S') (h5 : a ≠ Char.ofNat 96) :
    isMarkerLine (a :: s) = false ∧ isFenceLine (a :: s) = false := by
  obtain ⟨r, e⟩ := TrimSpace_cons_nonspace a s ha
  have h1' : ('T' == a) = false := by simpa using fun h => h1 h.symm
  have h2' : ('D' == a) = false := by simpa using fun h => h2 h.symm
  have h3' : ('C' == a) = false := by simpa using fun h => h3 h.symm
  have h4' : ('S' == a) = false := by simpa using fun h => h4 h.symm
  have h5' : (Char.ofNat 96 == a) = false := by simpa using fun h => h5 h.symm
  constructor
  · simp [isMarkerLine, isValueMarkerLine, e, HasPrefix, markerTitle, markerDescription,
      markerCommand, markerScript, List.isPrefixOf, h1', h2', h3', h4']
  · simp only [isFenceLine, e, HasPrefix, fence, List.isPrefixOf, h5', Bool.false_and]

/-- The one-line reply `w1 ++ "COMMAND:" ++ c ++ w2` parsed. -/
theorem padded_command_parsed (w1 c w2 : Str) (hw1 : ∀ x ∈ w1, isSpace x = true)
    (hw2 : ∀ x ∈ w2, isSpace x = true) (hn1 : '\n' ∉ w1) (hc : '\n' ∉ c) (hn2 : '\n' ∉ w2)
    (hce : TrimSpace c ≠ []) :
    (ParseResponse (w1 ++ "COMMAND:".toList ++ c ++ w2)).Commands = [TrimSpace c] := by
  have eraw : w1 ++ "COMMAND:".toList ++ c ++ w2 = w1 ++ markerCommand ++ (c ++ w2) := by
    have e1 : "COMMAND:".toList = markerCommand := by decide
    rw [e1]
    simp
  have hv : TrimSpace (c ++ w2) = TrimSpace c := TrimSpace_append_space c w2 hw2
  have hl : '\n' ∉ w1 ++ markerCommand ++ (c ++ w2) := by
    simp only [List.mem_append, not_or]
    exact ⟨⟨hn1, by decide⟩, hc, hn2⟩
  have hscan : markerScan (w1 ++ "COMMAND:".toList ++ c ++ w2) =
      { scanInit with Commands := [TrimSpace c] } := by
    unfold markerScan
    rw [eraw, Split_no_sep _ '\n' hl]
    show scanLine scanInit _ = _
    rw [scanLine_command_inline scanInit w1 (c ++ w2) hw1 (by rw [hv]; exact hce), hv]
    rfl
  have hmc : markerCommands (w1 ++ "COMMAND:".toList ++ c ++ w2) = [TrimSpace c] := by
    unfold markerCommands
    rw [hscan]
    rfl
  rw [ParseResponse_Commands_of_marker _ (by rw [hmc]; simp), hmc]

/-- The one-line reply `"command: " ++ c`, with the marker in lower case, parsed. -/
theorem lowercase_command_parsed (c : Str) (hc : '\n' ∉ c) :
    (ParseResponse ("command: ".toList ++ c)).Title = [] ∧
    (ParseResponse ("command: ".toList ++ c)).Description = [] ∧
    (ParseResponse ("command: ".toList ++ c)).Commands = ["command: ".toList ++ c] := by
  have eraw : "command: ".toList ++ c = 'c' :: ("ommand: ".toList ++ c) := by
    have e1 : "command: ".toList = 'c' :: "ommand: ".toList := by decide
    rw [e1]
    rfl
  have hl : '\n' ∉ 'c' :: ("ommand: ".toList ++ c) := by
    have e2 : 'c' :: ("ommand: ".toList ++ c) = "command:".toList ++ ' ' :: c := by
      have e3 : "command:".toList = 'c' :: "ommand:".toList := by decide
      have e4 : "ommand: ".toList = "ommand:".toList ++ [' '] := by decide
      rw [e3, e4]
      simp
    rw [e2]
    exact not_mem_append_cons c _ ' ' (by decide) (by decide) hc
  obtain ⟨hm, hf⟩ := plain_of_head 'c' ("ommand: ".toList ++ c) (by decide) (by decide)
    (by decide) (by decide) (by decide) (by decide)
  have hsplit : Split ("command: ".toList ++ c) '\n' = ['c' :: ("ommand: ".toList ++ c)] := by
    rw [eraw, Split_no_sep _ '\n' hl]
  have hs : markerScan ("command: ".toList ++ c) = scanInit :=
    markerScan_no_marker _ (by
      rw [hsplit]
      intro l hl2
      rw [List.mem_singleton.1 hl2]
      exact hm)
  have hmc : markerCommands ("command: ".toList ++ c) = [] := by
    unfold markerCommands
    rw [hs]
    rfl
  have hb : extractCodeBlocks ("command: ".toList ++ c) = [] := by
    unfold extractCodeBlocks
    rw [hsplit]
    show (blockLine blockInit _).commands = []
    rw [blockLine_prose blockInit _ hf rfl]
    rfl
  refine ⟨?_, ?_, ?_⟩
  · rw [ParseResponse_Title, hs]; rfl
  · rw [ParseResponse_Description, hs]; rfl
  · exact ParseResponse_Commands_fallback _ (by rw [eraw]; simp) hmc hb

/-- C26: markers are matched as case-sensitive prefixes of the trimmed line: for every
single-line `c` whose trimmed form is not empty and all strings `w1`, `w2` of white space
without newline, the reply `w1 ++ "COMMAND:" ++ c ++ w2` has the commands `[trim c]`, whereas
in `"command: " ++ c` no marker is recognised: title and description are empty and the only
command is the whole reply. -/
theorem C26_markers_case_sensitive_after_trim (w1 c w2 : Str)
    (hw1 : ∀ x ∈ w1, isSpace x = true) (hw2 : ∀ x ∈ w2, isSpace x = true)
    (hn1 : '\n' ∉ w1) (hc : '\n' ∉ c) (hn2 : '\n' ∉ w2) (hce : TrimSpace c ≠ []) :
    (ParseResponse (w1 ++ "COMMAND:".toList ++ c ++ w2)).Commands = [TrimSpace c] ∧
    (ParseResponse ("command: ".toList ++ c)).Title = [] ∧
    (ParseResponse ("command: ".toList ++ c)).Description = [] ∧
    (ParseResponse ("command: ".toList ++ c)).Commands = ["command: ".toList ++ c] :=
  ⟨padded_command_parsed w1 c w2 hw1 hw2 hn1 hc hn2 hce, lowercase_command_parsed c hc⟩

/-- Witness of C26 on `w1 = "  \t"`, `c = " ls -la"`, `w2 = " \r"`. -/
theorem C26_markers_case_sensitive_after_trim_witness :
    ((∀ x ∈ "  \t".toList, isSpace x = true) ∧ (∀ x ∈ " \r".toList, isSpace x = true) ∧
      '\n' ∉ "  \t".toList ∧ '\n' ∉ " ls -la".toList ∧ '\n' ∉ " \r".toList ∧
      TrimSpace " ls -la".toList ≠ []) ∧
    (ParseResponse ("  \t".toList ++ "COMMAND:".toList ++ " ls -la".toList ++
      " \r".toList)).Commands = [TrimSpace " ls -la".toList] ∧
    (ParseResponse ("command: ".toList ++ " ls -la".toList)).Title = [] ∧
    (ParseResponse ("command: ".toList ++ " ls -la".toList)).Description = [] ∧
    (ParseResponse ("command: ".toList ++ " ls -la".toList)).Commands =
      ["command: ".toList ++ " ls -la".toList] :=
  ⟨by decide, C26_markers_case_sensitive_after_trim "  \t".toList " ls -la".toList
    " \r".toList (by decide) (by decide) (by decide) (by decide) (by decide) (by decide)⟩

/-- Splitting at a separator: the pieces before it followed by the pieces after it. -/
theorem Split_append_sep_any (a b : Str) (sep : Char) :
    Split (a ++ sep :: b) sep = Split a sep ++ Split b sep := by
  induction a with
  | nil => simp [Split]
  | cons c cs ih =>
    by_cases hc : c = sep
    · simp [Split, hc, ih]
    · have hne := Split_ne_nil cs sep
      cases hs : Split cs sep with
      | nil => exact absurd hs hne
      | cons l ls =>
        simp [Split, hc, ih, hs]

/-- The lines of `join(tail, "\n")`: the list `tail`, or one empty line when `tail` is
empty. -/
theorem Split_Join_lines (tail : List Str) (h : ∀ l ∈ tail, '\n' ∉ l) :
    Split (Join tail nl) '\n' = if tail = [] then [[]] else tail := by
  by_cases ht : tail = []
  · subst ht
    rfl
  · rw [if_neg ht]
    exact Split_Join tail ht h

/-- A fence line read outside a block, followed by lines that are no fence up to the end of
the input, adds no command. -/
theorem blockLines_unterminated (st : BlockState) (fenceLine : Str) (tail : List Str)
    (ho : isFenceLine fenceLine = true) (htf : ∀ l ∈ tail, isFenceLine l = false)
    (h : st.inCodeBlock = false) :
    (blockLines st (fenceLine :: tail)).commands = st.commands := by
  simp only [isFenceLine] at ho
  have e1 : blockLine st fenceLine = { st with inCodeBlock := true } := by
    simp [blockLine, ho, h]
  show (blockLines (blockLine st fenceLine) tail).commands = _
  rw [e1, blockLines_body tail _ htf rfl]

/-- The reply `T` followed by a line with a fence and the lines `tail`, when `T` has no marker
line, ends outside a block and `tail` has neither marker nor fence lines: the first pass yields
nothing and the block scan yields what it yields on `T`. -/
theorem unterminated_block_scans (T : Str) (tail : List Str)
    (hT : ∀ l ∈ Split T '\n', isMarkerLine l = false)
    (hbal : (blockLines blockInit (Split T '\n')).inCodeBlock = false)
    (htn : ∀ l ∈ tail, '\n' ∉ l) (htm : ∀ l ∈ tail, isMarkerLine l = false)
    (htf : ∀ l ∈ tail, isFenceLine l = false) :
    markerCommands (T ++ "\n```\n".toList ++ Join tail nl) = [] ∧
    extractCodeBlocks (T ++ "\n```\n".toList ++ Join tail nl) = extractCodeBlocks T := by
  have eraw : T ++ "\n```\n".toList ++ Join tail nl = T ++ '\n' :: (fence ++ '\n' :: Join tail nl) := by
    have e1 : "\n```\n".toList = '\n' :: (fence ++ ['\n']) := by decide
    rw [e1]
    simp
  have hsplit : Split (T ++ "\n```\n".toList ++ Join tail nl) '\n' =
      Split T '\n' ++ fence :: (if tail = [] then [[]] else tail) := by
    rw [eraw, Split_append_sep_any, Split_append_sep _ _ '\n' (by decide),
      Split_Join_lines tail htn]
  have htm2 : ∀ l ∈ (if tail = [] then [[]] else tail), isMarkerLine l = false := by
    by_cases ht : tail = []
    · rw [if_pos ht]
      intro l hl
      rw [List.mem_singleton.1 hl]
      decide
    · rw [if_neg ht]
      exact htm
  have htf2 : ∀ l ∈ (if tail = [] then [[]] else tail), isFenceLine l = false := by
    by_cases ht : tail = []
    · rw [if_pos ht]
      intro l hl
      rw [List.mem_singleton.1 hl]
      decide
    · rw [if_neg ht]
      exact htf
  constructor
  · have hs : markerScan (T ++ "\n```\n".toList ++ Join tail nl) = scanInit := by
      apply markerScan_no_marker
      rw [hsplit]
      intro l hl
      rcases List.mem_append.1 hl with h | h
      · exact hT l h
      · rcases List.mem_cons.1 h with h | h
        · rw [h]; decide
        · exact htm2 l h
    unfold markerCommands
    rw [hs]
    rfl
  · unfold extractCodeBlocks
    rw [hsplit, blockLines_append]
    exact blockLines_unterminated _ fence _ (by decide) htf2 hbal

/-- C24: an unterminated trailing fenced block is discarded: for every reply `T` without
marker line whose block scan ends outside a block and yields at least one command, and every
list `tail` of lines without marker and without fence, the reply `T`, a line of three
backticks and the lines of `tail` has the same commands as `T`. -/
theorem C24_unterminated_block_discarded (T : Str) (tail : List Str)
    (hT : ∀ l ∈ Split T '\n', isMarkerLine l = false)
    (hbal : (blockLines blockInit (Split T '\n')).inCodeBlock = false)
    (hcmd : extractCodeBlocks T ≠ [])
    (htn : ∀ l ∈ tail, '\n' ∉ l) (htm : ∀ l ∈ tail, isMarkerLine l = false)
    (htf : ∀ l ∈ tail, isFenceLine l = false) :
    (ParseResponse (T ++ "\n```\n".toList ++ Join tail nl)).Commands =
      (ParseResponse T).Commands := by
  obtain ⟨h1, h2⟩ := unterminated_block_scans T tail hT hbal htn htm htf
  have hT0 : markerCommands T = [] := by
    unfold markerCommands
    rw [markerScan_no_marker T hT]
    rfl
  rw [ParseResponse_Commands_of_blocks _ h1 (by rw [h2]; exact hcmd), h2,
    ParseResponse_Commands_of_blocks T hT0 hcmd]

/-- Witness of C24 on `T`, a fenced block with `ls -la`, and the tail `echo lost`, `more`. -/
theorem C24_unterminated_block_discarded_witness :
    ((∀ l ∈ Split "Run:\n```\nls -la\n```".toList '\n', isMarkerLine l = false) ∧
      (blockLines blockInit (Split "Run:\n```\nls -la\n```".toList '\n')).inCodeBlock = false ∧
      extractCodeBlocks "Run:\n```\nls -la\n```".toList ≠ [] ∧
      (∀ l ∈ ["echo lost".toList, "more".toList], '\n' ∉ l) ∧
      (∀ l ∈ ["echo lost".toList, "more".toList], isMarkerLine l = false) ∧
      (∀ l ∈ ["echo lost".toList, "more".toList], isFenceLine l = false)) ∧
    (ParseResponse ("Run:\n```\nls -la\n```".toList ++ "\n```\n".toList ++
      Join ["echo lost".toList, "more".toList] nl)).Commands =
      (ParseResponse "Run:\n```\nls -la\n```".toList).Commands :=
  ⟨by decide, C24_unterminated_block_discarded "Run:\n```\nls -la\n```".toList
    ["echo lost".toList, "more".toList] (by decide) (by decide) (by decide) (by decide)
    (by decide) (by decide)⟩

/-- A string with a given prefix starts with the first character of that prefix. -/
theorem HasPrefix_cons (s : Str) (a : Char) (p : Str) (h : HasPrefix s (a :: p) = true) :
    ∃ r : Str, s = a :: r := by
  cases s with
  | nil => simp [HasPrefix, List.isPrefixOf] at h
  | cons b r =>
    simp [HasPrefix, List.isPrefixOf] at h
    exact ⟨r, by rw [h.1]⟩

theorem HasPrefix_other_head (s : Str) (a b : Char) (p q : Str)
    (h : HasPrefix s (a :: p) = true) (hab : a ≠ b) : HasPrefix s (b :: q) = false := by
  obtain ⟨r, e⟩ := HasPrefix_cons s a p h
  subst e
  have : (b == a) = false := by simpa using fun hh => hab hh.symm
  simp [HasPrefix, List.isPrefixOf, this]

/-- While collecting, a settled line keeps the parser collecting, and is appended to the script
buffer exactly when it is not blank and carries no marker. -/
theorem scanLine_settled (st : ScanState) (line : Str) (hst : Collecting st)
    (hl : isSettledLine line = true) :
    Collecting (scanLine st line) ∧
    (scanLine st line).scriptLines =
      st.scriptLines ++ [line].filter (fun l => !isBlank l && !isMarkerLine l) := by
  obtain ⟨h1, h2, h3, h4⟩ := hst
  by_cases hm : isMarkerLine line = false
  · have e := scanLine_collect st line hm h1 h2 h3 h4
    rw [e]
    refine ⟨⟨h1, h2, h3, h4⟩, ?_⟩
    show st.scriptLines ++ _ = _
    congr 1
    by_cases hb : isBlank line = true
    · simp [List.filter, hb]
    · simp [List.filter, hb, hm]
  · have hm' : isMarkerLine line = true := by simpa using hm
    have hfilter : [line].filter (fun l => !isBlank l && !isMarkerLine l) = [] := by
      simp [List.filter, hm']
    rw [hfilter, List.append_nil]
    simp only [isSettledLine, hm', Bool.not_true, Bool.false_or, Bool.or_eq_true] at hl
    rcases hl with (hl | hl) | hl
    · simp only [isInlineTitleLine, Bool.and_eq_true] at hl
      obtain ⟨hp, hv⟩ := hl
      have hst2 : scanLine st line =
          { st with Title := TrimSpace (TrimPrefix (TrimSpace line) markerTitle),
                    awaitingTitle := false, awaitingDescription := false,
                    awaitingCommand := false } := by
        simp only [scanLine, hp, hv, if_true]
      rw [hst2]
      exact ⟨⟨rfl, rfl, rfl, h4⟩, rfl⟩
    · simp only [isInlineCommandLine, Bool.and_eq_true] at hl
      obtain ⟨hp, hv⟩ := hl
      have hT : HasPrefix (TrimSpace line) markerTitle = false :=
        HasPrefix_other_head _ 'C' 'T' _ _ hp (by decide)
      have hD : HasPrefix (TrimSpace line) markerDescription = false :=
        HasPrefix_other_head _ 'C' 'D' _ _ hp (by decide)
      have hst2 : scanLine st line =
          { st with Commands := st.Commands ++
                      [TrimSpace (TrimPrefix (TrimSpace line) markerCommand)],
                    awaitingTitle := false, awaitingDescription := false,
                    awaitingCommand := false } := by
        simp [scanLine, hp, hv, hT, hD]
      rw [hst2]
      exact ⟨⟨rfl, rfl, rfl, h4⟩, rfl⟩
    · simp only [isScriptMarkerLine] at hl
      have hT : HasPrefix (TrimSpace line) markerTitle = false :=
        HasPrefix_other_head _ 'S' 'T' _ _ hl (by decide)
      have hD : HasPrefix (TrimSpace line) markerDescription = false :=
        HasPrefix_other_head _ 'S' 'D' _ _ hl (by decide)
      have hC : HasPrefix (TrimSpace line) markerCommand = false :=
        HasPrefix_other_head _ 'S' 'C' _ _ hl (by decide)
      have hst2 : scanLine st line = { st with passedScriptMarker := true } := by
        simp [scanLine, hl, hT, hD, hC, h1, h2, h3]
      rw [hst2]
      exact ⟨⟨h1, h2, h3, rfl⟩, rfl⟩

theorem scanLines_settled (lines : List Str) (st : ScanState) (hst : Collecting st)
    (hl : ∀ l ∈ lines, isSettledLine l = true) :
    Collecting (scanLines st lines) ∧
    (scanLines st lines).scriptLines =
      st.scriptLines ++ lines.filter (fun l => !isBlank l && !isMarkerLine l) := by
  induction lines generalizing st with
  | nil => exact ⟨hst, by simp [scanLines]⟩
  | cons l ls ih =>
    obtain ⟨hc, hs⟩ := scanLine_settled st l hst (hl l (List.mem_cons_self _ _))
    obtain ⟨hc2, hs2⟩ := ih (scanLine st l) hc (fun x hx => hl x (List.mem_cons_of_mem _ hx))
    refine ⟨hc2, ?_⟩
    show (scanLines (scanLine st l) ls).scriptLines = _
    rw [hs2, hs]
    have hf : List.filter (fun l => !isBlank l && !isMarkerLine l) (l :: ls) =
        List.filter (fun l => !isBlank l && !isMarkerLine l) [l] ++
          List.filter (fun l => !isBlank l && !isMarkerLine l) ls :=
      List.filter_append [l] ls
    rw [hf, List.append_assoc]

/-- C23, as stated, fails on `"SCRIPT:\necho a\nCOMMAND: ls"`: the non-blank lines after the
`SCRIPT:` line joined with newlines are `"echo a\nCOMMAND: ls"`, but the commands are `"ls"`
and `"echo a"`: the `COMMAND:` line is read as a marker and is no part of the script
element. -/
theorem C23_marker_lines_are_not_script_lines :
    claimedScriptElement "SCRIPT:\necho a\nCOMMAND: ls".toList =
      "echo a\nCOMMAND: ls".toList ∧
    (ParseResponse "SCRIPT:\necho a\nCOMMAND: ls".toList).Commands =
      ["ls".toList, "echo a".toList] ∧
    claimedScriptElement "SCRIPT:\necho a\nCOMMAND: ls".toList ∉
      (ParseResponse "SCRIPT:\necho a\nCOMMAND: ls".toList).Commands := by
  decide

/-- What one line adds to the discrete commands: the value of a `COMMAND:` line with text, or
the trimmed line when it is taken as the awaited command, or nothing. -/
theorem scanLine_Commands_step (st : ScanState) (line : Str) :
    ∃ X : List Str, (scanLine st line).Commands = st.Commands ++ X ∧
      List.Sublist (inlineCommandValues [line]) X ∧
      (st.awaitingCommand = false → isBareCommandLine line = false →
        X = inlineCommandValues [line] ∧ (scanLine st line).awaitingCommand = false) := by
  by_cases hT : HasPrefix (TrimSpace line) markerTitle = true
  · have hC : HasPrefix (TrimSpace line) markerCommand = false :=
      HasPrefix_other_head _ 'T' 'C' _ _ hT (by decide)
    have hv : inlineCommandValues [line] = [] := by
      simp [inlineCommandValues, List.filter, isInlineCommandLine, hC]
    refine ⟨[], ?_, by rw [hv], fun ha _ => ⟨hv.symm, ?_⟩⟩
    · unfold scanLine
      simp only [hT, if_true]
      split <;> simp
    · unfold scanLine
      simp only [hT, if_true]
      split
      · rfl
      · exact ha
  have hT' : HasPrefix (TrimSpace line) markerTitle = false := by simpa using hT
  by_cases hD : HasPrefix (TrimSpace line) markerDescription = true
  · have hC : HasPrefix (TrimSpace line) markerCommand = false :=
      HasPrefix_other_head _ 'D' 'C' _ _ hD (by decide)
    have hv : inlineCommandValues [line] = [] := by
      simp [inlineCommandValues, List.filter, isInlineCommandLine, hC]
    refine ⟨[], ?_, by rw [hv], fun ha _ => ⟨hv.symm, ?_⟩⟩
    · unfold scanLine
      simp only [hT', hD, if_true, Bool.false_eq_true, if_false]
      split <;> simp
    · unfold scanLine
      simp only [hT', hD, if_true, Bool.false_eq_true, if_false]
      split
      · rfl
      · exact ha
  by_cases hC : HasPrefix (TrimSpace line) markerCommand = true
  · by_cases hv : (commandValue line).isEmpty = true
    · have hval : inlineCommandValues [line] = [] := by
        have : (TrimSpace (TrimPrefix (TrimSpace line) markerCommand)).isEmpty = true := hv
        simp [inlineCommandValues, List.filter, isInlineCommandLine, hC, this]
      refine ⟨[], ?_, by rw [hval], fun _ hb => ?_⟩
      · have : (TrimSpace (TrimPrefix (TrimSpace line) markerCommand)).isEmpty = true := hv
        have hD' : HasPrefix (TrimSpace line) markerDescription = false := by simpa using hD
        simp [scanLine, hT', hD', hC, this]
      · simp [isBareCommandLine, hC, hv] at hb
    · have hv' : (TrimSpace (TrimPrefix (TrimSpace line) markerCommand)).isEmpty = false := by
        simpa [commandValue] using hv
      have hval : inlineCommandValues [line] = [commandValue line] := by
        simp [inlineCommandValues, List.filter, isInlineCommandLine, hC, hv']
      have hD' : HasPrefix (TrimSpace line) markerDescription = false := by simpa using hD
      refine ⟨[commandValue line], ?_, by rw [hval], fun _ _ => ⟨hval.symm, ?_⟩⟩
      · simp [scanLine, hT', hD', hC, hv', commandValue]
      · simp [scanLine, hT', hD', hC, hv']
  · have hD' : HasPrefix (TrimSpace line) markerDescription = false := by simpa using hD
    have hC' : HasPrefix (TrimSpace line) markerCommand = false := by simpa using hC
    have hv : inlineCommandValues [line] = [] := by
      simp [inlineCommandValues, List.filter, isInlineCommandLine, hC']
    rw [hv]
    unfold scanLine
    simp only [hT', hD', hC', Bool.false_eq_true, if_false]
    repeat' split
    all_goals first
      | exact ⟨[], (List.append_nil _).symm, List.Sublist.refl _, fun ha _ => ⟨rfl, ha⟩⟩
      | skip
    rename_i hx
    refine ⟨[TrimSpace line], rfl, List.nil_sublist _, fun ha _ => ?_⟩
    simp [ha] at hx

theorem inlineCommandValues_cons (l : Str) (ls : List Str) :
    inlineCommandValues (l :: ls) = inlineCommandValues [l] ++ inlineCommandValues ls := by
  have : l :: ls = [l] ++ ls := rfl
  rw [this]
  simp only [inlineCommandValues, List.filter_append, List.map_append]

/-- The discrete commands of a scan hold the values of all `COMMAND:` lines with text, in the
order of the lines; they are exactly these values when the scan starts with no command awaited
and meets no `COMMAND:` line without text. -/
theorem scanLines_Commands_values (lines : List Str) (st : ScanState) :
    ∃ X : List Str, (scanLines st lines).Commands = st.Commands ++ X ∧
      List.Sublist (inlineCommandValues lines) X ∧
      (st.awaitingCommand = false → (∀ l ∈ lines, isBareCommandLine l = false) →
        X = inlineCommandValues lines) := by
  induction lines generalizing st with
  | nil => exact ⟨[], by simp [scanLines], List.Sublist.refl _, fun _ _ => rfl⟩
  | cons l ls ih =>
    obtain ⟨X1, e1, s1, x1⟩ := scanLine_Commands_step st l
    obtain ⟨X2, e2, s2, x2⟩ := ih (scanLine st l)
    refine ⟨X1 ++ X2, ?_, ?_, fun ha hb => ?_⟩
    · show (scanLines (scanLine st l) ls).Commands = _
      rw [e2, e1, List.append_assoc]
    · rw [inlineCommandValues_cons]
      exact List.Sublist.append s1 s2
    · obtain ⟨hx1, ha2⟩ := x1 ha (hb l (List.mem_cons_self _ _))
      have hx2 := x2 ha2 (fun x hx => hb x (List.mem_cons_of_mem _ hx))
      rw [inlineCommandValues_cons, hx1, hx2]

/-- What one line adds to the script buffer: the line itself, and only when it is not blank
and starts with no marker. -/
theorem scanLine_scriptLines_step (st : ScanState) (line : Str) :
    ∃ Y : List Str, (scanLine st line).scriptLines = st.scriptLines ++ Y ∧
      List.Sublist Y ([line].filter (fun l => !isBlank l && !isMarkerLine l)) := by
  unfold scanLine
  simp only []
  repeat' split
  all_goals first
    | exact ⟨[], (List.append_nil _).symm, List.nil_sublist _⟩
    | skip
  rename_i h1 h2 h3 h4 h5 h6 h7 h8
  refine ⟨[line], rfl, ?_⟩
  have hm : isMarkerLine line = false := by
    simp only [isMarkerLine, isValueMarkerLine, Bool.or_eq_false_iff]
    exact ⟨⟨⟨by simpa using h1, by simpa using h2⟩, by simpa using h3⟩, by simpa using h7⟩
  have hb : isBlank line = false := by
    simp only [Bool.and_eq_true, Bool.not_eq_true'] at h8
    exact h8.2
  simp [List.filter, hm, hb]

theorem scanLines_scriptLines_source (lines : List Str) (st : ScanState) :
    ∃ Y : List Str, (scanLines st lines).scriptLines = st.scriptLines ++ Y ∧
      List.Sublist Y (lines.filter (fun l => !isBlank l && !isMarkerLine l)) := by
  induction lines generalizing st with
  | nil => exact ⟨[], by simp [scanLines], List.nil_sublist _⟩
  | cons l ls ih =>
    obtain ⟨Y1, e1, s1⟩ := scanLine_scriptLines_step st l
    obtain ⟨Y2, e2, s2⟩ := ih (scanLine st l)
    refine ⟨Y1 ++ Y2, ?_, ?_⟩
    · show (scanLines (scanLine st l) ls).scriptLines = _
      rw [e2, e1, List.append_assoc]
    · have hf : List.filter (fun l => !isBlank l && !isMarkerLine l) (l :: ls) =
          List.filter (fun l => !isBlank l && !isMarkerLine l) [l] ++
            List.filter (fun l => !isBlank l && !isMarkerLine l) ls :=
        List.filter_append [l] ls
      rw [hf]
      exact List.Sublist.append s1 s2

/-- In script mode a line is appended to the script buffer exactly when it is not blank,
starts with no marker, and no field is awaited; script mode is never left. -/
theorem scanLine_script_mode (st : ScanState) (line : Str)
    (hp : st.passedScriptMarker = true) :
    (scanLine st line).scriptLines =
      st.scriptLines ++
        (if !isBlank line && !isMarkerLine line && noFieldAwaited st then [line] else []) ∧
    (scanLine st line).passedScriptMarker = true := by
  cases hT : HasPrefix (TrimSpace line) markerTitle with
  | true =>
    have hm : isMarkerLine line = true := by simp [isMarkerLine, isValueMarkerLine, hT]
    unfold scanLine
    simp only [hT, if_true, hm, Bool.not_true, Bool.and_false, Bool.false_and,
      Bool.false_eq_true, if_false, List.append_nil]
    split <;> exact ⟨rfl, hp⟩
  | false =>
    cases hD : HasPrefix (TrimSpace line) markerDescription with
    | true =>
      have hm : isMarkerLine line = true := by simp [isMarkerLine, isValueMarkerLine, hD]
      unfold scanLine
      simp only [hT, hD, if_true, hm, Bool.not_true, Bool.and_false, Bool.false_and,
        Bool.false_eq_true, if_false, List.append_nil]
      split <;> exact ⟨rfl, hp⟩
    | false =>
      cases hC : HasPrefix (TrimSpace line) markerCommand with
      | true =>
        have hm : isMarkerLine line = true := by simp [isMarkerLine, isValueMarkerLine, hC]
        unfold scanLine
        simp only [hT, hD, hC, if_true, hm, Bool.not_true, Bool.and_false, Bool.false_and,
          Bool.false_eq_true, if_false, List.append_nil]
        split <;> exact ⟨rfl, hp⟩
      | false =>
        cases hS : HasPrefix (TrimSpace line) markerScript <;>
        cases hE : (TrimSpace line).isEmpty <;>
        cases h1 : st.awaitingTitle <;>
        cases h2 : st.awaitingDescription <;>
        cases h3 : st.awaitingCommand <;>
        simp [scanLine, isMarkerLine, isValueMarkerLine, isBlank, noFieldAwaited, hT, hD, hC,
          hS, hE, h1, h2, h3, hp]

/-- In script mode the script buffer gains exactly the lines that are not blank, start with
no marker and are read while no field is awaited. -/
theorem scanLines_script_mode (lines : List Str) (st : ScanState)
    (hp : st.passedScriptMarker = true) :
    (scanLines st lines).scriptLines = st.scriptLines ++ appendedAfter st lines ∧
    (scanLines st lines).passedScriptMarker = true := by
  induction lines generalizing st with
  | nil => exact ⟨by simp [scanLines, appendedAfter], hp⟩
  | cons l ls ih =>
    obtain ⟨e1, p1⟩ := scanLine_script_mode st l hp
    obtain ⟨e2, p2⟩ := ih (scanLine st l) p1
    refine ⟨?_, p2⟩
    show (scanLines (scanLine st l) ls).scriptLines = _
    rw [e2, e1, List.append_assoc]
    rfl

/-- A `SCRIPT:` line met while no field is awaited switches script mode on and changes
nothing else. -/
theorem scanLine_script_line (st : ScanState) (s : Str) (hi : noFieldAwaited st = true)
    (hs : isScriptMarkerLine s = true) :
    scanLine st s = { st with passedScriptMarker := true } := by
  simp only [isScriptMarkerLine] at hs
  have hT : HasPrefix (TrimSpace s) markerTitle = false :=
    HasPrefix_other_head _ 'S' 'T' _ _ hs (by decide)
  have hD : HasPrefix (TrimSpace s) markerDescription = false :=
    HasPrefix_other_head _ 'S' 'D' _ _ hs (by decide)
  have hC : HasPrefix (TrimSpace s) markerCommand = false :=
    HasPrefix_other_head _ 'S' 'C' _ _ hs (by decide)
  simp only [noFieldAwaited, Bool.not_eq_true', Bool.or_eq_false_iff] at hi
  simp [scanLine, hs, hT, hD, hC, hi.1.1, hi.1.2, hi.2]

/-- While collecting, among settled lines exactly the lines that are not blank and start with
no marker are read with no field awaited. -/
theorem appendedAfter_settled (lines : List Str) (st : ScanState) (hst : Collecting st)
    (hl : ∀ l ∈ lines, isSettledLine l = true) :
    appendedAfter st lines = lines.filter (fun l => !isBlank l && !isMarkerLine l) := by
  have h1 := (scanLines_script_mode lines st hst.2.2.2).1
  have h2 := (scanLines_settled lines st hst hl).2
  rw [h1] at h2
  exact List.append_cancel_left h2

/-- A reply split at a `SCRIPT:` line that is met while no field is awaited: the script buffer
is what it held before, followed by the later lines that are not blank, start with no marker
and are read while no field is awaited. -/
theorem script_buffer_from_marker (raw : Str) (P R : List Str) (s : Str)
    (hsplit : Split raw '\n' = P ++ s :: R)
    (hi : noFieldAwaited (scanLines scanInit P) = true) (hs : isScriptMarkerLine s = true) :
    (markerScan raw).scriptLines =
      (scanLines scanInit P).scriptLines ++ appendedAfter (scanLine (scanLines scanInit P) s) R ∧
    Collecting (scanLine (scanLines scanInit P) s) := by
  have e := scanLine_script_line (scanLines scanInit P) s hi hs
  have hcoll : Collecting (scanLine (scanLines scanInit P) s) := by
    rw [e]
    simp only [noFieldAwaited, Bool.not_eq_true', Bool.or_eq_false_iff] at hi
    exact ⟨hi.1.1, hi.1.2, hi.2, rfl⟩
  refine ⟨?_, hcoll⟩
  unfold markerScan
  rw [hsplit, scanLines_append]
  show (scanLines (scanLine (scanLines scanInit P) s) R).scriptLines = _
  rw [(scanLines_script_mode R _ hcoll.2.2.2).1, e]

/-- Outside script mode the script buffer does not grow. -/
theorem scanLine_no_script_mode (st : ScanState) (line : Str)
    (hp : st.passedScriptMarker = false) :
    (scanLine st line).scriptLines = st.scriptLines := by
  unfold scanLine
  simp only []
  repeat' split
  all_goals first
    | rfl
    | (rename_i hx
       simp [hp] at hx)

/-- Before any `SCRIPT:` line has been read as the marker the script buffer is empty. -/
theorem scanLines_buffer_empty (lines : List Str) (st : ScanState)
    (h : st.passedScriptMarker = false → st.scriptLines = []) :
    (scanLines st lines).passedScriptMarker = false → (scanLines st lines).scriptLines = [] := by
  induction lines generalizing st with
  | nil => exact h
  | cons l ls ih =>
    apply ih (scanLine st l)
    intro hp2
    cases hp : st.passedScriptMarker with
    | false => rw [scanLine_no_script_mode st l hp]; exact h hp
    | true =>
      have := (scanLine_script_mode st l hp).2
      rw [this] at hp2
      exact Bool.noConfusion hp2

/-- A settled line read while no field is awaited leaves no field awaited, and leaves script
mode as it is unless it is a `SCRIPT:` line. -/
theorem scanLine_settled_flags (st : ScanState) (line : Str)
    (hi : noFieldAwaited st = true) (hl : isSettledLine line = true) :
    noFieldAwaited (scanLine st line) = true ∧
    (isScriptMarkerLine line = false →
      (scanLine st line).passedScriptMarker = st.passedScriptMarker) := by
  have hi' := hi
  simp only [noFieldAwaited, Bool.not_eq_true', Bool.or_eq_false_iff] at hi'
  obtain ⟨⟨h1, h2⟩, h3⟩ := hi'
  by_cases hm : isMarkerLine line = false
  · obtain ⟨hT, hD, hC, hS⟩ := isMarkerLine_false line hm
    cases hp : st.passedScriptMarker <;> cases hE : (TrimSpace line).isEmpty <;>
      simp [scanLine, noFieldAwaited, hT, hD, hC, hS, h1, h2, h3, hp, hE]
  · have hm' : isMarkerLine line = true := by simpa using hm
    simp only [isSettledLine, hm', Bool.not_true, Bool.false_or, Bool.or_eq_true] at hl
    rcases hl with (hl | hl) | hl
    · simp only [isInlineTitleLine, Bool.and_eq_true] at hl
      obtain ⟨hp, hv⟩ := hl
      simp [scanLine, noFieldAwaited, hp, hv]
    · simp only [isInlineCommandLine, Bool.and_eq_true] at hl
      obtain ⟨hp, hv⟩ := hl
      have hT : HasPrefix (TrimSpace line) markerTitle = false :=
        HasPrefix_other_head _ 'C' 'T' _ _ hp (by decide)
      have hD : HasPrefix (TrimSpace line) markerDescription = false :=
        HasPrefix_other_head _ 'C' 'D' _ _ hp (by decide)
      simp [scanLine, noFieldAwaited, hp, hv, hT, hD]
    · rw [scanLine_script_line st line hi hl]
      exact ⟨hi, fun h => by rw [hl] at h; exact Bool.noConfusion h⟩

theorem scanLines_settled_flags (lines : List Str) (st : ScanState)
    (hi : noFieldAwaited st = true) (hl : ∀ l ∈ lines, isSettledLine l = true) :
    noFieldAwaited (scanLines st lines) = true := by
  induction lines generalizing st with
  | nil => exact hi
  | cons l ls ih =>
    exact ih (scanLine st l) (scanLine_settled_flags st l hi (hl l (List.mem_cons_self _ _))).1
      (fun x hx => hl x (List.mem_cons_of_mem _ hx))

/-- The script buffer of settled lines read from outside script mode with no field awaited:
the lines after the first `SCRIPT:` line that are not blank and start with no marker. -/
theorem scanLines_settled_script (lines : List Str) (st : ScanState)
    (hi : noFieldAwaited st = true) (hp : st.passedScriptMarker = false)
    (hl : ∀ l ∈ lines, isSettledLine l = true) :
    (scanLines st lines).scriptLines = st.scriptLines ++ scriptPart lines := by
  induction lines generalizing st with
  | nil => simp [scanLines, scriptPart]
  | cons l ls ih =>
    have hls : ∀ x ∈ ls, isSettledLine x = true := fun x hx => hl x (List.mem_cons_of_mem _ hx)
    cases hs : isScriptMarkerLine l with
    | true =>
      have e := scanLine_script_line st l hi hs
      have hi' := hi
      simp only [noFieldAwaited, Bool.not_eq_true', Bool.or_eq_false_iff] at hi'
      have hcoll : Collecting (scanLine st l) := by
        rw [e]
        exact ⟨hi'.1.1, hi'.1.2, hi'.2, rfl⟩
      show (scanLines (scanLine st l) ls).scriptLines = _
      rw [(scanLines_settled ls _ hcoll hls).2, e]
      simp [scriptPart, List.dropWhile, hs]
    | false =>
      obtain ⟨hi2, hp2⟩ := scanLine_settled_flags st l hi (hl l (List.mem_cons_self _ _))
      show (scanLines (scanLine st l) ls).scriptLines = _
      rw [ih (scanLine st l) hi2 (by rw [hp2 hs]; exact hp) hls,
        scanLine_no_script_mode st l hp]
      simp [scriptPart, List.dropWhile, hs]

theorem not_bare_of_settled (line : Str) (h : isSettledLine line = true) :
    isBareCommandLine line = false := by
  cases hb : isBareCommandLine line with
  | false => rfl
  | true =>
    simp only [isBareCommandLine, Bool.and_eq_true] at hb
    obtain ⟨hp, hv⟩ := hb
    have hT : HasPrefix (TrimSpace line) markerTitle = false :=
      HasPrefix_other_head _ 'C' 'T' _ _ hp (by decide)
    have hS : HasPrefix (TrimSpace line) markerScript = false :=
      HasPrefix_other_head _ 'C' 'S' _ _ hp (by decide)
    have hv' : (TrimSpace (TrimPrefix (TrimSpace line) markerCommand)).isEmpty = true := hv
    simp [isSettledLine, isMarkerLine, isValueMarkerLine, isInlineTitleLine,
      isInlineCommandLine, isScriptMarkerLine, hp, hT, hS, hv'] at h

/-- The discrete commands and the script element of a reply, as far as they can be read off
its lines. -/
theorem commands_and_script_from_lines (raw : Str) :
    List.Sublist (inlineCommandValues (Split raw '\n')) (markerScan raw).Commands ∧
    List.Sublist (markerScan raw).scriptLines
      ((Split raw '\n').filter (fun l => !isBlank l && !isMarkerLine l)) ∧
    ((∀ l ∈ Split raw '\n', isBareCommandLine l = false) →
      (markerScan raw).Commands = inlineCommandValues (Split raw '\n')) ∧
    ((∀ l ∈ Split raw '\n', isSettledLine l = true) →
      (markerScan raw).Commands = inlineCommandValues (Split raw '\n') ∧
      (markerScan raw).scriptLines = scriptPart (Split raw '\n')) := by
  obtain ⟨X, e1, s1, x1⟩ := scanLines_Commands_values (Split raw '\n') scanInit
  obtain ⟨Y, e2, s2⟩ := scanLines_scriptLines_source (Split raw '\n') scanInit
  have hX : (markerScan raw).Commands = X := by
    unfold markerScan
    rw [e1]
    rfl
  have hY : (markerScan raw).scriptLines = Y := by
    unfold markerScan
    rw [e2]
    rfl
  have h3 : (∀ l ∈ Split raw '\n', isBareCommandLine l = false) →
      (markerScan raw).Commands = inlineCommandValues (Split raw '\n') := by
    intro hb
    rw [hX]
    exact x1 rfl hb
  refine ⟨by rw [hX]; exact s1, by rw [hY]; exact s2, h3, fun hl => ⟨?_, ?_⟩⟩
  · exact h3 (fun l hl2 => not_bare_of_settled l (hl l hl2))
  · unfold markerScan
    rw [scanLines_settled_script _ scanInit rfl rfl hl]
    rfl

/-- C6: for every reply for which the marker scan collects a non-empty script buffer, the
commands are the discrete commands followed by the joined script as last element. The
discrete commands hold the values of all `COMMAND:` lines with text in the order of the lines,
wherever these stand relative to the `SCRIPT:` line, and are exactly these values when no
`COMMAND:` line lacks its text; the script lines are lines of the reply that are not blank and
start with no marker, in their order. When every line starts with no marker, or is a `TITLE:`
or `COMMAND:` line with text, or a `SCRIPT:` line, the commands are the `COMMAND:` values in
order followed by the join of the non-blank marker-free lines after the first `SCRIPT:`
line. -/
theorem C6_script_after_discrete_commands (raw : Str)
    (h : (markerScan raw).scriptLines ≠ []) :
    (ParseResponse raw).Commands =
      (markerScan raw).Commands ++ [Join (markerScan raw).scriptLines nl] ∧
    (ParseResponse raw).Commands.getLast? = some (Join (markerScan raw).scriptLines nl) ∧
    (∀ pre suf : List Str, Split raw '\n' = pre ++ suf →
      (scanLines scanInit pre).Commands <+: (markerScan raw).Commands) ∧
    List.Sublist (inlineCommandValues (Split raw '\n')) (markerScan raw).Commands ∧
    List.Sublist (markerScan raw).scriptLines
      ((Split raw '\n').filter (fun l => !isBlank l && !isMarkerLine l)) ∧
    ((∀ l ∈ Split raw '\n', isBareCommandLine l = false) →
      (ParseResponse raw).Commands =
        inlineCommandValues (Split raw '\n') ++ [Join (markerScan raw).scriptLines nl]) ∧
    ((∀ l ∈ Split raw '\n', isSettledLine l = true) →
      (ParseResponse raw).Commands =
        inlineCommandValues (Split raw '\n') ++ [Join (scriptPart (Split raw '\n')) nl]) := by
  have hlen : 0 < (markerScan raw).scriptLines.length := List.length_pos.2 h
  have hmc : markerCommands raw =
      (markerScan raw).Commands ++ [Join (markerScan raw).scriptLines nl] := by
    simp [markerCommands, hlen]
  have hc : (ParseResponse raw).Commands =
      (markerScan raw).Commands ++ [Join (markerScan raw).scriptLines nl] := by
    rw [ParseResponse_Commands_of_marker _ (by rw [hmc]; simp), hmc]
  obtain ⟨s1, s2, x1, x2⟩ := commands_and_script_from_lines raw
  refine ⟨hc, by rw [hc]; simp, ?_, s1, s2, fun hb => ?_, fun hl => ?_⟩
  · intro pre suf hs
    unfold markerScan
    rw [hs, scanLines_append]
    exact scanLines_Commands_grow suf _
  · rw [hc, x1 hb]
  · obtain ⟨a, b⟩ := x2 hl
    rw [hc, a, b]

/-- Witness of C6 on the reply `"SCRIPT:\necho a\nCOMMAND: ls"`, whose commands are `"ls"`
and `"echo a"`: the command that stands after the `SCRIPT:` line comes first. -/
theorem C6_script_after_discrete_commands_witness :
    (markerScan "SCRIPT:\necho a\nCOMMAND: ls".toList).scriptLines ≠ [] ∧
    (∀ l ∈ Split "SCRIPT:\necho a\nCOMMAND: ls".toList '\n', isSettledLine l = true) ∧
    inlineCommandValues (Split "SCRIPT:\necho a\nCOMMAND: ls".toList '\n') = ["ls".toList] ∧
    scriptPart (Split "SCRIPT:\necho a\nCOMMAND: ls".toList '\n') = ["echo a".toList] ∧
    (markerScan "SCRIPT:\necho a\nCOMMAND: ls".toList).Commands = ["ls".toList] ∧
    (markerScan "SCRIPT:\necho a\nCOMMAND: ls".toList).scriptLines = ["echo a".toList] ∧
    (ParseResponse "SCRIPT:\necho a\nCOMMAND: ls".toList).Commands =
      ["ls".toList, "echo a".toList] :=
  ⟨by decide, by decide, by decide, by decide, by decide, by decide,
    ((C6_script_after_discrete_commands "SCRIPT:\necho a\nCOMMAND: ls".toList
      (by decide)).2.2.2.2.2.2 (by decide)).trans (by decide)⟩

/-- C23, amended: for every reply and every `SCRIPT:` line of it that is met while no field
is awaited, a later line is appended verbatim to the script buffer exactly when it is not
blank, starts with none of the four markers and is read while no field is awaited, up to the
end of the input. When every later line starts with no marker, or is a `TITLE:` or `COMMAND:`
line with text, or is a `SCRIPT:` line, these are the later lines that are not blank and start
with no marker, trailing prose included; and when this `SCRIPT:` line is the first one read as
the marker, they are the whole buffer and, if there is one, are joined with newlines into the
last command. -/
theorem C23_script_collects_lines_without_marker (raw : Str) (P R : List Str) (s : Str)
    (hsplit : Split raw '\n' = P ++ s :: R)
    (hi : noFieldAwaited (scanLines scanInit P) = true) (hs : isScriptMarkerLine s = true) :
    (markerScan raw).scriptLines =
      (scanLines scanInit P).scriptLines ++
        appendedAfter (scanLine (scanLines scanInit P) s) R ∧
    ((∀ l ∈ R, isSettledLine l = true) →
      (markerScan raw).scriptLines =
        (scanLines scanInit P).scriptLines ++
          R.filter (fun l => !isBlank l && !isMarkerLine l)) ∧
    ((scanLines scanInit P).passedScriptMarker = false →
      (∀ l ∈ R, isSettledLine l = true) →
      (markerScan raw).scriptLines = R.filter (fun l => !isBlank l && !isMarkerLine l) ∧
      ((∃ l ∈ R, isBlank l = false ∧ isMarkerLine l = false) →
        (ParseResponse raw).Commands.getLast? =
          some (Join (R.filter (fun l => !isBlank l && !isMarkerLine l)) nl))) := by
  obtain ⟨hb, hcoll⟩ := script_buffer_from_marker raw P R s hsplit hi hs
  have h2 : (∀ l ∈ R, isSettledLine l = true) →
      (markerScan raw).scriptLines =
        (scanLines scanInit P).scriptLines ++
          R.filter (fun l => !isBlank l && !isMarkerLine l) := by
    intro hR
    rw [hb, appendedAfter_settled R _ hcoll hR]
  refine ⟨hb, h2, fun hp hR => ?_⟩
  have hempty : (scanLines scanInit P).scriptLines = [] :=
    scanLines_buffer_empty P scanInit (fun _ => rfl) hp
  have h3 : (markerScan raw).scriptLines =
      R.filter (fun l => !isBlank l && !isMarkerLine l) := by
    rw [h2 hR, hempty, List.nil_append]
  refine ⟨h3, fun hne => ?_⟩
  have hF : R.filter (fun l => !isBlank l && !isMarkerLine l) ≠ [] := by
    obtain ⟨l, hl, h1, h2⟩ := hne
    apply List.ne_nil_of_mem (a := l)
    simp [List.mem_filter, hl, h1, h2]
  have hlen : 0 < (markerScan raw).scriptLines.length := by
    rw [h3]
    exact List.length_pos.2 hF
  have hmc : markerCommands raw =
      (markerScan raw).Commands ++ [Join (markerScan raw).scriptLines nl] := by
    simp [markerCommands, hlen]
  rw [ParseResponse_Commands_of_marker _ (by rw [hmc]; simp), hmc, h3]
  simp

/-- Witness of C23 as amended, on a reply of the documented form with a title before the
`SCRIPT:` line and, after it, a `COMMAND:` line, a blank line and trailing prose: the script
buffer is `echo a`, `That is all.`, and the commands are `"ls"` and
`"echo a\nThat is all."`. -/
theorem C23_script_collects_lines_without_marker_witness :
    (Split "TITLE: Build\nSCRIPT:\necho a\nCOMMAND: ls\n\nThat is all.".toList '\n' =
        ["TITLE: Build".toList] ++ "SCRIPT:".toList ::
          ["echo a".toList, "COMMAND: ls".toList, [], "That is all.".toList] ∧
      noFieldAwaited (scanLines scanInit ["TITLE: Build".toList]) = true ∧
      isScriptMarkerLine "SCRIPT:".toList = true ∧
      (scanLines scanInit ["TITLE: Build".toList]).passedScriptMarker = false ∧
      (∀ l ∈ ["echo a".toList, "COMMAND: ls".toList, [], "That is all.".toList],
        isSettledLine l = true) ∧
      (∃ l ∈ ["echo a".toList, "COMMAND: ls".toList, [], "That is all.".toList],
        isBlank l = false ∧ isMarkerLine l = false)) ∧
    (markerScan "TITLE: Build\nSCRIPT:\necho a\nCOMMAND: ls\n\nThat is all.".toList
      ).scriptLines = ["echo a".toList, "That is all.".toList] ∧
    (ParseResponse "TITLE: Build\nSCRIPT:\necho a\nCOMMAND: ls\n\nThat is all.".toList
      ).Commands.getLast? = some "echo a\nThat is all.".toList ∧
    (ParseResponse "TITLE: Build\nSCRIPT:\necho a\nCOMMAND: ls\n\nThat is all.".toList
      ).Commands = ["ls".toList, "echo a\nThat is all.".toList] :=
  ⟨by decide,
    ((C23_script_collects_lines_without_marker "TITLE: Build\nSCRIPT:\necho a\nCOMMAND: ls\n\nThat is all.".toList
      ["TITLE: Build".toList]
      ["echo a".toList, "COMMAND: ls".toList, [], "That is all.".toList] "SCRIPT:".toList
      (by decide) (by decide) (by decide)).2.2 (by decide) (by decide)).1.trans (by decide),
    (((C23_script_collects_lines_without_marker "TITLE: Build\nSCRIPT:\necho a\nCOMMAND: ls\n\nThat is all.".toList
      ["TITLE: Build".toList]
      ["echo a".toList, "COMMAND: ls".toList, [], "That is all.".toList] "SCRIPT:".toList
      (by decide) (by decide) (by decide)).2.2 (by decide) (by decide)).2
        (by decide)).trans (by decide),
    by decide⟩

/-- Lines each of which starts with no marker, or is a `TITLE:` or `COMMAND:` line with text,
leave no field awaited and script mode off: a `SCRIPT:` line that follows them is read as the
marker, and is the first. -/
theorem settled_lines_before_script (P : List Str)
    (hP : ∀ l ∈ P, isSettledLine l = true ∧ isScriptMarkerLine l = false) :
    noFieldAwaited (scanLines scanInit P) = true ∧
    (scanLines scanInit P).passedScriptMarker = false := by
  have gen : ∀ (lines : List Str) (st : ScanState), noFieldAwaited st = true →
      st.passedScriptMarker = false →
      (∀ l ∈ lines, isSettledLine l = true ∧ isScriptMarkerLine l = false) →
      noFieldAwaited (scanLines st lines) = true ∧
        (scanLines st lines).passedScriptMarker = false := by
    intro lines
    induction lines with
    | nil => exact fun st hi hp _ => ⟨hi, hp⟩
    | cons l ls ih =>
      intro st hi hp hl
      obtain ⟨h1, h2⟩ := hl l (List.mem_cons_self _ _)
      obtain ⟨a, b⟩ := scanLine_settled_flags st l hi h1
      exact ih (scanLine st l) a (by rw [b h2]; exact hp)
        (fun x hx => hl x (List.mem_cons_of_mem _ hx))
  exact gen P scanInit rfl rfl hP

/-- The reply of the witness of C23, evaluated. -/
theorem sample_title_script_trailing_prose :
    ParseResponse "TITLE: Build\nSCRIPT:\necho a\nCOMMAND: ls\n\nThat is all.".toList =
      { Title := "Build".toList, Description := [],
        Commands := ["ls".toList, "echo a\nThat is all.".toList],
        RawResponse :=
          "TITLE: Build\nSCRIPT:\necho a\nCOMMAND: ls\n\nThat is all.".toList } := by
  decide

/-- A reply with prose before the `SCRIPT:` line, evaluated: the commands are `"ls"` and the
script `"echo a\nThat is all."`. -/
theorem sample_script_with_trailing_prose :
    (ParseResponse "Steps\nSCRIPT:\necho a\nCOMMAND: ls\n\nThat is all.".toList).Commands =
      ["ls".toList, "echo a\nThat is all.".toList] := by decide

theorem mem_snoc_ne_nil (L : List Str) (x : Str) (hL : ∀ c ∈ L, c ≠ [])
    (hx : x.isEmpty = false) : ∀ c ∈ L ++ [x], c ≠ [] := by
  intro c hc
  rcases List.mem_append.1 hc with h | h
  · exact hL c h
  · rw [List.mem_singleton.1 h]
    intro he
    rw [he] at hx
    exact Bool.noConfusion hx

theorem isEmpty_false_of_TrimSpace (line : Str) (h : (TrimSpace line).isEmpty = false) :
    line.isEmpty = false := by
  cases line with
  | nil => exact absurd h (by decide)
  | cons _ _ => rfl

theorem scanLine_NonEmptyBuffers (st : ScanState) (line : Str) (h : NonEmptyBuffers st) :
    NonEmptyBuffers (scanLine st line) := by
  obtain ⟨hc, hs⟩ := h
  unfold scanLine
  simp only []
  repeat' split
  all_goals first
    | exact ⟨hc, hs⟩
    | (rename_i hx
       refine ⟨mem_snoc_ne_nil _ _ hc ?_, hs⟩
       simpa using hx)
    | (rename_i hx
       refine ⟨mem_snoc_ne_nil _ _ hc ?_, hs⟩
       simp only [Bool.and_eq_true, Bool.not_eq_true'] at hx
       exact hx.1)
    | (rename_i hx
       refine ⟨hc, mem_snoc_ne_nil _ _ hs ?_⟩
       simp only [Bool.and_eq_true, Bool.not_eq_true'] at hx
       exact isEmpty_false_of_TrimSpace _ hx.2)

theorem scanLines_NonEmptyBuffers (lines : List Str) (st : ScanState)
    (h : NonEmptyBuffers st) : NonEmptyBuffers (scanLines st lines) := by
  induction lines generalizing st with
  | nil => exact h
  | cons l ls ih => exact ih (scanLine st l) (scanLine_NonEmptyBuffers st l h)

theorem Join_ne_nil (L : List Str) (hL : L ≠ []) (h : ∀ l ∈ L, l ≠ []) : Join L nl ≠ [] := by
  cases L with
  | nil => exact absurd rfl hL
  | cons a rest =>
    have ha : a ≠ [] := h a (List.mem_cons_self _ _)
    cases rest with
    | nil => simpa [Join] using ha
    | cons b r =>
      simp only [Join]
      intro he
      have := List.append_eq_nil.1 he
      exact ha (List.append_eq_nil.1 this.1).1

/-- No command that the first pass yields is the empty string. -/
theorem markerCommands_ne_nil (raw : Str) : ∀ c ∈ markerCommands raw, c ≠ [] := by
  have hinv : NonEmptyBuffers (markerScan raw) :=
    scanLines_NonEmptyBuffers _ scanInit ⟨by simp [scanInit], by simp [scanInit]⟩
  unfold markerCommands
  simp only []
  split
  · rename_i hlen
    intro c hc
    rcases List.mem_append.1 hc with h | h
    · exact hinv.1 c h
    · rw [List.mem_singleton.1 h]
      exact Join_ne_nil _ (List.length_pos.1 hlen) hinv.2
  · exact hinv.1

/-- When the fenced-block scan yields nothing, no command is the empty string. -/
theorem Commands_ne_nil_without_blocks (raw : Str) (h : extractCodeBlocks raw = []) :
    ∀ c ∈ (ParseResponse raw).Commands, c ≠ [] := by
  by_cases hm : markerCommands raw = []
  · by_cases hr : raw = []
    · subst hr
      have e : (ParseResponse []).Commands = [] := by decide
      rw [e]
      intro c hc
      exact absurd hc (List.not_mem_nil c)
    · rw [ParseResponse_Commands_fallback raw hr hm h]
      intro c hc
      rw [List.mem_singleton.1 hc]
      exact hr
  · rw [ParseResponse_Commands_of_marker raw hm]
    exact markerCommands_ne_nil raw

/-- C28, evaluated on the reply of three lines, a fence, an empty line, a fence: the only
command is the empty string. -/
theorem C28_blank_fenced_block_gives_empty_command :
    (ParseResponse "```\n\n```".toList).Commands = [[]] ∧
    ([] : Str) ∈ (ParseResponse "```\n\n```".toList).Commands ∧
    extractCodeBlocks "```\n\n```".toList = [[]] := by
  decide

/-! ## Base URL validation: the claims -/

/-- What `validateBaseURL` returns for a URL that parses: an error exactly when the scheme is
neither `http` nor `https`, and otherwise the warning exactly when the scheme is `http` and
the host starts neither with `localhost` nor with `127.0.0.1`. -/
theorem validateBaseURL_parsed (urlParse : Str → Except Str URL) (rawURL : Str) (u : URL)
    (h : urlParse rawURL = Except.ok u) :
    ((validateBaseURL urlParse rawURL).1.isSome = true ↔
      (u.Scheme ≠ "http".toList ∧ u.Scheme ≠ "https".toList)) ∧
    ((validateBaseURL urlParse rawURL).1 = none →
      ((validateBaseURL urlParse rawURL).2 = httpWarning ↔
        (u.Scheme = "http".toList ∧ HasPrefix u.Host "localhost".toList = false ∧
          HasPrefix u.Host "127.0.0.1".toList = false))) := by
  have hw : httpWarning ≠ [] := by decide
  simp only [validateBaseURL, h]
  by_cases h1 : u.Scheme ≠ "http".toList ∧ u.Scheme ≠ "https".toList
  · rw [if_pos h1]
    refine ⟨⟨fun _ => h1, fun _ => rfl⟩, fun hh => ?_⟩
    simp at hh
  · rw [if_neg h1]
    by_cases h2 : u.Scheme = "http".toList ∧ (!HasPrefix u.Host "localhost".toList) = true ∧
        (!HasPrefix u.Host "127.0.0.1".toList) = true
    · rw [if_pos h2]
      refine ⟨⟨fun hh => by simp at hh, fun hh => absurd hh h1⟩, fun _ => ?_⟩
      refine ⟨fun _ => ⟨h2.1, by simpa using h2.2.1, by simpa using h2.2.2⟩, fun _ => rfl⟩
    · rw [if_neg h2]
      refine ⟨⟨fun hh => by simp at hh, fun hh => absurd hh h1⟩, fun _ => ?_⟩
      refine ⟨fun hh => absurd hh.symm hw, fun hh => ?_⟩
      exact absurd ⟨hh.1, by simpa using hh.2.1, by simpa using hh.2.2⟩ h2

/-- C27, evaluated on a URL with scheme `http` and the remote host `localhost.example.com`:
`validateBaseURL` returns neither an error nor the warning, because the host starts with
`localhost`; the same holds for the remote host `127.0.0.1.example.com`. A remote host such
as `api.example.com` is warned about. -/
theorem C27_remote_host_named_localhost_not_warned :
    validateBaseURL
      (fun _ => Except.ok { Scheme := "http".toList, Host := "localhost.example.com".toList })
      "http://localhost.example.com/v1".toList = (none, []) ∧
    validateBaseURL
      (fun _ => Except.ok { Scheme := "http".toList, Host := "127.0.0.1.example.com".toList })
      "http://127.0.0.1.example.com/v1".toList = (none, []) ∧
    validateBaseURL
      (fun _ => Except.ok { Scheme := "http".toList, Host := "api.example.com".toList })
      "http://api.example.com/v1".toList = (none, httpWarning) := by
  decide

/-! ## Clear-keys UI model: the claims -/

namespace Clear

theorem toggleSelected_length (ps : List providerItem) (i : Nat) :
    (toggleSelected ps i).length = ps.length := by
  induction ps generalizing i with
  | nil => rfl
  | cons p rest ih =>
    cases i with
    | zero => rfl
    | succ i => simp [toggleSelected, ih]

theorem toggleSelected_name (ps : List providerItem) (i : Nat) :
    (toggleSelected ps i).map (fun p => p.name) = ps.map (fun p => p.name) := by
  induction ps generalizing i with
  | nil => rfl
  | cons p rest ih =>
    cases i with
    | zero => rfl
    | succ i => simp [toggleSelected, ih]

theorem toggleSelected_hasKey (ps : List providerItem) (i : Nat) :
    (toggleSelected ps i).map (fun p => p.hasKey) = ps.map (fun p => p.hasKey) := by
  induction ps generalizing i with
  | nil => rfl
  | cons p rest ih =>
    cases i with
    | zero => rfl
    | succ i => simp [toggleSelected, ih]

theorem toggleSelected_other (ps : List providerItem) (i j : Nat) (h : j ≠ i) :
    (toggleSelected ps i)[j]? = ps[j]? := by
  induction ps generalizing i j with
  | nil => rfl
  | cons p rest ih =>
    cases i with
    | zero =>
      cases j with
      | zero => exact absurd rfl h
      | succ j => rfl
    | succ i =>
      cases j with
      | zero => simp [toggleSelected]
      | succ j =>
        simp only [toggleSelected, List.getElem?_cons_succ]
        exact ih i j (fun e => h (by rw [e]))

/-- The loop of the `enter` case leaves the rows and the cursor as they are. -/
theorem clearSelected_frame (keyringDelete : Str → Str → Option KeyringError)
    (items : List providerItem) (m : Model) :
    (clearSelected keyringDelete items m).1.providers = m.providers ∧
    (clearSelected keyringDelete items m).1.cursor = m.cursor := by
  induction items generalizing m with
  | nil => exact ⟨rfl, rfl⟩
  | cons p rest ih =>
    unfold clearSelected
    split
    · split
      · exact ⟨rfl, rfl⟩
      · exact ih _
    · exact ih _

/-- One step of `Update` from a model whose cursor is a valid index: the program is not
stopped, the cursor stays a valid index, the rows keep their number, names and `hasKey`
flags, and every row that is not under the cursor is unchanged. -/
theorem Update_step (keyringDelete : Str → Str → Option KeyringError) (m : Model) (msg : Msg)
    (h0 : 0 ≤ m.cursor) (h1 : m.cursor < (m.providers.length : Int)) :
    ∃ m2 cmd, m.Update keyringDelete msg = some (m2, cmd) ∧
      0 ≤ m2.cursor ∧ m2.cursor < (m2.providers.length : Int) ∧
      m2.providers.length = m.providers.length ∧
      m2.providers.map (fun p => p.name) = m.providers.map (fun p => p.name) ∧
      m2.providers.map (fun p => p.hasKey) = m.providers.map (fun p => p.hasKey) ∧
      ∀ j : Nat, (j : Int) ≠ m.cursor → m2.providers[j]? = m.providers[j]? := by
  cases msg with
  | other => exact ⟨m, Cmd.nil, rfl, h0, h1, rfl, rfl, rfl, fun _ _ => rfl⟩
  | KeyMsg key =>
    unfold Model.Update
    simp only []
    split
    · split
      · exact ⟨_, _, rfl, h0, h1, rfl, rfl, rfl, fun _ _ => rfl⟩
      · split
        · split
          · refine ⟨_, _, rfl, ?_, ?_, rfl, rfl, rfl, fun _ _ => rfl⟩
            · show 0 ≤ m.cursor - 1
              omega
            · show m.cursor - 1 < (m.providers.length : Int)
              omega
          · exact ⟨_, _, rfl, h0, h1, rfl, rfl, rfl, fun _ _ => rfl⟩
        · split
          · split
            · rename_i hlt
              refine ⟨_, _, rfl, ?_, ?_, rfl, rfl, rfl, fun _ _ => rfl⟩
              · show 0 ≤ m.cursor + 1
                omega
              · show m.cursor + 1 < (m.providers.length : Int)
                omega
            · exact ⟨_, _, rfl, h0, h1, rfl, rfl, rfl, fun _ _ => rfl⟩
          · split
            · rw [if_pos ⟨h0, h1⟩]
              refine ⟨_, _, rfl, h0, ?_, ?_, ?_, ?_, ?_⟩
              · show m.cursor < ((toggleSelected m.providers m.cursor.toNat).length : Int)
                rw [toggleSelected_length]
                exact h1
              · exact toggleSelected_length _ _
              · exact toggleSelected_name _ _
              · exact toggleSelected_hasKey _ _
              · intro j hj
                apply toggleSelected_other
                intro e
                apply hj
                rw [e]
                exact Int.toNat_of_nonneg h0
            · split
              · obtain ⟨hp, hc⟩ := clearSelected_frame keyringDelete m.providers m
                cases hcs : clearSelected keyringDelete m.providers m with
                | mk m3 returned =>
                  rw [hcs] at hp hc
                  simp only at hp hc
                  cases returned with
                  | true =>
                    refine ⟨m3, Cmd.Quit, rfl, ?_, ?_, ?_, ?_, ?_, ?_⟩
                    · rw [hc]; exact h0
                    · rw [hc, hp]; exact h1
                    · rw [hp]
                    · rw [hp]
                    · rw [hp]
                    · intro j _; rw [hp]
                  | false =>
                    refine ⟨{ m3 with state := State.stateDone }, Cmd.Quit, rfl,
                      ?_, ?_, ?_, ?_, ?_, ?_⟩
                    · show 0 ≤ m3.cursor
                      rw [hc]; exact h0
                    · show m3.cursor < (m3.providers.length : Int)
                      rw [hc, hp]; exact h1
                    · show m3.providers.length = _
                      rw [hp]
                    · show m3.providers.map _ = _
                      rw [hp]
                    · show m3.providers.map _ = _
                      rw [hp]
                    · intro j _
                      show m3.providers[j]? = _
                      rw [hp]
              · exact ⟨_, _, rfl, h0, h1, rfl, rfl, rfl, fun _ _ => rfl⟩
    · exact ⟨_, _, rfl, h0, h1, rfl, rfl, rfl, fun _ _ => rfl⟩

theorem runUpdates_invariant (keyringDelete : Str → Str → Option KeyringError)
    (msgs : List Msg) (m : Model) (h0 : 0 ≤ m.cursor)
    (h1 : m.cursor < (m.providers.length : Int)) :
    ∃ m2, runUpdates keyringDelete m msgs = some m2 ∧
      0 ≤ m2.cursor ∧ m2.cursor < (m2.providers.length : Int) ∧
      m2.providers.length = m.providers.length ∧
      m2.providers.map (fun p => p.name) = m.providers.map (fun p => p.name) ∧
      m2.providers.map (fun p => p.hasKey) = m.providers.map (fun p => p.hasKey) := by
  induction msgs generalizing m with
  | nil => exact ⟨m, rfl, h0, h1, rfl, rfl, rfl⟩
  | cons msg rest ih =>
    obtain ⟨m2, cmd, hu, a0, a1, al, an, ak, _⟩ := Update_step keyringDelete m msg h0 h1
    obtain ⟨m3, hr, b0, b1, bl, bn, bk⟩ := ih m2 a0 a1
    refine ⟨m3, ?_, b0, b1, bl.trans al, bn.trans an, bk.trans ak⟩
    simp only [runUpdates, hu]
    exact hr

theorem NewModel_rows (keyringGet : Str → Str → Str × Option KeyringError) :
    (NewModel keyringGet).cursor = 0 ∧ (NewModel keyringGet).providers.length = 5 ∧
    (NewModel keyringGet).providers.map (fun p => p.name) = GetProviders := by
  refine ⟨rfl, rfl, ?_⟩
  simp [NewModel, GetProviders]

end Clear

/-- C29: in the clear-keys model the cursor stays a valid index: starting from `NewModel`,
which has five rows and the cursor at 0, every finite sequence of messages applied through
`Update` runs without an index out of range and ends in a model with
`0 ≤ cursor < len(providers)`, five rows, and the names and `hasKey` flags of `NewModel`;
and a step of `Update` from a model with a valid cursor leaves every row that is not under the
cursor unchanged and changes no name and no `hasKey` flag. -/
theorem C29_cursor_stays_valid (keyringGet : Str → Str → Str × Option KeyringError)
    (keyringDelete : Str → Str → Option KeyringError) (msgs : List Clear.Msg) :
    (∃ m : Clear.Model,
      Clear.runUpdates keyringDelete (Clear.NewModel keyringGet) msgs = some m ∧
      0 ≤ m.cursor ∧ m.cursor < (m.providers.length : Int) ∧ m.providers.length = 5 ∧
      m.providers.map (fun p => p.name) = GetProviders ∧
      m.providers.map (fun p => p.hasKey) =
        (Clear.NewModel keyringGet).providers.map (fun p => p.hasKey)) ∧
    (∀ (m : Clear.Model) (msg : Clear.Msg), 0 ≤ m.cursor →
      m.cursor < (m.providers.length : Int) →
      ∃ m2 cmd, m.Update keyringDelete msg = some (m2, cmd) ∧
        m2.providers.map (fun p => p.name) = m.providers.map (fun p => p.name) ∧
        m2.providers.map (fun p => p.hasKey) = m.providers.map (fun p => p.hasKey) ∧
        ∀ j : Nat, (j : Int) ≠ m.cursor → m2.providers[j]? = m.providers[j]?) := by
  obtain ⟨hc, hl, hn⟩ := Clear.NewModel_rows keyringGet
  constructor
  · obtain ⟨m2, hr, b0, b1, bl, bn, bk⟩ := Clear.runUpdates_invariant keyringDelete msgs
      (Clear.NewModel keyringGet) (by rw [hc]) (by rw [hc, hl]; decide)
    exact ⟨m2, hr, b0, b1, bl.trans hl, bn.trans hn, bk⟩
  · intro m msg h0 h1
    obtain ⟨m2, cmd, hu, _, _, _, an, ak, ao⟩ := Clear.Update_step keyringDelete m msg h0 h1
    exact ⟨m2, cmd, hu, an, ak, ao⟩

/-- Witness of C29: from `NewModel`, six times `down`, a space, `up` and a space end on a
valid cursor with five rows. -/
theorem C29_cursor_stays_valid_witness :
    ∃ m : Clear.Model,
      Clear.runUpdates (fun _ _ => none) (Clear.NewModel Clear.sampleKeyringGet)
        [Clear.Msg.KeyMsg "down".toList, Clear.Msg.KeyMsg "down".toList,
          Clear.Msg.KeyMsg "down".toList, Clear.Msg.KeyMsg "down".toList,
          Clear.Msg.KeyMsg "down".toList, Clear.Msg.KeyMsg "down".toList,
          Clear.Msg.KeyMsg " ".toList, Clear.Msg.KeyMsg "up".toList,
          Clear.Msg.KeyMsg " ".toList] = some m ∧
      0 ≤ m.cursor ∧ m.cursor < (m.providers.length : Int) ∧ m.providers.length = 5 ∧
      m.providers.map (fun p => p.name) = GetProviders ∧
      m.providers.map (fun p => p.hasKey) =
        (Clear.NewModel Clear.sampleKeyringGet).providers.map (fun p => p.hasKey) :=
  (C29_cursor_stays_valid Clear.sampleKeyringGet (fun _ _ => none)
    [Clear.Msg.KeyMsg "down".toList, Clear.Msg.KeyMsg "down".toList,
      Clear.Msg.KeyMsg "down".toList, Clear.Msg.KeyMsg "down".toList,
      Clear.Msg.KeyMsg "down".toList, Clear.Msg.KeyMsg "down".toList,
      Clear.Msg.KeyMsg " ".toList, Clear.Msg.KeyMsg "up".toList,
      Clear.Msg.KeyMsg " ".toList]).1

/-- The run of the witness, evaluated: the cursor ends on row 3, and rows 3 and 4 are
selected. -/
theorem sample_clear_run :
    (Clear.runUpdates (fun _ _ => none) (Clear.NewModel Clear.sampleKeyringGet)
        [Clear.Msg.KeyMsg "down".toList, Clear.Msg.KeyMsg "down".toList,
          Clear.Msg.KeyMsg "down".toList, Clear.Msg.KeyMsg "down".toList,
          Clear.Msg.KeyMsg "down".toList, Clear.Msg.KeyMsg "down".toList,
          Clear.Msg.KeyMsg " ".toList, Clear.Msg.KeyMsg "up".toList,
          Clear.Msg.KeyMsg " ".toList]).map
      (fun m => (m.cursor, m.providers.map (fun p => p.selected))) =
      some (3, [false, false, false, true, true]) := by
  decide

/-! ## The sample replies of the specification, evaluated -/

/-- The reply `"SCRIPT:\necho a\nCOMMAND: ls"` gives the commands `"ls"`, `"echo a"`. -/
theorem sample_command_after_script :
    (ParseResponse "SCRIPT:\necho a\nCOMMAND: ls".toList).Commands =
      ["ls".toList, "echo a".toList] := by decide

/-- The reply `"SCRIPT:\necho hi\n\necho bye"` gives the one command `"echo hi\necho bye"`. -/
theorem sample_script_blank_line :
    (ParseResponse "SCRIPT:\necho hi\n\necho bye".toList).Commands =
      ["echo hi\necho bye".toList] := by decide

/-- The inline reply `"TITLE: Find process\nCOMMAND: lsof -i :3000"`. -/
theorem sample_inline :
    ParseResponse "TITLE: Find process\nCOMMAND: lsof -i :3000".toList =
      { Title := "Find process".toList, Description := [],
        Commands := ["lsof -i :3000".toList],
        RawResponse := "TITLE: Find process\nCOMMAND: lsof -i :3000".toList } := by decide

/-- The split reply `"TITLE:\nFind process\nCOMMAND:\nlsof -i :3000"`. -/
theorem sample_split :
    (ParseResponse "TITLE:\nFind process\nCOMMAND:\nlsof -i :3000".toList).Title =
      "Find process".toList ∧
    (ParseResponse "TITLE:\nFind process\nCOMMAND:\nlsof -i :3000".toList).Commands =
      ["lsof -i :3000".toList] := by decide

/-- The fenced reply of three lines, fence, `ls -la`, fence, gives the command `"ls -la"`. -/
theorem sample_fenced :
    (ParseResponse "```\nls -la\n```".toList).Commands = ["ls -la".toList] := by decide

/-- The reply built from `fencedExample` gives the commands `"ls -la"` and `"cd /tmp\npwd"`. -/
theorem sample_fenced_two_blocks :
    (ParseResponse (Join (fencedReplyLines ["Run:".toList] fencedExample) nl)).Commands =
      ["ls -la".toList, "cd /tmp\npwd".toList] := by decide

end How
